import Mathlib

/-!
# PTLC atomic swap over Ed25519 adaptor signatures

A shallow embedding of `crypto/ed25519/ed25519.go` and of the cryptographic
steps of `app/main.go`, with the properties of the swap proved about it.

* Byte slices are lists of bytes; a Go `[32]byte` buffer filled by `copy` is
  the list truncated or zero-padded to 32 bytes.  Scalars are read
  little-endian.
* SHA-512 is defined in full.
* The package `internal/edwards25519` is not among the sources.  Its scalar
  functions are arithmetic modulo the group order `L`; its group of curve
  points, with the encoding of points, is a parameter `Edwards25519` of the
  development, and `logModel` is a concrete instance of it.
* A fallible Go function returns an `Option`; `none` is a panic, or the error
  return of `GenerateKey2`.
* The two parties are given twice: as phases composed into the run
  `honestRun`, and as processes over their incoming messages
  (`party_alice.proc`, `party_bob.proc`) with the hex transport of
  `encoding/hex`; `honestRun_processes` relates the two.  The functions of
  go-zenon that the parties call are a parameter `Zenon`.
-/

namespace PTLC

/-! ## Bytes -/

/-- One octet. -/
abbrev Byte := Fin 256

/-- A Go byte slice. -/
abbrev Bytes := List Byte

/-- Little-endian value of a byte string. -/
def leNat : Bytes → Nat
  | [] => 0
  | b :: bs => b.val + 256 * leNat bs

/-- The `len` low-order bytes of `n`, little-endian. -/
def leBytes : Nat → Nat → Bytes
  | 0, _ => []
  | len + 1, n => Fin.ofNat (n % 256) :: leBytes len (n / 256)

/-- Go's `copy(dst[:], src)` into a zeroed buffer of `n` bytes: the first `n`
bytes of `src`, zero-padded when `src` is shorter. -/
def copyN (n : Nat) (src : Bytes) : Bytes :=
  src.take n ++ List.replicate (n - src.length) 0

/-- A zeroed `[32]byte` after `copy(buf[:], src)`. -/
def copy32 (src : Bytes) : Bytes := copyN 32 src

/-- Go's `bytes.Equal`. -/
def bytesEqual (a b : Bytes) : Bool := decide (a = b)

/-! ## SHA-512 (Go's `crypto/sha512`, FIPS 180-4) -/

/-- Rotation of the 64-bit word `x` to the right by `r` bits. -/
def rotr64 (r x : Nat) : Nat := ((x >>> r) ||| (x <<< (64 - r))) % 2 ^ 64

/-- Big-endian value of a byte string. -/
def beNat (bs : Bytes) : Nat := bs.foldl (fun acc b => 256 * acc + b.val) 0

/-- The `len` low-order bytes of `n`, big-endian. -/
def beBytes : Nat → Nat → Bytes
  | 0, _ => []
  | len + 1, n => Fin.ofNat (n / 256 ^ len % 256) :: beBytes len n

/-- Round constants (FIPS 180-4, 4.2.3): the first 64 bits of the fractional
parts of the cube roots of the first eighty primes, `0x428a2f98d728ae22` to
`0x6c44198c4a475817`. -/
def sha512K : List Nat :=
  [
    4794697086780616226, 8158064640168781261, 13096744586834688815, 16840607885511220156,
    4131703408338449720, 6480981068601479193, 10538285296894168987, 12329834152419229976,
    15566598209576043074, 1334009975649890238, 2608012711638119052, 6128411473006802146,
    8268148722764581231, 9286055187155687089, 11230858885718282805, 13951009754708518548,
    16472876342353939154, 17275323862435702243, 1135362057144423861, 2597628984639134821,
    3308224258029322869, 5365058923640841347, 6679025012923562964, 8573033837759648693,
    10970295158949994411, 12119686244451234320, 12683024718118986047, 13788192230050041572,
    14330467153632333762, 15395433587784984357, 489312712824947311, 1452737877330783856,
    2861767655752347644, 3322285676063803686, 5560940570517711597, 5996557281743188959,
    7280758554555802590, 8532644243296465576, 9350256976987008742, 10552545826968843579,
    11727347734174303076, 12113106623233404929, 14000437183269869457, 14369950271660146224,
    15101387698204529176, 15463397548674623760, 17586052441742319658, 1182934255886127544,
    1847814050463011016, 2177327727835720531, 2830643537854262169, 3796741975233480872,
    4115178125766777443, 5681478168544905931, 6601373596472566643, 7507060721942968483,
    8399075790359081724, 8693463985226723168, 9568029438360202098, 10144078919501101548,
    10430055236837252648, 11840083180663258601, 13761210420658862357, 14299343276471374635,
    14566680578165727644, 15097957966210449927, 16922976911328602910, 17689382322260857208,
    500013540394364858, 748580250866718886, 1242879168328830382, 1977374033974150939,
    2944078676154940804, 3659926193048069267, 4368137639120453308, 4836135668995329356,
    5532061633213252278, 6448918945643986474, 6902733635092675308, 7801388544844847127
  ]


/-- SHA-512 padding (FIPS 180-4, 5.1.2): a `0x80` byte, zeros up to 112 modulo
128, then the bit length as a 128-bit big-endian number. -/
def sha512Pad (msg : Bytes) : Bytes :=
  msg ++ [0x80] ++ List.replicate ((239 - msg.length % 128) % 128) 0 ++ beBytes 16 (8 * msg.length)

/-- The sixteen big-endian 64-bit words of a block, first word first. -/
def sha512Words : Nat → Bytes → List Nat
  | 0, _ => []
  | n + 1, bs => beNat (bs.take 8) :: sha512Words n (bs.drop 8)

/-- Message schedule (FIPS 180-4, 6.4.2 step 1), most recent word first:
extends the list by `n` words. -/
def sha512Schedule : Nat → List Nat → List Nat
  | 0, w => w
  | n + 1, w =>
    let w2 := w.getD 1 0
    let w7 := w.getD 6 0
    let w15 := w.getD 14 0
    let w16 := w.getD 15 0
    let s0 := rotr64 1 w15 ^^^ rotr64 8 w15 ^^^ (w15 >>> 7)
    let s1 := rotr64 19 w2 ^^^ rotr64 61 w2 ^^^ (w2 >>> 6)
    sha512Schedule n (((s1 + w7 + s0 + w16) % 2 ^ 64) :: w)

/-- The eight working variables `a` to `h`. -/
structure Sha512State where
  a : Nat
  b : Nat
  c : Nat
  d : Nat
  e : Nat
  f : Nat
  g : Nat
  h : Nat

/-- Initial hash value (FIPS 180-4, 5.3.5). -/
def sha512Init : Sha512State :=
  { a := 0x6a09e667f3bcc908, b := 0xbb67ae8584caa73b, c := 0x3c6ef372fe94f82b, d := 0xa54ff53a5f1d36f1,
    e := 0x510e527fade682d1, f := 0x9b05688c2b3e6c1f, g := 0x1f83d9abfb41bd6b, h := 0x5be0cd19137e2179 }

/-- One round (FIPS 180-4, 6.4.2 step 3) with round constant `k` and schedule
word `w`. -/
def sha512Round (s : Sha512State) (kw : Nat × Nat) : Sha512State :=
  let S1 := rotr64 14 s.e ^^^ rotr64 18 s.e ^^^ rotr64 41 s.e
  let ch := (s.e &&& s.f) ^^^ ((s.e ^^^ (2 ^ 64 - 1)) &&& s.g)
  let t1 := (s.h + S1 + ch + kw.1 + kw.2) % 2 ^ 64
  let S0 := rotr64 28 s.a ^^^ rotr64 34 s.a ^^^ rotr64 39 s.a
  let maj := (s.a &&& s.b) ^^^ (s.a &&& s.c) ^^^ (s.b &&& s.c)
  let t2 := (S0 + maj) % 2 ^ 64
  { a := (t1 + t2) % 2 ^ 64, b := s.a, c := s.b, d := s.c,
    e := (s.d + t1) % 2 ^ 64, f := s.e, g := s.f, h := s.g }

/-- Compression of one 128-byte block into the chaining value. -/
def sha512Block (s : Sha512State) (block : Bytes) : Sha512State :=
  let w := (sha512Schedule 64 (sha512Words 16 block).reverse).reverse
  let r := (sha512K.zip w).foldl sha512Round s
  { a := (s.a + r.a) % 2 ^ 64, b := (s.b + r.b) % 2 ^ 64,
    c := (s.c + r.c) % 2 ^ 64, d := (s.d + r.d) % 2 ^ 64,
    e := (s.e + r.e) % 2 ^ 64, f := (s.f + r.f) % 2 ^ 64,
    g := (s.g + r.g) % 2 ^ 64, h := (s.h + r.h) % 2 ^ 64 }

/-- Compression of `n` consecutive blocks. -/
def sha512Blocks : Nat → Sha512State → Bytes → Sha512State
  | 0, s, _ => s
  | n + 1, s, bs => sha512Blocks n (sha512Block s (bs.take 128)) (bs.drop 128)

/-- Go's `sha512.Sum512` (FIPS 180-4 SHA-512): the 64-byte digest. -/
def sha512 (msg : Bytes) : Bytes :=
  let p := sha512Pad msg
  let s := sha512Blocks (p.length / 128) sha512Init p
  beBytes 8 s.a ++ beBytes 8 s.b ++ beBytes 8 s.c ++ beBytes 8 s.d ++
    beBytes 8 s.e ++ beBytes 8 s.f ++ beBytes 8 s.g ++ beBytes 8 s.h

/-! ## Scalars modulo the group order -/

/-- The order of the Ed25519 base point,
`2^252 + 27742317777372353535851937790883648493`. -/
def L : Nat := 2 ^ 252 + 27742317777372353535851937790883648493

/-- Modelled from the spec: `edwards25519.ScReduce` of the package
`internal/edwards25519`, which is not among the sources.  The spec:
"`reduce(64 bytes) -> Scalar`: maps a hash digest to a value mod L". -/
def ScReduce (s : Bytes) : Bytes := leBytes 32 (leNat s % L)

/-- Modelled from the spec: `edwards25519.ScAdd` of the package
`internal/edwards25519`, which is not among the sources.  The spec: "Scalar
`add`/`sub`/`mul` mod L". -/
def ScAdd (a b : Bytes) : Bytes := leBytes 32 ((leNat a + leNat b) % L)

/-- Modelled from the spec: `edwards25519.ScSub` of the package
`internal/edwards25519`, which is not among the sources.  The spec: "Scalar
`add`/`sub`/`mul` mod L". -/
def ScSub (a b : Bytes) : Bytes :=
  leBytes 32 (((leNat a : Int) - (leNat b : Int)) % (L : Int)).toNat

/-- Modelled from the spec: `edwards25519.ScMul` of the package
`internal/edwards25519`, which is not among the sources.  The spec: "Scalar
`add`/`sub`/`mul` mod L". -/
def ScMul (a b : Bytes) : Bytes := leBytes 32 ((leNat a * leNat b) % L)

/-- The Go type `Scalar` (a byte slice). -/
abbrev Scalar := Bytes

/-- The Go type `CurvePoint` (a byte slice). -/
abbrev CurvePoint := Bytes

/-- The Go type `PublicKey` (a byte slice). -/
abbrev PublicKey := Bytes

/-- The Go function `func (sc Scalar) Add(scalar Scalar) Scalar`. -/
def Scalar.Add (sc scalar : Scalar) : Scalar :=
  let s1 := copy32 sc
  let s2 := copy32 scalar
  let s := ScAdd s1 s2
  copyN 32 s

/-- The Go function `func (sc Scalar) Subtract(scalar Scalar) Scalar`. -/
def Scalar.Subtract (sc scalar : Scalar) : Scalar :=
  let s1 := copy32 sc
  let s2 := copy32 scalar
  let s := ScSub s1 s2
  copyN 32 s

/-- The Go function `func (sc Scalar) Multiply(scalar Scalar) Scalar`. -/
def Scalar.Multiply (sc scalar : Scalar) : Scalar :=
  let s1 := copy32 sc
  let s2 := copy32 scalar
  let s := ScMul s1 s2
  copyN 32 s


/-! ## The group primitives -/

/-- Modelled from the spec: the group primitives of the package
`internal/edwards25519` (`ExtendedGroupElement` with `FromBytes` and `ToBytes`,
the group of curve points and its base point), which is not among the sources.
The spec: "base group arithmetic is assumed available from an external
primitive provider"; "`add(P, Q) -> P+Q`: commutative, associative group
operation"; "`decode(bytes) -> CurvePoint`: fails ... on malformed ... input";
"public CurvePoint = secret·BasePoint" with scalars "mod group order L". -/
structure Edwards25519 where
  /-- A decoded curve point (`ExtendedGroupElement`, `ProjectiveGroupElement`). -/
  Point : Type
  /-- The group law on curve points. -/
  [group : AddCommGroup Point]
  /-- The base point. -/
  basePoint : Point
  /-- The base point has order `L`. -/
  order_basePoint : ∀ n : Nat, n • basePoint = 0 ↔ L ∣ n
  /-- The method `FromBytes` on a 32-byte buffer: `none` when it reports
  failure. -/
  FromBytes : Bytes → Option Point
  /-- The method `ToBytes`, the 32-byte encoding of a point. -/
  ToBytes : Point → Bytes
  /-- An encoding has 32 bytes. -/
  ToBytes_length : ∀ P, (ToBytes P).length = 32
  /-- An encoding decodes to the point it encodes. -/
  FromBytes_ToBytes : ∀ P, FromBytes (ToBytes P) = some P
  /-- What `GeScalarMult` followed by `ToBytes` leaves in the output buffer
  when it is run on the element `FromBytes` left behind after reporting
  failure on the second argument. -/
  scalarMultUndecoded : Bytes → Bytes → Bytes

attribute [instance] Edwards25519.group

namespace Edwards25519

variable (E : Edwards25519)

/-- Modelled from the spec: `edwards25519.GeAdd`, "`add(P, Q) -> P+Q`". -/
def GeAdd (p q : E.Point) : E.Point := p + q

/-- Modelled from the spec: `edwards25519.GeScalarMultBase`,
"`basePointMul(s)`", on a 32-byte little-endian scalar. -/
def GeScalarMultBase (a : Bytes) : E.Point := leNat a • E.basePoint

/-- Modelled from the spec: `edwards25519.GeScalarMult`, "`scalarMul(s, P)`",
on a 32-byte little-endian scalar. -/
def GeScalarMult (a : Bytes) (p : E.Point) : E.Point := leNat a • p

/-- Modelled from the spec: `edwards25519.GeDoubleScalarMultVartime` of the
package `internal/edwards25519`, which is not among the sources; it sets
`r = a*A + b*B` for the base point `B`, as the comment at its call in `Verify`
says (`R = - H(R,A,m)A + sB`, the point `A` having been negated), with
"`scalarMul(s, P)`" and "`basePointMul(s)`" of the spec. -/
def GeDoubleScalarMultVartime (a : Bytes) (A : E.Point) (b : Bytes) : E.Point :=
  leNat a • A + leNat b • E.basePoint

/-- Modelled from the spec: `FeNeg` of the package `internal/edwards25519`,
which is not among the sources, applied to the `X` and `T` coordinates of an
extended group element; it negates the point (`- H(R,A,m)A` in the comment of
`Verify`), the inverse of the spec's group operation. -/
def negate (A : E.Point) : E.Point := -A

end Edwards25519

/-! ## `crypto/ed25519/ed25519.go` -/

/-- The Go function `func (cp CurvePoint) toElement()`: `none` is the panic
"ed25519: unable to parse nonce point". -/
def CurvePoint.toElement (E : Edwards25519) (cp : CurvePoint) : Option E.Point :=
  let pointBytes := copy32 cp
  E.FromBytes pointBytes

/-- The Go function `func (cp CurvePoint) Add(point CurvePoint) CurvePoint`; `none` when
`toElement` panics. -/
def CurvePoint.Add (E : Edwards25519) (cp point : CurvePoint) : Option CurvePoint :=
  match CurvePoint.toElement E cp with
  | none => none
  | some cpElem1 =>
    match CurvePoint.toElement E point with
    | none => none
    | some cpElem2 =>
      let newPointElement := E.GeAdd cpElem1 cpElem2
      let newPointBuffer := E.ToBytes newPointElement
      some (copyN 32 newPointBuffer)

/-- The Go function `func (sc Scalar) ToCurvePoint() CurvePoint`. -/
def Scalar.ToCurvePoint (E : Edwards25519) (sc : Scalar) : CurvePoint :=
  let scBuffer := copy32 sc
  let newElem := E.GeScalarMultBase scBuffer
  let newCurvePointBuffer := E.ToBytes newElem
  copyN 32 newCurvePointBuffer

/-- The assignment `b &= m` on one byte. -/
def Byte.and (b : Byte) (m : Nat) : Byte := Fin.ofNat (b.val &&& m)

/-- The assignment `b |= m` on one byte. -/
def Byte.or (b : Byte) (m : Nat) : Byte := Fin.ofNat (b.val ||| m)

/-- The four slices `GenerateKey2` returns beside its error. -/
structure GeneratedKey where
  key : Bytes
  nonce : Bytes
  publicKey : PublicKey
  privateKey : Bytes

/-- The Go function `func GenerateKey2(rand io.Reader)`, with `rand` the bytes the reader can
supply; `none` is the return `nil, nil, nil, nil, err` after `io.ReadFull`
fails. -/
def GenerateKey2 (E : Edwards25519) (rand : Bytes) : Option GeneratedKey :=
  if rand.length < 32 then none
  else
    let seed := rand.take 32
    let digest := sha512 seed
    let digest := digest.set 0 (Byte.and (digest.getD 0 0) 248)
    let digest := digest.set 31 (Byte.and (digest.getD 31 0) 127)
    let digest := digest.set 31 (Byte.or (digest.getD 31 0) 64)
    let hBytes := copy32 digest
    let A := E.GeScalarMultBase hBytes
    let publicKeyBytes := E.ToBytes A
    some { key := copyN 32 (digest.take 32)
           nonce := copyN 32 (digest.drop 32)
           publicKey := copyN 32 publicKeyBytes
           privateKey := seed ++ copyN 32 publicKeyBytes }

/-- The Go function
`func Challenge(ephemeral_pk PublicKey, pk PublicKey, message []byte) Scalar`. -/
def Challenge (ephemeral_pk pk : PublicKey) (message : Bytes) : Scalar :=
  let digest := sha512 (pk ++ ephemeral_pk ++ message)
  let messageDigestReduced := ScReduce digest
  copyN 32 messageDigestReduced

/-- The Go function `func GenerateCurvePoint(scalar []byte) CurvePoint`. -/
def GenerateCurvePoint (E : Edwards25519) (scalar : Bytes) : CurvePoint :=
  let scalarBytes := copy32 scalar
  let P := E.GeScalarMultBase scalarBytes
  let encodedPoint := E.ToBytes P
  copyN 32 encodedPoint

/-- The Go function `func Verify(publicKey PublicKey, message, sig []byte) bool`; `none` is the
panic "ed25519: bad public key length". -/
def Verify (E : Edwards25519) (publicKey : PublicKey) (message sig : Bytes) : Option Bool :=
  if publicKey.length ≠ 32 then none
  else if sig.length ≠ 64 ∨ (sig.getD 63 0).val &&& 224 ≠ 0 then some false
  else
    let publicKeyBytes := copy32 publicKey
    match E.FromBytes publicKeyBytes with
    | none => some false
    | some A =>
      let A := E.negate A
      let digest := sha512 (sig.take 32 ++ publicKey ++ message)
      let hReduced := ScReduce digest
      let b := copy32 (sig.drop 32)
      let R := E.GeDoubleScalarMultVartime hReduced A b
      let checkR := E.ToBytes R
      some (bytesEqual (sig.take 32) checkR)

/-- The Go function `func GeScalarMult(a []byte, b []byte) [32]byte`.  The result of
`p.FromBytes(&bBytes)` is not looked at. -/
def GeScalarMult (E : Edwards25519) (a b : Bytes) : Bytes :=
  let aBytes := copy32 a
  let bBytes := copy32 b
  match E.FromBytes bBytes with
  | some p =>
    let h := E.GeScalarMult aBytes p
    E.ToBytes h
  | none => copyN 32 (E.scalarMultUndecoded aBytes bBytes)

/-! ## `app/main.go`

Each party is cut at the points where it blocks on the channel; a phase is the
code between two receives, as a function of what the party holds and what it
has just received.  Hex transport of a byte string is the identity on an honest
channel and is left out of the phases; the processes further down put it back.
`none` is a panic. -/

/-- The function `commoncrypto.Hash` of go-zenon, an external dependency. -/
abbrev HashFn := Bytes → Bytes

/-- The slice expression `s[:32]` on a slice whose capacity is its length;
`none` is the run-time panic "slice bounds out of range". -/
def slice32 (s : Bytes) : Option Bytes :=
  if 32 ≤ s.length then some (s.take 32) else none

/-- What a caller holds after `key, _, publicKey, _, _ := GenerateKey2(nil)`:
the error is discarded, and the slices are nil when there was one. -/
def keyAndPublic (E : Edwards25519) (rand : Bytes) : Bytes × PublicKey :=
  match GenerateKey2 E rand with
  | some k => (k.key, k.publicKey)
  | none => ([], [])

/-- The assignment `expirationTime := currentTime + (10 * 60 * 60)` on the
`uint64` field `TimestampUnix` (lines 55-56 and 234-235). -/
def expirationTime (currentTime : Nat) : Nat := (currentTime + 10 * 60 * 60) % 2 ^ 64

/-- The conversion `int64(expirationTime)` passed to `Ptlc.Create`
(lines 93 and 277). -/
def toInt64 (u : Nat) : Int :=
  if u % 2 ^ 64 < 2 ^ 63 then ((u % 2 ^ 64 : Nat) : Int)
  else ((u % 2 ^ 64 : Nat) : Int) - 2 ^ 64

/-- The four aggregated points both parties derive. -/
structure JointKeys where
  AB1 : PublicKey
  AB2 : PublicKey
  RaT : PublicKey
  RbT : PublicKey

/-- Key aggregation, lines 83-86 (Alice) and 262-265 (Bob). -/
def jointKeys (E : Edwards25519) (A1 A2 Ra T B1 B2 Rb : PublicKey) : Option JointKeys := do
  let AB1 ← CurvePoint.Add E A1 B1
  let AB2 ← CurvePoint.Add E A2 B2
  let RaT ← CurvePoint.Add E Ra T
  let RbT ← CurvePoint.Add E Rb T
  pure { AB1 := AB1, AB2 := AB2, RaT := RaT, RbT := RbT }

namespace party_alice

/-- Alice's key pairs, lines 60-63. -/
structure Keys where
  a1 : Bytes
  A1 : PublicKey
  a2 : Bytes
  A2 : PublicKey
  ra : Bytes
  Ra : PublicKey
  t : Bytes
  T : PublicKey

/-- Lines 60-63, with the bytes `crypto/rand` supplies to the four calls. -/
def generateKeys (E : Edwards25519) (r1 r2 r3 r4 : Bytes) : Keys :=
  let k1 := keyAndPublic E r1
  let k2 := keyAndPublic E r2
  let k3 := keyAndPublic E r3
  let k4 := keyAndPublic E r4
  { a1 := k1.1, A1 := k1.2, a2 := k2.1, A2 := k2.2, ra := k3.1, Ra := k3.2, t := k4.1, T := k4.2 }

/-- Messages, challenges and Alice's scalar contributions, lines 119-131. -/
structure Challenges where
  msgA : Bytes
  msgB : Bytes
  c1 : Scalar
  c2 : Scalar
  c1a1 : Scalar
  c2a2 : Scalar

/-- Lines 119-131; `c1a1` and `c2a2` are what lines 135-136 send. -/
def challenges (Hash : HashFn) (k : Keys) (j : JointKeys)
    (addressA addressB ptlc1Id ptlc2Id : Bytes) : Option Challenges := do
  let msgA := Hash (ptlc2Id ++ addressA)
  let msgB := Hash (ptlc1Id ++ addressB)
  let c1 := Challenge j.AB1 j.RbT msgA
  let c2 := Challenge j.AB2 j.RaT msgB
  let c1a1 := Scalar.Multiply c1 (← slice32 k.a1)
  let c2a2 := Scalar.Multiply c2 (← slice32 k.a2)
  pure { msgA := msgA, msgB := msgB, c1 := c1, c2 := c2, c1a1 := c1a1, c2a2 := c2a2 }

/-- Line 147: the adaptor signature `s_adapt_b` sent to Bob. -/
def adaptorSignature (k : Keys) (c2a2b2 : Scalar) : Option Scalar := do
  pure (Scalar.Add c2a2b2 (← slice32 k.ra))

/-- The comparison of lines 161-164,
`bytes.Equal(GenerateCurvePoint(sa), c1AB1RbT)`. -/
def checkSignature (E : Edwards25519) (c1 : Scalar) (AB1 RbT : PublicKey) (sa : Scalar) :
    Option Bool := do
  let c1AB1 := GeScalarMult E c1 AB1
  let c1AB1RbT ← CurvePoint.Add E c1AB1 RbT
  pure (bytesEqual (GenerateCurvePoint E sa) c1AB1RbT)

/-- Lines 170-172: the 64-byte signature `R || s`. -/
def signature64 (R : PublicKey) (s : Scalar) : Option Bytes := do
  let r32 ← slice32 R
  let s32 ← slice32 s
  pure (copyN 32 r32 ++ copyN 32 s32)

/-- Alice's completed signature. -/
structure Signature where
  sa : Scalar
  sa64 : Bytes

/-- Lines 157-176: completion with `t`, the two checks (a failed check is the
panic "Alice: signature is invalid") and the signature that line 180 submits to
unlock PTLC2 and line 195 sends to Bob. -/
def signature (E : Edwards25519) (k : Keys) (j : JointKeys) (c : Challenges)
    (s_adapt_a : Scalar) : Option Signature := do
  let sa := Scalar.Add s_adapt_a k.t
  let ok ← checkSignature E c.c1 j.AB1 j.RbT sa
  if !ok then none
  else
    let sa64 ← signature64 j.RbT sa
    let valid ← Verify E j.AB1 c.msgA sa64
    if !valid then none
    else pure { sa := sa, sa64 := sa64 }

end party_alice

namespace party_bob

/-- Bob's key pairs, lines 239-241. -/
structure Keys where
  b1 : Bytes
  B1 : PublicKey
  b2 : Bytes
  B2 : PublicKey
  rb : Bytes
  Rb : PublicKey

/-- Lines 239-241, with the bytes `crypto/rand` supplies to the three calls. -/
def generateKeys (E : Edwards25519) (r1 r2 r3 : Bytes) : Keys :=
  let k1 := keyAndPublic E r1
  let k2 := keyAndPublic E r2
  let k3 := keyAndPublic E r3
  { b1 := k1.1, B1 := k1.2, b2 := k2.1, B2 := k2.2, rb := k3.1, Rb := k3.2 }

/-- Messages, challenges and the combined contributions, lines 297-316. -/
structure Challenges where
  msgA : Bytes
  msgB : Bytes
  c1 : Scalar
  c2 : Scalar
  c1a1b1 : Scalar
  c2a2b2 : Scalar

/-- Lines 297-316, after `c1a1` and `c2a2` were received; `c2a2b2` is what
line 320 sends. -/
def challenges (Hash : HashFn) (k : Keys) (j : JointKeys)
    (addressA addressB ptlc1Id ptlc2Id : Bytes) (c1a1 c2a2 : Scalar) : Option Challenges := do
  let msgA := Hash (ptlc2Id ++ addressA)
  let msgB := Hash (ptlc1Id ++ addressB)
  let c1 := Challenge j.AB1 j.RbT msgA
  let c2 := Challenge j.AB2 j.RaT msgB
  let c1a1b1 := Scalar.Add (Scalar.Multiply c1 (← slice32 k.b1)) c1a1
  let c2a2b2 := Scalar.Add (Scalar.Multiply c2 (← slice32 k.b2)) c2a2
  pure { msgA := msgA, msgB := msgB, c1 := c1, c2 := c2, c1a1b1 := c1a1b1, c2a2b2 := c2a2b2 }

/-- The comparison of lines 329-332,
`bytes.Equal(GenerateCurvePoint(s_adapt_b), c2AB2Ra)`. -/
def checkAdaptor (E : Edwards25519) (c2 : Scalar) (AB2 Ra : PublicKey) (s_adapt_b : Scalar) :
    Option Bool := do
  let c2AB2 := GeScalarMult E c2 AB2
  let c2AB2Ra ← CurvePoint.Add E c2AB2 Ra
  pure (bytesEqual (GenerateCurvePoint E s_adapt_b) c2AB2Ra)

/-- Lines 329-338: the check of the received `s_adapt_b` (a failed check is
the panic "Bob: adapter signature is invalid"), then the adaptor signature
`s_adapt_a` sent to Alice. -/
def adaptorSignature (E : Edwards25519) (k : Keys) (Ra : PublicKey) (j : JointKeys)
    (c : Challenges) (s_adapt_b : Scalar) : Option Scalar := do
  let ok ← checkAdaptor E c.c2 j.AB2 Ra s_adapt_b
  if !ok then none
  else pure (Scalar.Add c.c1a1b1 k.rb)

/-- The comparison of lines 351-354,
`bytes.Equal(GenerateCurvePoint(sb), c2AB2RaT)`. -/
def checkSignature (E : Edwards25519) (c2 : Scalar) (AB2 RaT : PublicKey) (sb : Scalar) :
    Option Bool := do
  let c2AB2 := GeScalarMult E c2 AB2
  let c2AB2RaT ← CurvePoint.Add E c2AB2 RaT
  pure (bytesEqual (GenerateCurvePoint E sb) c2AB2RaT)

/-- Bob's extracted secret and completed signature. -/
structure Signature where
  t : Scalar
  sb : Scalar
  sb64 : Bytes

/-- Lines 348-366: extraction of `t` from the received `sa`, completion, the
two checks (a failed check is the panic "Bob: signature is invalid") and the
signature that line 370 submits to unlock PTLC1. -/
def signature (E : Edwards25519) (j : JointKeys) (c : Challenges)
    (s_adapt_a s_adapt_b sa : Scalar) : Option Signature := do
  let t := Scalar.Subtract sa s_adapt_a
  let sb := Scalar.Add s_adapt_b t
  let ok ← checkSignature E c.c2 j.AB2 j.RaT sb
  if !ok then none
  else
    let sb64 ← party_alice.signature64 j.RaT sb
    let valid ← Verify E j.AB2 c.msgB sb64
    if !valid then none
    else pure { t := t, sb := sb, sb64 := sb64 }

end party_bob

/-- What the two parties draw from `crypto/rand` and get from the wallet and
the ledger in one swap. -/
structure SwapInputs where
  rand_a1 : Bytes
  rand_a2 : Bytes
  rand_ra : Bytes
  rand_t : Bytes
  rand_b1 : Bytes
  rand_b2 : Bytes
  rand_rb : Bytes
  addressA : Bytes
  addressB : Bytes
  ptlc1Id : Bytes
  ptlc2Id : Bytes
  timeA : Nat
  timeB : Nat

/-- Everything the two parties hold at the end of a swap. -/
structure Swap where
  aliceKeys : party_alice.Keys
  bobKeys : party_bob.Keys
  aliceJoint : JointKeys
  bobJoint : JointKeys
  expiration1 : Int
  expiration2 : Int
  aliceChallenges : party_alice.Challenges
  bobChallenges : party_bob.Challenges
  s_adapt_b : Scalar
  s_adapt_a : Scalar
  aliceSignature : party_alice.Signature
  bobSignature : party_bob.Signature

/-- The run of `party_alice` and `party_bob` against each other, every message
delivered unchanged, in the order the channel enforces. -/
def honestRun (E : Edwards25519) (Hash : HashFn) (i : SwapInputs) : Option Swap := do
  let ka := party_alice.generateKeys E i.rand_a1 i.rand_a2 i.rand_ra i.rand_t
  let kb := party_bob.generateKeys E i.rand_b1 i.rand_b2 i.rand_rb
  let ja ← jointKeys E ka.A1 ka.A2 ka.Ra ka.T kb.B1 kb.B2 kb.Rb
  let jb ← jointKeys E ka.A1 ka.A2 ka.Ra ka.T kb.B1 kb.B2 kb.Rb
  let expiration1 := toInt64 (expirationTime i.timeA)
  let expiration2 := toInt64 (expirationTime i.timeB)
  let ca ← party_alice.challenges Hash ka ja i.addressA i.addressB i.ptlc1Id i.ptlc2Id
  let cb ← party_bob.challenges Hash kb jb i.addressA i.addressB i.ptlc1Id i.ptlc2Id
    ca.c1a1 ca.c2a2
  let s_adapt_b ← party_alice.adaptorSignature ka cb.c2a2b2
  let s_adapt_a ← party_bob.adaptorSignature E kb ka.Ra jb cb s_adapt_b
  let sigA ← party_alice.signature E ka ja ca s_adapt_a
  let sigB ← party_bob.signature E jb cb s_adapt_a s_adapt_b sigA.sa
  pure { aliceKeys := ka, bobKeys := kb, aliceJoint := ja, bobJoint := jb,
         expiration1 := expiration1, expiration2 := expiration2,
         aliceChallenges := ca, bobChallenges := cb, s_adapt_b := s_adapt_b,
         s_adapt_a := s_adapt_a, aliceSignature := sigA, bobSignature := sigB }

/-! ## Hex transport (Go's `encoding/hex`) -/

/-- A Go string on the channel, as its bytes. -/
abbrev Message := Bytes

/-- The digits `"0123456789abcdef"` that `hex.EncodeToString` writes. -/
def hextable : Bytes := [48, 49, 50, 51, 52, 53, 54, 55, 56, 57, 97, 98, 99, 100, 101, 102]

/-- Go's `hex.EncodeToString`: two digits per byte, high nibble first. -/
def hexEncodeToString : Bytes → Message
  | [] => []
  | b :: bs =>
    hextable.getD (b.val / 16) 0 :: hextable.getD (b.val % 16) 0 :: hexEncodeToString bs

/-- The value of one hexadecimal digit (`0-9`, `a-f`, `A-F`) in Go's
`encoding/hex`; `none` for every other byte. -/
def fromHexChar (c : Byte) : Option Nat :=
  if 48 ≤ c.val ∧ c.val ≤ 57 then some (c.val - 48)
  else if 97 ≤ c.val ∧ c.val ≤ 102 then some (c.val - 97 + 10)
  else if 65 ≤ c.val ∧ c.val ≤ 70 then some (c.val - 65 + 10)
  else none

/-- Go's `hex.DecodeString`: "If the input is malformed, DecodeString returns
the bytes decoded before the error."  The second component says whether there
was an error (`InvalidByteError` or `ErrLength`). -/
def hexDecodeString : Message → Bytes × Bool
  | [] => ([], false)
  | [_] => ([], true)
  | p :: q :: rest =>
    match fromHexChar p, fromHexChar q with
    | some a, some b =>
      let r := hexDecodeString rest
      (Fin.ofNat (a * 16 + b) :: r.1, r.2)
    | _, _ => ([], true)

/-- The statement `xBytes, _ := hex.DecodeString(<-receiver)` of `main.go`
(lines 74-78, 140, 152, 245-251, 303-306, 324, 343): the error is discarded. -/
def received (m : Message) : Bytes := (hexDecodeString m).1

/-! ## The two parties as processes -/

/-- The functions of go-zenon that the parties call, external dependencies:
`commoncrypto.Hash`, `Address.String`, `types.ParseAddressPanic` and
`types.HexToHashPanic` (`none` is the panic). -/
structure Zenon where
  Hash : HashFn
  addressString : Bytes → Message
  ParseAddressPanic : Message → Option Bytes
  HexToHashPanic : Message → Option Bytes

/-- What a party does that the other party or the ledger sees; `line` is the
line of `main.go` of the statement. -/
inductive Action where
  /-- A protocol message, `sender <- m`. -/
  | send (line : Nat) (m : Message)
  /-- The ledger action `utils.Send` of `Ptlc.Create` with this expiration and
  point lock. -/
  | create (line : Nat) (expiration : Int) (pointLock : Bytes)
  /-- The ledger action `utils.Send` of `Ptlc.Unlock` of this escrow with this
  signature. -/
  | unlock (line : Nat) (id : Bytes) (signature : Bytes)

/-- The line of `main.go` of an action. -/
def Action.line : Action → Nat
  | .send l _ => l
  | .create l _ _ => l
  | .unlock l _ _ => l

/-- A party as a process: it blocks on `<-receiver`, acts, panics or returns. -/
inductive Proc where
  | recv (k : Message → Proc)
  | act (a : Action) (next : Proc)
  | panic
  | done

/-- How a party ends on a given sequence of incoming messages. -/
inductive Outcome where
  /-- Blocked on `<-receiver`: no message is left. -/
  | waiting
  /-- A panic: the party has aborted. -/
  | panicked
  /-- The function returned. -/
  | finished

/-- The actions of a party that receives the messages `inbox` in this order, and
how it ends.  Every send is taken to go through: the other party accepts it. -/
def Proc.run : Proc → List Message → List Action × Outcome
  | .recv _, [] => ([], .waiting)
  | .recv k, m :: ms => (k m).run ms
  | .act a p, ms => (a :: (p.run ms).1, (p.run ms).2)
  | .panic, _ => ([], .panicked)
  | .done, _ => ([], .finished)

/-- The string `"Hello from Alice"` of line 33. -/
def helloAlice : Message :=
  [72, 101, 108, 108, 111, 32, 102, 114, 111, 109, 32, 65, 108, 105, 99, 101]

/-- The string `"Hello from Bob"` of line 212. -/
def helloBob : Message := [72, 101, 108, 108, 111, 32, 102, 114, 111, 109, 32, 66, 111, 98]

/-- The Go function `party_alice`, lines 23-199, with the wallet address, the
ledger time, the randomness and the hash of her escrow taken from `i`; the
ledger calls are taken to succeed. -/
def party_alice.proc (E : Edwards25519) (Z : Zenon) (i : SwapInputs) : Proc :=
  .act (.send 33 helloAlice) <|
  .recv fun _ =>
  .act (.send 39 (Z.addressString i.addressA)) <|
  .recv fun mAddressB =>
  match Z.ParseAddressPanic mAddressB with
  | none => .panic
  | some addressB =>
  let k := party_alice.generateKeys E i.rand_a1 i.rand_a2 i.rand_ra i.rand_t
  .act (.send 67 (hexEncodeToString k.A1)) <|
  .act (.send 68 (hexEncodeToString k.A2)) <|
  .act (.send 69 (hexEncodeToString k.Ra)) <|
  .act (.send 70 (hexEncodeToString k.T)) <|
  .recv fun mB1 =>
  .recv fun mB2 =>
  .recv fun mRb =>
  match jointKeys E k.A1 k.A2 k.Ra k.T (received mB1) (received mB2) (received mRb) with
  | none => .panic
  | some j =>
  .act (.create 96 (toInt64 (expirationTime i.timeA)) j.AB2) <|
  .act (.send 111 (hexEncodeToString i.ptlc1Id)) <|
  .recv fun mPtlc2Id =>
  match Z.HexToHashPanic mPtlc2Id with
  | none => .panic
  | some ptlc2Id =>
  match party_alice.challenges Z.Hash k j i.addressA addressB i.ptlc1Id ptlc2Id with
  | none => .panic
  | some c =>
  .act (.send 135 (hexEncodeToString c.c1a1)) <|
  .act (.send 136 (hexEncodeToString c.c2a2)) <|
  .recv fun m_c2a2b2 =>
  match party_alice.adaptorSignature k (received m_c2a2b2) with
  | none => .panic
  | some s_adapt_b =>
  .act (.send 148 (hexEncodeToString s_adapt_b)) <|
  .recv fun m_s_adapt_a =>
  match party_alice.signature E k j c (received m_s_adapt_a) with
  | none => .panic
  | some sig =>
  .act (.unlock 181 ptlc2Id sig.sa64) <|
  .act (.send 195 (hexEncodeToString sig.sa)) <|
  .done

/-- The Go function `party_bob`, lines 201-385, with the wallet address, the
ledger time, the randomness and the hash of his escrow taken from `i`; the
ledger calls are taken to succeed. -/
def party_bob.proc (E : Edwards25519) (Z : Zenon) (i : SwapInputs) : Proc :=
  .recv fun _ =>
  .act (.send 212 helloBob) <|
  .recv fun mAddressA =>
  match Z.ParseAddressPanic mAddressA with
  | none => .panic
  | some addressA =>
  .act (.send 221 (Z.addressString i.addressB)) <|
  let k := party_bob.generateKeys E i.rand_b1 i.rand_b2 i.rand_rb
  .recv fun mA1 =>
  .recv fun mA2 =>
  .recv fun mRa =>
  .recv fun mT =>
  .act (.send 256 (hexEncodeToString k.B1)) <|
  .act (.send 257 (hexEncodeToString k.B2)) <|
  .act (.send 258 (hexEncodeToString k.Rb)) <|
  match jointKeys E (received mA1) (received mA2) (received mRa) (received mT) k.B1 k.B2 k.Rb with
  | none => .panic
  | some j =>
  .recv fun mPtlc1Id =>
  match Z.HexToHashPanic mPtlc1Id with
  | none => .panic
  | some ptlc1Id =>
  .act (.create 278 (toInt64 (expirationTime i.timeB)) j.AB1) <|
  .act (.send 293 (hexEncodeToString i.ptlc2Id)) <|
  .recv fun m_c1a1 =>
  .recv fun m_c2a2 =>
  match party_bob.challenges Z.Hash k j addressA i.addressB ptlc1Id i.ptlc2Id
      (received m_c1a1) (received m_c2a2) with
  | none => .panic
  | some c =>
  .act (.send 320 (hexEncodeToString c.c2a2b2)) <|
  .recv fun m_s_adapt_b =>
  match party_bob.adaptorSignature E k (received mRa) j c (received m_s_adapt_b) with
  | none => .panic
  | some s_adapt_a =>
  .act (.send 339 (hexEncodeToString s_adapt_a)) <|
  .recv fun m_sa =>
  match party_bob.signature E j c s_adapt_a (received m_s_adapt_b) (received m_sa) with
  | none => .panic
  | some sig =>
  .act (.unlock 371 ptlc1Id sig.sb64) <|
  .done

/-- The protocol messages among the actions of a party, in the order sent. -/
def sent : List Action → List Message
  | [] => []
  | .send _ m :: as => m :: sent as
  | _ :: as => sent as

/-- Alice's actions in the run `r` of both parties. -/
def party_alice.actions (Z : Zenon) (i : SwapInputs) (r : Swap) : List Action :=
  [.send 33 helloAlice, .send 39 (Z.addressString i.addressA),
    .send 67 (hexEncodeToString r.aliceKeys.A1), .send 68 (hexEncodeToString r.aliceKeys.A2),
    .send 69 (hexEncodeToString r.aliceKeys.Ra), .send 70 (hexEncodeToString r.aliceKeys.T),
    .create 96 r.expiration1 r.aliceJoint.AB2, .send 111 (hexEncodeToString i.ptlc1Id),
    .send 135 (hexEncodeToString r.aliceChallenges.c1a1),
    .send 136 (hexEncodeToString r.aliceChallenges.c2a2),
    .send 148 (hexEncodeToString r.s_adapt_b),
    .unlock 181 i.ptlc2Id r.aliceSignature.sa64,
    .send 195 (hexEncodeToString r.aliceSignature.sa)]

/-- Bob's actions in the run `r` of both parties. -/
def party_bob.actions (Z : Zenon) (i : SwapInputs) (r : Swap) : List Action :=
  [.send 212 helloBob, .send 221 (Z.addressString i.addressB),
    .send 256 (hexEncodeToString r.bobKeys.B1), .send 257 (hexEncodeToString r.bobKeys.B2),
    .send 258 (hexEncodeToString r.bobKeys.Rb),
    .create 278 r.expiration2 r.bobJoint.AB1, .send 293 (hexEncodeToString i.ptlc2Id),
    .send 320 (hexEncodeToString r.bobChallenges.c2a2b2),
    .send 339 (hexEncodeToString r.s_adapt_a),
    .unlock 371 i.ptlc1Id r.bobSignature.sb64]

/-- The hex encoding of what a party uses of a message it decodes with
`hex.DecodeString`: the bytes decoded before the first error, truncated or
zero-padded to 32 bytes. -/
def asUsed (m : Message) : Message := hexEncodeToString (copy32 (received m))

/-- The incoming messages with those at the marked positions replaced by
`asUsed`. -/
def asUsedAt : List Bool → List Message → List Message
  | true :: fs, m :: ms => asUsed m :: asUsedAt fs ms
  | false :: fs, m :: ms => m :: asUsedAt fs ms
  | _, ms => ms

/-- The messages Alice decodes with `hex.DecodeString`: `B1`, `B2`, `Rb`
(lines 74-78), `c2a2b2` (line 140) and `s_adapt_a` (line 152). -/
def party_alice.hexInputs : List Bool := [false, false, true, true, true, false, true, true]

/-- The messages Bob decodes with `hex.DecodeString`: `A1`, `A2`, `Ra`, `T`
(lines 245-251), `c1a1`, `c2a2` (lines 303-306), `s_adapt_b` (line 324) and
`sa` (line 343). -/
def party_bob.hexInputs : List Bool :=
  [false, false, true, true, true, true, false, true, true, true, true]

/-! ## Bit flips -/

/-- The byte string `s` with bit `i` flipped: bit `i % 8` of the byte at index
`i / 8`. -/
def flipBit (s : Bytes) (i : Nat) : Bytes :=
  s.set (i / 8) (Fin.ofNat ((s.getD (i / 8) 0).val ^^^ (1 <<< (i % 8))))

/-! ## Recovering a signing secret from a view -/

/-- Modular exponentiation `a ^ e % m` by repeated squaring; `fuel` bounds the
number of bits of `e`. -/
def powMod (m : Nat) : Nat → Nat → Nat → Nat
  | 0, _, _ => 1 % m
  | fuel + 1, a, e =>
    if e = 0 then 1 % m
    else if e % 2 = 1 then a * powMod m fuel (a * a % m) (e / 2) % m
    else powMod m fuel (a * a % m) (e / 2)

/-- An attack, not part of the program: what Bob computes from the challenge
`c1` and the value `c1a1` he receives, `c1a1 · c1⁻¹ mod L` with the inverse as
the power `c1^(L-2)`. -/
def recoverFromBobView (_b1 c1 c1a1 : Bytes) : Nat :=
  leNat c1a1 * powMod L 256 (leNat c1) (L - 2) % L

/-- An attack, not part of the program: what Alice computes from her secret
`a2`, the challenge `c2` and the value `c2a2b2` she receives,
`(c2a2b2 - c2·a2) · c2⁻¹ mod L`. -/
def recoverFromAliceView (a2 c2 c2a2b2 : Bytes) : Nat :=
  (leNat c2a2b2 + (L - leNat c2 * leNat a2 % L)) * powMod L 256 (leNat c2) (L - 2) % L

/-! ## Lemmas on bytes -/

theorem leBytes_length (len n : Nat) : (leBytes len n).length = len := by
  induction len generalizing n with
  | zero => rfl
  | succ k ih => simp [leBytes, ih]

theorem leNat_lt (bs : Bytes) : leNat bs < 256 ^ bs.length := by
  induction bs with
  | nil => simp [leNat]
  | cons b bs ih =>
    have hb := b.isLt
    simp only [leNat, List.length_cons, pow_succ]
    omega

theorem leNat_leBytes (len n : Nat) : leNat (leBytes len n) = n % 256 ^ len := by
  induction len generalizing n with
  | zero => simp [leBytes, leNat, Nat.mod_one]
  | succ k ih =>
    simp only [leBytes, leNat, ih, Fin.ofNat, Nat.mod_mod]
    rw [pow_succ, Nat.mul_comm (256 ^ k) 256, Nat.mod_mul]

theorem leBytes_leNat (bs : Bytes) : leBytes bs.length (leNat bs) = bs := by
  induction bs with
  | nil => rfl
  | cons b bs ih =>
    have hb := b.isLt
    have h1 : (b.val + 256 * leNat bs) % 256 = b.val := by omega
    have h2 : (b.val + 256 * leNat bs) / 256 = leNat bs := by omega
    simp only [List.length_cons, leBytes, leNat, h1, h2, ih]
    congr 1
    apply Fin.ext
    simp [Fin.ofNat]

theorem copyN_length (n : Nat) (src : Bytes) : (copyN n src).length = n := by
  simp [copyN]
  omega

theorem copyN_of_length {n : Nat} {src : Bytes} (h : src.length = n) : copyN n src = src := by
  simp [copyN, h]

theorem copy32_of_length {src : Bytes} (h : src.length = 32) : copy32 src = src :=
  copyN_of_length h

theorem copy32_leBytes (n : Nat) : copy32 (leBytes 32 n) = leBytes 32 n :=
  copy32_of_length (leBytes_length 32 n)

theorem L_pos : 0 < L := by decide

theorem L_lt : L < 256 ^ 32 := by decide

theorem L_eq :
    L = 7237005577332262213973186563042994240857116359379907606001950938285454250989 := by
  decide

theorem eq_of_leNat_eq {a b : Bytes} (hlen : a.length = b.length) (h : leNat a = leNat b) :
    a = b := by
  rw [← leBytes_leNat a, ← leBytes_leNat b, hlen, h]

theorem leNat_leBytes_mod_L (n : Nat) : leNat (leBytes 32 (n % L)) = n % L := by
  rw [leNat_leBytes]
  exact Nat.mod_eq_of_lt (lt_trans (Nat.mod_lt _ L_pos) L_lt)

/-! ## A concrete provider -/

/-- The number of points of the curve, `8 * L`. -/
def curveOrder : Nat := 8 * L

theorem curveOrder_eq :
    curveOrder = 57896044618658097711785492504343953926856930875039260848015607506283634007912 := by
  decide

/-- A point in exponent representation: its discrete logarithm to a fixed
generator of the cyclic group of order `8 * L`. -/
structure LogPoint where
  /-- The logarithm. -/
  log : Nat
  /-- It is reduced. -/
  isLt : log < curveOrder

theorem LogPoint.ext_log {a b : LogPoint} (h : a.log = b.log) : a = b := by
  cases a
  cases b
  cases h
  rfl

/-- The logarithm `n` reduced into the group. -/
def LogPoint.ofNat (n : Nat) : LogPoint := ⟨n % curveOrder, Nat.mod_lt _ (by decide)⟩

instance LogPoint.instAddCommGroup : AddCommGroup LogPoint where
  add a b := LogPoint.ofNat (a.log + b.log)
  zero := LogPoint.ofNat 0
  neg a := LogPoint.ofNat (curveOrder - a.log)
  nsmul n a := LogPoint.ofNat (n * a.log)
  add_assoc a b c := by
    apply LogPoint.ext_log
    show ((a.log + b.log) % curveOrder + c.log) % curveOrder =
      (a.log + (b.log + c.log) % curveOrder) % curveOrder
    rw [curveOrder_eq]
    omega
  zero_add a := by
    apply LogPoint.ext_log
    have h := a.isLt
    show (0 % curveOrder + a.log) % curveOrder = a.log
    rw [curveOrder_eq] at h ⊢
    omega
  add_zero a := by
    apply LogPoint.ext_log
    have h := a.isLt
    show (a.log + 0 % curveOrder) % curveOrder = a.log
    rw [curveOrder_eq] at h ⊢
    omega
  nsmul_zero a := by
    apply LogPoint.ext_log
    show (0 * a.log) % curveOrder = 0 % curveOrder
    rw [Nat.zero_mul]
  nsmul_succ n a := by
    apply LogPoint.ext_log
    show ((n + 1) * a.log) % curveOrder = ((n * a.log) % curveOrder + a.log) % curveOrder
    rw [Nat.succ_mul, curveOrder_eq]
    omega
  neg_add_cancel a := by
    apply LogPoint.ext_log
    have h := a.isLt
    show ((curveOrder - a.log) % curveOrder + a.log) % curveOrder = 0 % curveOrder
    rw [curveOrder_eq] at h ⊢
    omega
  add_comm a b := by
    apply LogPoint.ext_log
    show (a.log + b.log) % curveOrder = (b.log + a.log) % curveOrder
    rw [Nat.add_comm]
  zsmul z a :=
    match z with
    | Int.ofNat n => LogPoint.ofNat (n * a.log)
    | Int.negSucc n => LogPoint.ofNat (curveOrder - (LogPoint.ofNat ((n + 1) * a.log)).log)
  zsmul_zero' a := by
    apply LogPoint.ext_log
    show (0 * a.log) % curveOrder = 0 % curveOrder
    rw [Nat.zero_mul]
  zsmul_succ' n a := by
    apply LogPoint.ext_log
    show ((n + 1) * a.log) % curveOrder = ((n * a.log) % curveOrder + a.log) % curveOrder
    rw [Nat.succ_mul, curveOrder_eq]
    omega
  zsmul_neg' n a := rfl

theorem LogPoint.nsmul_log (n : Nat) (a : LogPoint) : (n • a).log = (n * a.log) % curveOrder :=
  rfl

theorem LogPoint.zero_log : (0 : LogPoint).log = 0 := rfl

/-- The group of curve points in exponent representation: the cyclic group of
order `8 * L`, the base point being eight times the generator and so of order
`L`; the encoding of a point is its logarithm in 32 little-endian bytes, and a
buffer decodes when it holds a reduced logarithm. -/
def logModel : Edwards25519 where
  Point := LogPoint
  basePoint := LogPoint.ofNat 8
  order_basePoint := by
    intro n
    have h8 : (LogPoint.ofNat 8).log = 8 := by decide
    constructor
    · intro h
      have h1 := congrArg LogPoint.log h
      rw [LogPoint.nsmul_log, h8, LogPoint.zero_log] at h1
      have h2 : 8 * L ∣ 8 * n := by
        rw [Nat.mul_comm 8 n]
        exact Nat.dvd_of_mod_eq_zero h1
      exact Nat.dvd_of_mul_dvd_mul_left (by decide : 0 < 8) h2
    · intro h
      apply LogPoint.ext_log
      rw [LogPoint.nsmul_log, h8, LogPoint.zero_log]
      apply Nat.mod_eq_zero_of_dvd
      rw [Nat.mul_comm n 8]
      exact Nat.mul_dvd_mul_left 8 h
  FromBytes := fun b =>
    if h : leNat b < curveOrder then some ⟨leNat b, h⟩ else none
  ToBytes := fun P => leBytes 32 P.log
  ToBytes_length := fun P => leBytes_length 32 _
  FromBytes_ToBytes := by
    intro P
    have h1 : P.log < curveOrder := P.isLt
    have h2 : curveOrder < 256 ^ 32 := by decide
    have h3 : leNat (leBytes 32 P.log) = P.log := by
      rw [leNat_leBytes]
      exact Nat.mod_eq_of_lt (lt_trans h1 h2)
    simp [h3, h1]
  scalarMultUndecoded := fun _ _ => List.replicate 32 0

/-- Inputs of a sample swap. -/
def sampleSwap : SwapInputs where
  rand_a1 := List.replicate 32 1
  rand_a2 := List.replicate 32 2
  rand_ra := List.replicate 32 3
  rand_t := List.replicate 32 4
  rand_b1 := List.replicate 32 5
  rand_b2 := List.replicate 32 6
  rand_rb := List.replicate 32 7
  addressA := List.replicate 20 10
  addressB := List.replicate 20 11
  ptlc1Id := List.replicate 32 12
  ptlc2Id := List.replicate 32 13
  timeA := 1700000000
  timeB := 1700000010

/-- A stand-in for the go-zenon functions: the identity as hash, hex as the
address format, and 32-byte ids. -/
def sampleZenon : Zenon where
  Hash := fun b => b
  addressString := hexEncodeToString
  ParseAddressPanic := fun m =>
    if (hexDecodeString m).2 ∨ (received m).length ≠ 20 then none else some (received m)
  HexToHashPanic := fun m =>
    if (hexDecodeString m).2 ∨ (received m).length ≠ 32 then none else some (received m)

/-- A 32-byte string that is not the encoding of a point: `fe ff ... ff`, the
`y`-coordinate 17 with the sign bit set, for which the curve equation
`-x^2 + y^2 = 1 + d x^2 y^2` has no solution `x`; the provider `logModel`
rejects it as well. -/
def undecodablePoint : Bytes := 254 :: List.replicate 31 255

/-- Messages for Bob of which the one in place of `c1a1` is not valid hex
(`"zz"`) and the one in place of `c2a2` decodes to 33 bytes. -/
def malformedBobInbox : List Message :=
  [helloAlice, sampleZenon.addressString sampleSwap.addressA,
    hexEncodeToString (List.replicate 32 0), hexEncodeToString (List.replicate 32 0),
    hexEncodeToString (List.replicate 32 0), hexEncodeToString (List.replicate 32 0),
    hexEncodeToString sampleSwap.ptlc1Id, [122, 122], hexEncodeToString (List.replicate 33 1)]

/-! ## Lemmas on SHA-512 and the scalar operations -/

theorem beBytes_length (len n : Nat) : (beBytes len n).length = len := by
  induction len with
  | zero => rfl
  | succ k ih => simp [beBytes, ih]

theorem sha512_length (msg : Bytes) : (sha512 msg).length = 64 := by
  simp [sha512, beBytes_length]

theorem ScReduce_length (s : Bytes) : (ScReduce s).length = 32 := leBytes_length _ _

theorem leNat_ScReduce (s : Bytes) : leNat (ScReduce s) = leNat s % L :=
  leNat_leBytes_mod_L _

theorem Scalar.Add_length (a b : Scalar) : (Scalar.Add a b).length = 32 := copyN_length _ _

theorem Scalar.Subtract_length (a b : Scalar) : (Scalar.Subtract a b).length = 32 :=
  copyN_length _ _

theorem Scalar.Multiply_length (a b : Scalar) : (Scalar.Multiply a b).length = 32 :=
  copyN_length _ _

theorem leNat_Scalar_Add (a b : Scalar) :
    leNat (Scalar.Add a b) = (leNat (copy32 a) + leNat (copy32 b)) % L := by
  simp only [Scalar.Add, ScAdd]
  rw [copyN_of_length (leBytes_length _ _), leNat_leBytes_mod_L]

theorem leNat_Scalar_Multiply (a b : Scalar) :
    leNat (Scalar.Multiply a b) = (leNat (copy32 a) * leNat (copy32 b)) % L := by
  simp only [Scalar.Multiply, ScMul]
  rw [copyN_of_length (leBytes_length _ _), leNat_leBytes_mod_L]

theorem leNat_Scalar_Subtract (a b : Scalar) :
    (leNat (Scalar.Subtract a b) : Int) =
      ((leNat (copy32 a) : Int) - (leNat (copy32 b) : Int)) % (L : Int) := by
  simp only [Scalar.Subtract, ScSub]
  rw [copyN_of_length (leBytes_length _ _)]
  have hL : (0 : Int) < (L : Int) := by exact_mod_cast L_pos
  have h0 := Int.emod_nonneg ((leNat (copy32 a) : Int) - (leNat (copy32 b) : Int)) (ne_of_gt hL)
  have h1 := Int.emod_lt_of_pos ((leNat (copy32 a) : Int) - (leNat (copy32 b) : Int)) hL
  have h2 : (((leNat (copy32 a) : Int) - (leNat (copy32 b) : Int)) % (L : Int)).toNat < L := by
    omega
  rw [leNat_leBytes, Nat.mod_eq_of_lt (lt_trans h2 L_lt)]
  omega

theorem Challenge_length (e pk : PublicKey) (m : Bytes) : (Challenge e pk m).length = 32 :=
  copyN_length _ _

theorem Challenge_eq (e pk : PublicKey) (m : Bytes) :
    Challenge e pk m = ScReduce (sha512 (pk ++ e ++ m)) := by
  simp only [Challenge]
  exact copyN_of_length (ScReduce_length _)

/-! ## The group order is prime -/

theorem powMod_eq (m : Nat) : ∀ fuel a e, e < 2 ^ fuel → powMod m fuel a e = a ^ e % m := by
  intro fuel
  induction fuel with
  | zero =>
    intro a e he
    have h0 : e = 0 := by simpa using he
    simp [powMod, h0]
  | succ n ih =>
    intro a e he
    unfold powMod
    by_cases h0 : e = 0
    · simp [h0]
    · have hlt : e / 2 < 2 ^ n := by
        rw [pow_succ] at he
        omega
      have hsq : (a * a % m) ^ (e / 2) % m = (a ^ 2) ^ (e / 2) % m := by
        rw [← Nat.pow_mod, pow_two]
      rw [if_neg h0, ih _ _ hlt, hsq, ← pow_mul]
      by_cases h1 : e % 2 = 1
      · rw [if_pos h1]
        have he2 : e = 2 * (e / 2) + 1 := by omega
        conv_rhs => rw [he2, pow_succ, Nat.mul_comm]
        rw [Nat.mul_mod, Nat.mod_mod, ← Nat.mul_mod]
      · rw [if_neg h1]
        have he2 : e = 2 * (e / 2) := by omega
        conv_rhs => rw [he2]

/-- Lucas test with the prime factors of `p - 1` listed: `p` is prime when
`a ^ (p - 1) = 1` and `a ^ ((p - 1) / q) ≠ 1` modulo `p` for each of them. -/
theorem pratt_certificate (p a : Nat) (qs : List Nat) (hp : 1 < p) (hlt : p < 2 ^ 256)
    (hqs : ∀ q ∈ qs, Nat.Prime q) (hprod : qs.prod = p - 1)
    (h1 : powMod p 256 a (p - 1) = 1) (h2 : ∀ q ∈ qs, powMod p 256 a ((p - 1) / q) ≠ 1) :
    Nat.Prime p := by
  have hone : 1 % p = 1 := Nat.mod_eq_of_lt hp
  have cast_pow_eq_one : ∀ e : Nat, e < 2 ^ 256 →
      (((a : ZMod p) ^ e = 1) ↔ powMod p 256 a e = 1) := by
    intro e he
    rw [powMod_eq p 256 a e he]
    have h : ((a : ZMod p) ^ e = 1) ↔ ((a ^ e : Nat) : ZMod p) = ((1 : Nat) : ZMod p) := by
      push_cast
      rfl
    rw [h, ZMod.natCast_eq_natCast_iff', hone]
  apply lucas_primality p (a : ZMod p)
  · exact (cast_pow_eq_one _ (by omega)).2 h1
  · intro q hq hdvd
    rw [← hprod] at hdvd
    obtain ⟨x, hx, hqx⟩ := (Prime.dvd_prod_iff (Nat.Prime.prime hq)).1 hdvd
    have hxq : q = x := (Nat.prime_dvd_prime_iff_eq hq (hqs x hx)).1 hqx
    subst hxq
    intro hcontra
    have hle : (p - 1) / q ≤ p - 1 := Nat.div_le_self _ _
    exact h2 q hx ((cast_pow_eq_one _ (by omega)).1 hcontra)

theorem prime_34123 : Nat.Prime 34123 := by
  refine pratt_certificate 34123 2
    [2, 3, 11, 11, 47]
    (by decide!) (by decide!) ?_ (by decide!) (by decide!) (by decide!)
  intro q hq
  simp only [List.mem_cons, List.mem_singleton, List.not_mem_nil, or_false] at hq
  rcases hq with rfl | rfl | rfl | rfl | rfl
  · exact Nat.prime_two
  · exact (by norm_num : Nat.Prime 3)
  · exact (by norm_num : Nat.Prime 11)
  · exact (by norm_num : Nat.Prime 11)
  · exact (by norm_num : Nat.Prime 47)

theorem prime_409477 : Nat.Prime 409477 := by
  refine pratt_certificate 409477 2
    [2, 2, 3, 34123]
    (by decide!) (by decide!) ?_ (by decide!) (by decide!) (by decide!)
  intro q hq
  simp only [List.mem_cons, List.mem_singleton, List.not_mem_nil, or_false] at hq
  rcases hq with rfl | rfl | rfl | rfl
  · exact Nat.prime_two
  · exact Nat.prime_two
  · exact (by norm_num : Nat.Prime 3)
  · exact prime_34123

theorem prime_14741173 : Nat.Prime 14741173 := by
  refine pratt_certificate 14741173 2
    [2, 2, 3, 3, 409477]
    (by decide!) (by decide!) ?_ (by decide!) (by decide!) (by decide!)
  intro q hq
  simp only [List.mem_cons, List.mem_singleton, List.not_mem_nil, or_false] at hq
  rcases hq with rfl | rfl | rfl | rfl | rfl
  · exact Nat.prime_two
  · exact Nat.prime_two
  · exact (by norm_num : Nat.Prime 3)
  · exact (by norm_num : Nat.Prime 3)
  · exact prime_409477

theorem prime_58964693 : Nat.Prime 58964693 := by
  refine pratt_certificate 58964693 2
    [2, 2, 14741173]
    (by decide!) (by decide!) ?_ (by decide!) (by decide!) (by decide!)
  intro q hq
  simp only [List.mem_cons, List.mem_singleton, List.not_mem_nil, or_false] at hq
  rcases hq with rfl | rfl | rfl
  · exact Nat.prime_two
  · exact Nat.prime_two
  · exact prime_14741173

theorem prime_30703 : Nat.Prime 30703 := by
  refine pratt_certificate 30703 3
    [2, 3, 7, 17, 43]
    (by decide!) (by decide!) ?_ (by decide!) (by decide!) (by decide!)
  intro q hq
  simp only [List.mem_cons, List.mem_singleton, List.not_mem_nil, or_false] at hq
  rcases hq with rfl | rfl | rfl | rfl | rfl
  · exact Nat.prime_two
  · exact (by norm_num : Nat.Prime 3)
  · exact (by norm_num : Nat.Prime 7)
  · exact (by norm_num : Nat.Prime 17)
  · exact (by norm_num : Nat.Prime 43)

theorem prime_41081 : Nat.Prime 41081 := by
  refine pratt_certificate 41081 3
    [2, 2, 2, 5, 13, 79]
    (by decide!) (by decide!) ?_ (by decide!) (by decide!) (by decide!)
  intro q hq
  simp only [List.mem_cons, List.mem_singleton, List.not_mem_nil, or_false] at hq
  rcases hq with rfl | rfl | rfl | rfl | rfl | rfl
  · exact Nat.prime_two
  · exact Nat.prime_two
  · exact Nat.prime_two
  · exact (by norm_num : Nat.Prime 5)
  · exact (by norm_num : Nat.Prime 13)
  · exact (by norm_num : Nat.Prime 79)

theorem prime_82163 : Nat.Prime 82163 := by
  refine pratt_certificate 82163 2
    [2, 41081]
    (by decide!) (by decide!) ?_ (by decide!) (by decide!) (by decide!)
  intro q hq
  simp only [List.mem_cons, List.mem_singleton, List.not_mem_nil, or_false] at hq
  rcases hq with rfl | rfl
  · exact Nat.prime_two
  · exact prime_41081

theorem prime_22111 : Nat.Prime 22111 := by
  refine pratt_certificate 22111 6
    [2, 3, 5, 11, 67]
    (by decide!) (by decide!) ?_ (by decide!) (by decide!) (by decide!)
  intro q hq
  simp only [List.mem_cons, List.mem_singleton, List.not_mem_nil, or_false] at hq
  rcases hq with rfl | rfl | rfl | rfl | rfl
  · exact Nat.prime_two
  · exact (by norm_num : Nat.Prime 3)
  · exact (by norm_num : Nat.Prime 5)
  · exact (by norm_num : Nat.Prime 11)
  · exact (by norm_num : Nat.Prime 67)

theorem prime_132667 : Nat.Prime 132667 := by
  refine pratt_certificate 132667 5
    [2, 3, 22111]
    (by decide!) (by decide!) ?_ (by decide!) (by decide!) (by decide!)
  intro q hq
  simp only [List.mem_cons, List.mem_singleton, List.not_mem_nil, or_false] at hq
  rcases hq with rfl | rfl | rfl
  · exact Nat.prime_two
  · exact (by norm_num : Nat.Prime 3)
  · exact prime_22111

theorem prime_1723 : Nat.Prime 1723 := by
  refine pratt_certificate 1723 3
    [2, 3, 7, 41]
    (by decide!) (by decide!) ?_ (by decide!) (by decide!) (by decide!)
  intro q hq
  simp only [List.mem_cons, List.mem_singleton, List.not_mem_nil, or_false] at hq
  rcases hq with rfl | rfl | rfl | rfl
  · exact Nat.prime_two
  · exact (by norm_num : Nat.Prime 3)
  · exact (by norm_num : Nat.Prime 7)
  · exact (by norm_num : Nat.Prime 41)

theorem prime_17231 : Nat.Prime 17231 := by
  refine pratt_certificate 17231 13
    [2, 5, 1723]
    (by decide!) (by decide!) ?_ (by decide!) (by decide!) (by decide!)
  intro q hq
  simp only [List.mem_cons, List.mem_singleton, List.not_mem_nil, or_false] at hq
  rcases hq with rfl | rfl | rfl
  · exact Nat.prime_two
  · exact (by norm_num : Nat.Prime 5)
  · exact prime_1723

theorem prime_137849 : Nat.Prime 137849 := by
  refine pratt_certificate 137849 3
    [2, 2, 2, 17231]
    (by decide!) (by decide!) ?_ (by decide!) (by decide!) (by decide!)
  intro q hq
  simp only [List.mem_cons, List.mem_singleton, List.not_mem_nil, or_false] at hq
  rcases hq with rfl | rfl | rfl | rfl
  · exact Nat.prime_two
  · exact Nat.prime_two
  · exact Nat.prime_two
  · exact prime_17231

theorem prime_3044861653679985063343 : Nat.Prime 3044861653679985063343 := by
  refine pratt_certificate 3044861653679985063343 5
    [2, 3, 11, 30703, 82163, 132667, 137849]
    (by decide!) (by decide!) ?_ (by decide!) (by decide!) (by decide!)
  intro q hq
  simp only [List.mem_cons, List.mem_singleton, List.not_mem_nil, or_false] at hq
  rcases hq with rfl | rfl | rfl | rfl | rfl | rfl | rfl
  · exact Nat.prime_two
  · exact (by norm_num : Nat.Prime 3)
  · exact (by norm_num : Nat.Prime 11)
  · exact prime_30703
  · exact prime_82163
  · exact prime_132667
  · exact prime_137849

theorem prime_198211423230930754013084525763697 : Nat.Prime 198211423230930754013084525763697 := by
  refine pratt_certificate 198211423230930754013084525763697 5
    [2, 2, 2, 2, 3, 23, 58964693, 3044861653679985063343]
    (by decide!) (by decide!) ?_ (by decide!) (by decide!) (by decide!)
  intro q hq
  simp only [List.mem_cons, List.mem_singleton, List.not_mem_nil, or_false] at hq
  rcases hq with rfl | rfl | rfl | rfl | rfl | rfl | rfl | rfl
  · exact Nat.prime_two
  · exact Nat.prime_two
  · exact Nat.prime_two
  · exact Nat.prime_two
  · exact (by norm_num : Nat.Prime 3)
  · exact (by norm_num : Nat.Prime 23)
  · exact prime_58964693
  · exact prime_3044861653679985063343

theorem prime_269 : Nat.Prime 269 := by
  refine pratt_certificate 269 2
    [2, 2, 67]
    (by decide!) (by decide!) ?_ (by decide!) (by decide!) (by decide!)
  intro q hq
  simp only [List.mem_cons, List.mem_singleton, List.not_mem_nil, or_false] at hq
  rcases hq with rfl | rfl | rfl
  · exact Nat.prime_two
  · exact Nat.prime_two
  · exact (by norm_num : Nat.Prime 67)

theorem prime_307 : Nat.Prime 307 := by
  refine pratt_certificate 307 5
    [2, 3, 3, 17]
    (by decide!) (by decide!) ?_ (by decide!) (by decide!) (by decide!)
  intro q hq
  simp only [List.mem_cons, List.mem_singleton, List.not_mem_nil, or_false] at hq
  rcases hq with rfl | rfl | rfl | rfl
  · exact Nat.prime_two
  · exact (by norm_num : Nat.Prime 3)
  · exact (by norm_num : Nat.Prime 3)
  · exact (by norm_num : Nat.Prime 17)

theorem prime_113 : Nat.Prime 113 := by
  refine pratt_certificate 113 3
    [2, 2, 2, 2, 7]
    (by decide!) (by decide!) ?_ (by decide!) (by decide!) (by decide!)
  intro q hq
  simp only [List.mem_cons, List.mem_singleton, List.not_mem_nil, or_false] at hq
  rcases hq with rfl | rfl | rfl | rfl | rfl
  · exact Nat.prime_two
  · exact Nat.prime_two
  · exact Nat.prime_two
  · exact Nat.prime_two
  · exact (by norm_num : Nat.Prime 7)

theorem prime_2939 : Nat.Prime 2939 := by
  refine pratt_certificate 2939 2
    [2, 13, 113]
    (by decide!) (by decide!) ?_ (by decide!) (by decide!) (by decide!)
  intro q hq
  simp only [List.mem_cons, List.mem_singleton, List.not_mem_nil, or_false] at hq
  rcases hq with rfl | rfl | rfl
  · exact Nat.prime_two
  · exact (by norm_num : Nat.Prime 13)
  · exact prime_113

theorem prime_5879 : Nat.Prime 5879 := by
  refine pratt_certificate 5879 11
    [2, 2939]
    (by decide!) (by decide!) ?_ (by decide!) (by decide!) (by decide!)
  intro q hq
  simp only [List.mem_cons, List.mem_singleton, List.not_mem_nil, or_false] at hq
  rcases hq with rfl | rfl
  · exact Nat.prime_two
  · exact prime_2939

theorem prime_292386187 : Nat.Prime 292386187 := by
  refine pratt_certificate 292386187 2
    [2, 3, 3, 3, 3, 307, 5879]
    (by decide!) (by decide!) ?_ (by decide!) (by decide!) (by decide!)
  intro q hq
  simp only [List.mem_cons, List.mem_singleton, List.not_mem_nil, or_false] at hq
  rcases hq with rfl | rfl | rfl | rfl | rfl | rfl | rfl
  · exact Nat.prime_two
  · exact (by norm_num : Nat.Prime 3)
  · exact (by norm_num : Nat.Prime 3)
  · exact (by norm_num : Nat.Prime 3)
  · exact (by norm_num : Nat.Prime 3)
  · exact prime_307
  · exact prime_5879

theorem prime_213441916511 : Nat.Prime 213441916511 := by
  refine pratt_certificate 213441916511 13
    [2, 5, 73, 292386187]
    (by decide!) (by decide!) ?_ (by decide!) (by decide!) (by decide!)
  intro q hq
  simp only [List.mem_cons, List.mem_singleton, List.not_mem_nil, or_false] at hq
  rcases hq with rfl | rfl | rfl | rfl
  · exact Nat.prime_two
  · exact (by norm_num : Nat.Prime 5)
  · exact (by norm_num : Nat.Prime 73)
  · exact prime_292386187

theorem prime_1361 : Nat.Prime 1361 := by
  refine pratt_certificate 1361 3
    [2, 2, 2, 2, 5, 17]
    (by decide!) (by decide!) ?_ (by decide!) (by decide!) (by decide!)
  intro q hq
  simp only [List.mem_cons, List.mem_singleton, List.not_mem_nil, or_false] at hq
  rcases hq with rfl | rfl | rfl | rfl | rfl | rfl
  · exact Nat.prime_two
  · exact Nat.prime_two
  · exact Nat.prime_two
  · exact Nat.prime_two
  · exact (by norm_num : Nat.Prime 5)
  · exact (by norm_num : Nat.Prime 17)

theorem prime_2851 : Nat.Prime 2851 := by
  refine pratt_certificate 2851 2
    [2, 3, 5, 5, 19]
    (by decide!) (by decide!) ?_ (by decide!) (by decide!) (by decide!)
  intro q hq
  simp only [List.mem_cons, List.mem_singleton, List.not_mem_nil, or_false] at hq
  rcases hq with rfl | rfl | rfl | rfl | rfl
  · exact Nat.prime_two
  · exact (by norm_num : Nat.Prime 3)
  · exact (by norm_num : Nat.Prime 5)
  · exact (by norm_num : Nat.Prime 5)
  · exact (by norm_num : Nat.Prime 19)

theorem prime_3797 : Nat.Prime 3797 := by
  refine pratt_certificate 3797 2
    [2, 2, 13, 73]
    (by decide!) (by decide!) ?_ (by decide!) (by decide!) (by decide!)
  intro q hq
  simp only [List.mem_cons, List.mem_singleton, List.not_mem_nil, or_false] at hq
  rcases hq with rfl | rfl | rfl | rfl
  · exact Nat.prime_two
  · exact Nat.prime_two
  · exact (by norm_num : Nat.Prime 13)
  · exact (by norm_num : Nat.Prime 73)

theorem prime_531581 : Nat.Prime 531581 := by
  refine pratt_certificate 531581 2
    [2, 2, 5, 7, 3797]
    (by decide!) (by decide!) ?_ (by decide!) (by decide!) (by decide!)
  intro q hq
  simp only [List.mem_cons, List.mem_singleton, List.not_mem_nil, or_false] at hq
  rcases hq with rfl | rfl | rfl | rfl | rfl
  · exact Nat.prime_two
  · exact Nat.prime_two
  · exact (by norm_num : Nat.Prime 5)
  · exact (by norm_num : Nat.Prime 7)
  · exact prime_3797

theorem prime_2551 : Nat.Prime 2551 := by
  refine pratt_certificate 2551 6
    [2, 3, 5, 5, 17]
    (by decide!) (by decide!) ?_ (by decide!) (by decide!) (by decide!)
  intro q hq
  simp only [List.mem_cons, List.mem_singleton, List.not_mem_nil, or_false] at hq
  rcases hq with rfl | rfl | rfl | rfl | rfl
  · exact Nat.prime_two
  · exact (by norm_num : Nat.Prime 3)
  · exact (by norm_num : Nat.Prime 5)
  · exact (by norm_num : Nat.Prime 5)
  · exact (by norm_num : Nat.Prime 17)

theorem prime_1224481 : Nat.Prime 1224481 := by
  refine pratt_certificate 1224481 13
    [2, 2, 2, 2, 2, 3, 5, 2551]
    (by decide!) (by decide!) ?_ (by decide!) (by decide!) (by decide!)
  intro q hq
  simp only [List.mem_cons, List.mem_singleton, List.not_mem_nil, or_false] at hq
  rcases hq with rfl | rfl | rfl | rfl | rfl | rfl | rfl | rfl
  · exact Nat.prime_two
  · exact Nat.prime_two
  · exact Nat.prime_two
  · exact Nat.prime_two
  · exact Nat.prime_two
  · exact (by norm_num : Nat.Prime 3)
  · exact (by norm_num : Nat.Prime 5)
  · exact prime_2551

theorem prime_1257559732178653 : Nat.Prime 1257559732178653 := by
  refine pratt_certificate 1257559732178653 2
    [2, 2, 3, 7, 23, 531581, 1224481]
    (by decide!) (by decide!) ?_ (by decide!) (by decide!) (by decide!)
  intro q hq
  simp only [List.mem_cons, List.mem_singleton, List.not_mem_nil, or_false] at hq
  rcases hq with rfl | rfl | rfl | rfl | rfl | rfl | rfl
  · exact Nat.prime_two
  · exact Nat.prime_two
  · exact (by norm_num : Nat.Prime 3)
  · exact (by norm_num : Nat.Prime 7)
  · exact (by norm_num : Nat.Prime 23)
  · exact prime_531581
  · exact prime_1224481

theorem prime_4434155615661930479 : Nat.Prime 4434155615661930479 := by
  refine pratt_certificate 4434155615661930479 17
    [2, 41, 43, 1257559732178653]
    (by decide!) (by decide!) ?_ (by decide!) (by decide!) (by decide!)
  intro q hq
  simp only [List.mem_cons, List.mem_singleton, List.not_mem_nil, or_false] at hq
  rcases hq with rfl | rfl | rfl | rfl
  · exact Nat.prime_two
  · exact (by norm_num : Nat.Prime 41)
  · exact (by norm_num : Nat.Prime 43)
  · exact prime_1257559732178653

theorem prime_172054593956031949258510691 : Nat.Prime 172054593956031949258510691 := by
  refine pratt_certificate 172054593956031949258510691 2
    [2, 5, 1361, 2851, 4434155615661930479]
    (by decide!) (by decide!) ?_ (by decide!) (by decide!) (by decide!)
  intro q hq
  simp only [List.mem_cons, List.mem_singleton, List.not_mem_nil, or_false] at hq
  rcases hq with rfl | rfl | rfl | rfl | rfl
  · exact Nat.prime_two
  · exact (by norm_num : Nat.Prime 5)
  · exact prime_1361
  · exact prime_2851
  · exact prime_4434155615661930479

theorem prime_19757330305831588566944191468367130476339 : Nat.Prime 19757330305831588566944191468367130476339 := by
  refine pratt_certificate 19757330305831588566944191468367130476339 2
    [2, 269, 213441916511, 172054593956031949258510691]
    (by decide!) (by decide!) ?_ (by decide!) (by decide!) (by decide!)
  intro q hq
  simp only [List.mem_cons, List.mem_singleton, List.not_mem_nil, or_false] at hq
  rcases hq with rfl | rfl | rfl | rfl
  · exact Nat.prime_two
  · exact prime_269
  · exact prime_213441916511
  · exact prime_172054593956031949258510691

theorem prime_276602624281642239937218680557139826668747 : Nat.Prime 276602624281642239937218680557139826668747 := by
  refine pratt_certificate 276602624281642239937218680557139826668747 2
    [2, 7, 19757330305831588566944191468367130476339]
    (by decide!) (by decide!) ?_ (by decide!) (by decide!) (by decide!)
  intro q hq
  simp only [List.mem_cons, List.mem_singleton, List.not_mem_nil, or_false] at hq
  rcases hq with rfl | rfl | rfl
  · exact Nat.prime_two
  · exact (by norm_num : Nat.Prime 7)
  · exact prime_19757330305831588566944191468367130476339

/-- The group order `L` is prime (Pratt certificate). -/
theorem L_prime : Nat.Prime L := by
  refine pratt_certificate L 2
    [2, 2, 3, 11, 198211423230930754013084525763697, 276602624281642239937218680557139826668747]
    (by decide!) (by decide!) ?_ (by decide!) (by decide!) (by decide!)
  intro q hq
  simp only [List.mem_cons, List.mem_singleton, List.not_mem_nil, or_false] at hq
  rcases hq with rfl | rfl | rfl | rfl | rfl | rfl
  · exact Nat.prime_two
  · exact Nat.prime_two
  · exact (by norm_num : Nat.Prime 3)
  · exact (by norm_num : Nat.Prime 11)
  · exact prime_198211423230930754013084525763697
  · exact prime_276602624281642239937218680557139826668747

theorem mul_powMod_inverse (c x : Nat) (hc : c % L ≠ 0) :
    (c * x % L) * powMod L 256 c (L - 2) % L = x % L := by
  haveI : Fact (Nat.Prime L) := ⟨L_prime⟩
  have hc0 : (c : ZMod L) ≠ 0 := by
    intro h
    rw [ZMod.natCast_zmod_eq_zero_iff_dvd] at h
    exact hc (Nat.mod_eq_zero_of_dvd h)
  have hinv : (c : ZMod L) * (c : ZMod L) ^ (L - 2) = 1 := by
    have h := ZMod.pow_card_sub_one_eq_one hc0
    have hL : L - 1 = (L - 2) + 1 := by decide
    rw [hL, pow_succ'] at h
    exact h
  rw [powMod_eq L 256 c (L - 2) (by decide)]
  have key : (((c * x % L) * (c ^ (L - 2) % L) : Nat) : ZMod L) = ((x : Nat) : ZMod L) := by
    push_cast [ZMod.natCast_mod]
    calc (c : ZMod L) * x * (c : ZMod L) ^ (L - 2)
        = x * ((c : ZMod L) * (c : ZMod L) ^ (L - 2)) := by ring
      _ = x := by rw [hinv, mul_one]
  exact (ZMod.natCast_eq_natCast_iff' _ _ _).1 key

/-! ## Lemmas on the group operations -/

section Group

variable (E : Edwards25519)

theorem smul_basePoint_mod (n : Nat) : (n % L) • E.basePoint = n • E.basePoint := by
  have h : L • E.basePoint = 0 := (E.order_basePoint L).2 (dvd_refl L)
  conv_rhs => rw [← Nat.mod_add_div n L]
  rw [add_smul, Nat.mul_comm L, mul_smul, h, smul_zero, add_zero]

theorem smul_basePoint_eq_iff (m n : Nat) :
    m • E.basePoint = n • E.basePoint ↔ m % L = n % L := by
  constructor
  · intro h
    wlog hle : m ≤ n generalizing m n
    · exact (this n m h.symm (Nat.le_of_not_le hle)).symm
    have h1 : (n - m) • E.basePoint = 0 := by
      have h2 : n • E.basePoint = (n - m) • E.basePoint + m • E.basePoint := by
        rw [← add_smul, Nat.sub_add_cancel hle]
      rw [h2] at h
      exact (self_eq_add_left.1 h)
    have h3 : L ∣ n - m := (E.order_basePoint _).1 h1
    exact (Nat.modEq_of_dvd (by
      rw [← Nat.cast_sub hle]
      exact_mod_cast h3) : m ≡ n [MOD L])
  · intro h
    rw [← smul_basePoint_mod E m, ← smul_basePoint_mod E n, h]

theorem ToBytes_injective {P Q : E.Point} (h : E.ToBytes P = E.ToBytes Q) : P = Q := by
  have h1 := E.FromBytes_ToBytes P
  rw [h, E.FromBytes_ToBytes Q] at h1
  exact (Option.some.inj h1).symm

theorem copy32_ToBytes (P : E.Point) : copy32 (E.ToBytes P) = E.ToBytes P :=
  copy32_of_length (E.ToBytes_length P)

theorem copyN_ToBytes (P : E.Point) : copyN 32 (E.ToBytes P) = E.ToBytes P :=
  copyN_of_length (E.ToBytes_length P)

theorem toElement_ToBytes (P : E.Point) : CurvePoint.toElement E (E.ToBytes P) = some P := by
  simp [CurvePoint.toElement, copy32_ToBytes, E.FromBytes_ToBytes]

theorem CurvePoint.Add_ToBytes (P Q : E.Point) :
    CurvePoint.Add E (E.ToBytes P) (E.ToBytes Q) = some (E.ToBytes (P + Q)) := by
  simp [CurvePoint.Add, toElement_ToBytes, Edwards25519.GeAdd, copyN_ToBytes]

theorem GenerateCurvePoint_eq (scalar : Bytes) :
    GenerateCurvePoint E scalar = E.ToBytes (leNat (copy32 scalar) • E.basePoint) := by
  simp [GenerateCurvePoint, Edwards25519.GeScalarMultBase, copyN_ToBytes]

theorem GeScalarMult_ToBytes (a : Bytes) (P : E.Point) :
    GeScalarMult E a (E.ToBytes P) = E.ToBytes (leNat (copy32 a) • P) := by
  simp [GeScalarMult, copy32_ToBytes, E.FromBytes_ToBytes, Edwards25519.GeScalarMult]

theorem bytesEqual_ToBytes (P Q : E.Point) :
    bytesEqual (E.ToBytes P) (E.ToBytes Q) = true ↔ P = Q := by
  simp only [bytesEqual, decide_eq_true_eq]
  exact ⟨fun h => ToBytes_injective E h, fun h => by rw [h]⟩

theorem alice_checkSignature_ToBytes (c sa : Bytes) (P Q : E.Point) :
    party_alice.checkSignature E c (E.ToBytes P) (E.ToBytes Q) sa =
      some (bytesEqual (E.ToBytes (leNat (copy32 sa) • E.basePoint))
        (E.ToBytes (leNat (copy32 c) • P + Q))) := by
  simp [party_alice.checkSignature, GeScalarMult_ToBytes, CurvePoint.Add_ToBytes,
    GenerateCurvePoint_eq]

theorem bob_checkAdaptor_ToBytes (c s : Bytes) (P Q : E.Point) :
    party_bob.checkAdaptor E c (E.ToBytes P) (E.ToBytes Q) s =
      some (bytesEqual (E.ToBytes (leNat (copy32 s) • E.basePoint))
        (E.ToBytes (leNat (copy32 c) • P + Q))) := by
  simp [party_bob.checkAdaptor, GeScalarMult_ToBytes, CurvePoint.Add_ToBytes,
    GenerateCurvePoint_eq]

theorem bob_checkSignature_ToBytes (c s : Bytes) (P Q : E.Point) :
    party_bob.checkSignature E c (E.ToBytes P) (E.ToBytes Q) s =
      some (bytesEqual (E.ToBytes (leNat (copy32 s) • E.basePoint))
        (E.ToBytes (leNat (copy32 c) • P + Q))) := by
  simp [party_bob.checkSignature, GeScalarMult_ToBytes, CurvePoint.Add_ToBytes,
    GenerateCurvePoint_eq]

/-- Two multiples of the base point agree when the scalars agree in `ZMod L`. -/
theorem smul_basePoint_congr {m n : Nat} (h : (m : ZMod L) = (n : ZMod L)) :
    m • E.basePoint = n • E.basePoint :=
  (smul_basePoint_eq_iff E m n).2 ((ZMod.natCast_eq_natCast_iff' m n L).1 h)

theorem copyN_of_le {n : Nat} {src : Bytes} (h : n ≤ src.length) :
    copyN n src = src.take n := by
  simp [copyN, Nat.sub_eq_zero_of_le h]

/-- With enough randomness `GenerateKey2` returns a 32-byte key and the
encoding of the key's multiple of the base point. -/
theorem GenerateKey2_spec (rand : Bytes) (h : 32 ≤ rand.length) :
    ∃ k, GenerateKey2 E rand = some k ∧ k.key.length = 32 ∧
      k.publicKey = E.ToBytes (leNat k.key • E.basePoint) ∧
      k.publicKey = GenerateCurvePoint E k.key := by
  have hlt : ¬ rand.length < 32 := Nat.not_lt.2 h
  simp only [GenerateKey2, hlt, if_false]
  refine ⟨_, rfl, ?_, ?_, ?_⟩
  · simp [copyN_length]
  · simp only [Edwards25519.GeScalarMultBase, copyN_ToBytes]
    rw [copy32, copyN_of_le (by simp [sha512_length]), copyN_of_length (by simp [sha512_length])]
  · simp only [Edwards25519.GeScalarMultBase, copyN_ToBytes, GenerateCurvePoint]
    rw [copy32, copyN_of_le (by simp [sha512_length])]
    rw [copy32_of_length (by simp [copyN_length])]
    rw [copyN_of_length (by simp [sha512_length])]

theorem keyAndPublic_spec (rand : Bytes) (h : 32 ≤ rand.length) :
    (keyAndPublic E rand).1.length = 32 ∧
      (keyAndPublic E rand).2 = E.ToBytes (leNat (keyAndPublic E rand).1 • E.basePoint) := by
  obtain ⟨k, hk, hlen, hpub, _⟩ := GenerateKey2_spec E rand h
  simp only [keyAndPublic, hk]
  exact ⟨hlen, hpub⟩

theorem slice32_of_length {s : Bytes} (h : s.length = 32) : slice32 s = some s := by
  simp [slice32, h]

end Group

/-! ## Lemmas on `Verify` -/

theorem leNat_append (xs ys : Bytes) :
    leNat (xs ++ ys) = leNat xs + 256 ^ xs.length * leNat ys := by
  induction xs with
  | nil => simp [leNat]
  | cons b bs ih =>
    show leNat (b :: (bs ++ ys)) = _
    simp only [leNat, ih, List.length_cons, pow_succ]
    ring

theorem byte_and_224 (b : Byte) : b.val &&& 224 = 0 ↔ b.val < 32 := by
  revert b
  decide!

theorem leNat_singleton (b : Byte) : leNat [b] = b.val := by
  simp [leNat]

/-- The last byte of a 32-byte scalar has its top three bits clear exactly when
the scalar is below `2^253`. -/
theorem top_bits_iff (s : Bytes) (hs : s.length = 32) :
    (s.getD 31 0).val &&& 224 = 0 ↔ leNat s < 2 ^ 253 := by
  have hsplit : s = s.take 31 ++ [s.getD 31 0] := by
    have h1 : s.drop 31 = [s.getD 31 0] := by
      have hlen : (s.drop 31).length = 1 := by simp [hs]
      match hd : s.drop 31, hlen with
      | [x], _ =>
        have hx : s.getD 31 0 = x := by
          have h2 := List.getD_eq_getElem?_getD s 31 0
          have h3 : s[31]? = (s.drop 31)[0]? := by simp
          rw [h2, h3, hd]
          rfl
        rw [hx]
    conv_lhs => rw [← List.take_append_drop 31 s, h1]
  have htake : (s.take 31).length = 31 := by simp [hs]
  have hlt := leNat_lt (s.take 31)
  rw [htake] at hlt
  rw [byte_and_224]
  have hval : leNat s = leNat (s.take 31) + 256 ^ 31 * (s.getD 31 0).val := by
    conv_lhs => rw [hsplit]
    rw [leNat_append, htake, leNat_singleton]
  rw [hval]
  have h256 : (256 : Nat) ^ 31 = 2 ^ 248 := by norm_num
  have h253 : (2 : Nat) ^ 253 = 2 ^ 248 * 32 := by norm_num
  rw [h256] at hlt ⊢
  rw [h253]
  constructor
  · intro h
    have : 2 ^ 248 * (s.getD 31 0).val + 2 ^ 248 ≤ 2 ^ 248 * 32 := by
      have := Nat.mul_le_mul_left (2 ^ 248) (Nat.succ_le_of_lt h)
      simpa [Nat.mul_succ] using this
    omega
  · intro h
    by_contra hge
    have h32 : 32 ≤ (s.getD 31 0).val := Nat.le_of_not_lt hge
    have := Nat.mul_le_mul_left (2 ^ 248) h32
    omega

theorem getD_63_append (R s : Bytes) (hR : R.length = 32) :
    (R ++ s).getD 63 0 = s.getD 31 0 := by
  rw [List.getD_eq_getElem?_getD, List.getD_eq_getElem?_getD,
    List.getElem?_append_right (by omega), hR]

theorem getD_63_eq (sig : Bytes) (hsig : sig.length = 64) :
    sig.getD 63 0 = (sig.drop 32).getD 31 0 := by
  conv_lhs => rw [← List.take_append_drop 32 sig]
  exact getD_63_append _ _ (by simp [hsig])

/-- What `Verify` computes on a 32-byte key and a 64-byte signature. -/
theorem Verify_eq (E : Edwards25519) (A m sig : Bytes) (hA : A.length = 32)
    (hsig : sig.length = 64) :
    Verify E A m sig =
      if (sig.getD 63 0).val &&& 224 ≠ 0 then some false
      else match E.FromBytes A with
        | none => some false
        | some P => some (bytesEqual (sig.take 32)
            (E.ToBytes (leNat (ScReduce (sha512 (sig.take 32 ++ A ++ m))) • (-P) +
              leNat (sig.drop 32) • E.basePoint))) := by
  have hd : copy32 (sig.drop 32) = sig.drop 32 := copy32_of_length (by simp [hsig])
  simp only [Verify, hA, hsig, copy32_of_length hA, hd, Edwards25519.negate,
    Edwards25519.GeDoubleScalarMultVartime]
  simp

/-- The result of `Verify` on a signature of the wrong length. -/
theorem Verify_bad_length (E : Edwards25519) (A m sig : Bytes) (hA : A.length = 32)
    (hsig : sig.length ≠ 64) : Verify E A m sig = some false := by
  simp [Verify, hA, hsig]

/-! ## Lemmas on key generation -/

/-- The assignment `digest[0] &= 248` clears the three low bits. -/
theorem byte_clamp_low (b : Byte) : (Byte.and b 248).val &&& 7 = 0 := by
  revert b
  decide!

/-- The assignments `digest[31] &= 127` and `digest[31] |= 64` clear the top bit and set the
second-top bit. -/
theorem byte_clamp_high (b : Byte) :
    (Byte.or (Byte.and b 127) 64).val &&& 128 = 0 ∧
      (Byte.or (Byte.and b 127) 64).val &&& 64 = 64 ∧
      64 ≤ (Byte.or (Byte.and b 127) 64).val ∧ (Byte.or (Byte.and b 127) 64).val < 128 := by
  revert b
  decide!

/-- A 32-byte little-endian number, split at its last byte. -/
theorem leNat_split_top (s : Bytes) (hs : s.length = 32) :
    leNat s = leNat (s.take 31) + 2 ^ 248 * (s.getD 31 0).val ∧ leNat (s.take 31) < 2 ^ 248 := by
  have h1 : s.drop 31 = [s.getD 31 0] := by
    have hlen : (s.drop 31).length = 1 := by simp [hs]
    match hd : s.drop 31, hlen with
    | [x], _ =>
      have hx : s.getD 31 0 = x := by
        have h2 := List.getD_eq_getElem?_getD s 31 0
        have h3 : s[31]? = (s.drop 31)[0]? := by simp
        rw [h2, h3, hd]
        rfl
      rw [hx]
  have htake : (s.take 31).length = 31 := by simp [hs]
  have hlt := leNat_lt (s.take 31)
  have h256 : (256 : Nat) ^ 31 = 2 ^ 248 := by norm_num
  rw [htake, h256] at hlt
  refine ⟨?_, hlt⟩
  conv_lhs => rw [← List.take_append_drop 31 s, h1]
  rw [leNat_append, htake, leNat_singleton, h256]

/-- The clamped digest that `GenerateKey2` returns as the key. -/
theorem GenerateKey2_key (E : Edwards25519) (rand : Bytes) (k : GeneratedKey)
    (h : GenerateKey2 E rand = some k) :
    32 ≤ rand.length ∧ k.key.length = 32 ∧
      k.key.getD 0 0 = Byte.and ((sha512 (rand.take 32)).getD 0 0) 248 ∧
      k.key.getD 31 0 = Byte.or (Byte.and ((sha512 (rand.take 32)).getD 31 0) 127) 64 ∧
      k.nonce = (sha512 (rand.take 32)).drop 32 ∧
      k.publicKey = GenerateCurvePoint E k.key ∧
      k.privateKey = rand.take 32 ++ k.publicKey := by
  by_cases hlt : rand.length < 32
  · simp [GenerateKey2, hlt] at h
  · obtain ⟨k', hk', hlen, _, hpub⟩ := GenerateKey2_spec E rand (Nat.le_of_not_lt hlt)
    rw [h] at hk'
    cases hk'
    have hd := sha512_length (rand.take 32)
    simp only [GenerateKey2, hlt, if_false, Option.some.injEq] at h
    subst h
    refine ⟨Nat.le_of_not_lt hlt, hlen, ?_, ?_, ?_, hpub, ?_⟩
    · simp [copyN_of_length, List.getD_eq_getElem?_getD, List.getElem?_take, List.getElem?_set,
        hd]
    · simp [copyN_of_length, List.getD_eq_getElem?_getD, List.getElem?_take, List.getElem?_set,
        hd]
    · rw [List.drop_set_of_lt _ _ (by decide), List.drop_set_of_lt _ _ (by decide),
        List.drop_set_of_lt _ _ (by decide)]
      exact copyN_of_length (by simp [hd])
    · rfl

/-- A key that `GenerateKey2` returns lies in `[2^254, 2^255)`, above `L`. -/
theorem GenerateKey2_key_range (E : Edwards25519) (rand : Bytes) (k : GeneratedKey)
    (h : GenerateKey2 E rand = some k) :
    2 ^ 254 ≤ leNat k.key ∧ leNat k.key < 2 ^ 255 ∧ L < leNat k.key := by
  obtain ⟨_, hlen, _, h31, _⟩ := GenerateKey2_key E rand k h
  obtain ⟨hsplit, hlow⟩ := leNat_split_top k.key hlen
  obtain ⟨_, _, hge, hlt⟩ := byte_clamp_high ((sha512 (rand.take 32)).getD 31 0)
  rw [← h31] at hge hlt
  have h1 := Nat.mul_le_mul_left (2 ^ 248) hge
  have h2 := Nat.mul_le_mul_left (2 ^ 248) (Nat.succ_le_of_lt hlt)
  have e254 : (2 : Nat) ^ 254 = 2 ^ 248 * 64 := by norm_num
  have e255 : (2 : Nat) ^ 255 = 2 ^ 248 * 128 := by norm_num
  have hL : L < 2 ^ 248 * 64 := by decide
  rw [hsplit, e254, e255]
  refine ⟨by omega, ?_, by omega⟩
  have h3 : 2 ^ 248 * ((k.key.getD 31 0).val + 1) = 2 ^ 248 * (k.key.getD 31 0).val + 2 ^ 248 := by
    ring
  have h4 : 2 ^ 248 * (k.key.getD 31 0).val.succ =
      2 ^ 248 * ((k.key.getD 31 0).val + 1) := rfl
  omega

/-- The key a caller of `GenerateKey2` holds lies in `[2^254, 2^255)`, above `L`. -/
theorem keyAndPublic_range (E : Edwards25519) (rand : Bytes) (h : 32 ≤ rand.length) :
    2 ^ 254 ≤ leNat (keyAndPublic E rand).1 ∧ leNat (keyAndPublic E rand).1 < 2 ^ 255 ∧
      L < leNat (keyAndPublic E rand).1 := by
  obtain ⟨k, hk, _⟩ := GenerateKey2_spec E rand h
  have hr := GenerateKey2_key_range E rand k hk
  simp only [keyAndPublic, hk]
  exact hr

/-! ## Lemmas on bit flips -/

/-- Flipping one bit of a byte adds or removes that power of two. -/
theorem byte_flip (b : Byte) (j : Fin 8) :
    (Fin.ofNat (b.val ^^^ (1 <<< j.val)) : Byte).val = b.val + 2 ^ j.val ∨
      b.val = (Fin.ofNat (b.val ^^^ (1 <<< j.val)) : Byte).val + 2 ^ j.val := by
  revert b j
  decide!

/-- The value of a byte string after one byte is overwritten. -/
theorem leNat_set (s : Bytes) (k : Nat) (x : Byte) (hk : k < s.length) :
    leNat (s.set k x) + 256 ^ k * (s.getD k 0).val = leNat s + 256 ^ k * x.val := by
  induction s generalizing k with
  | nil => simp at hk
  | cons b bs ih =>
    cases k with
    | zero => simp [leNat]; omega
    | succ k =>
      have h := ih k (by simpa using hk)
      simp only [List.set_cons_succ, leNat, List.getD_cons_succ, pow_succ]
      have e1 : 256 ^ k * 256 * (bs.getD k 0).val = 256 * (256 ^ k * (bs.getD k 0).val) := by ring
      have e2 : 256 ^ k * 256 * x.val = 256 * (256 ^ k * x.val) := by ring
      rw [e1, e2]
      omega

/-- Flipping bit `i` of a byte string adds or removes `2^i`. -/
theorem leNat_flipBit (s : Bytes) (i : Nat) (hi : i / 8 < s.length) :
    leNat (flipBit s i) = leNat s + 2 ^ i ∨ leNat s = leNat (flipBit s i) + 2 ^ i := by
  have h := leNat_set s (i / 8) (Fin.ofNat ((s.getD (i / 8) 0).val ^^^ (1 <<< (i % 8)))) hi
  have hp : (256 : Nat) ^ (i / 8) * 2 ^ (i % 8) = 2 ^ i := by
    have : (256 : Nat) = 2 ^ 8 := by norm_num
    rw [this, ← pow_mul, ← pow_add, Nat.div_add_mod]
  rcases byte_flip (s.getD (i / 8) 0) ⟨i % 8, Nat.mod_lt _ (by decide)⟩ with hb | hb
  · left
    simp only at hb
    rw [hb, Nat.mul_add, hp] at h
    unfold flipBit
    omega
  · right
    simp only at hb
    have h2 : 256 ^ (i / 8) * (s.getD (i / 8) 0).val =
        256 ^ (i / 8) * (Fin.ofNat ((s.getD (i / 8) 0).val ^^^ (1 <<< (i % 8))) : Byte).val
          + 2 ^ i := by
      conv_lhs => rw [hb]
      rw [Nat.mul_add, hp]
    unfold flipBit
    omega

/-- Overwriting a byte at or after index `m` leaves the first `m` bytes as they are. -/
theorem take_set_of_le (a : Byte) {n m : Nat} (l : Bytes) (h : m ≤ n) :
    (l.set n a).take m = l.take m :=
  List.ext_getElem? fun i => by
    rw [List.getElem?_take, List.getElem?_take]
    split
    · rw [List.getElem?_set_ne (by omega)]
    · rfl

/-- A bit flipped in the second half of a signature leaves the first half as it
is and flips that bit of the second half. -/
theorem flipBit_signature (sig : Bytes) (i : Nat) (hi : 256 ≤ i) :
    (flipBit sig i).length = sig.length ∧ (flipBit sig i).take 32 = sig.take 32 ∧
      (flipBit sig i).drop 32 = flipBit (sig.drop 32) (i - 256) := by
  have h8 : 32 ≤ i / 8 := by omega
  refine ⟨by simp [flipBit], take_set_of_le _ _ h8, ?_⟩
  unfold flipBit
  have e1 : (i - 256) / 8 = i / 8 - 32 := by omega
  have e2 : (i - 256) % 8 = i % 8 := by omega
  have e3 : (sig.drop 32).getD (i / 8 - 32) 0 = sig.getD (i / 8) 0 := by
    have e4 : 32 + (i / 8 - 32) = i / 8 := by omega
    rw [List.getD_eq_getElem?_getD, List.getD_eq_getElem?_getD, List.getElem?_drop, e4]
  rw [List.drop_set, if_neg (by omega), e1, e2, e3]

/-- The group order does not divide a power of two. -/
theorem L_not_dvd_two_pow (n : Nat) : ¬ L ∣ 2 ^ n := by
  intro h
  have h2 := (Nat.Prime.dvd_of_dvd_pow L_prime h)
  have h3 := Nat.le_of_dvd (by decide) h2
  have : 2 < L := by decide
  omega

/-- A difference of scalars is reduced. -/
theorem leNat_Subtract_lt (a b : Scalar) : leNat (Scalar.Subtract a b) < L := by
  have h := leNat_Scalar_Subtract a b
  have hL : (0 : Int) < (L : Int) := by exact_mod_cast L_pos
  have h2 := Int.emod_lt_of_pos ((leNat (copy32 a) : Int) - (leNat (copy32 b) : Int)) hL
  omega

/-! ## Lemmas on hex transport and on received values -/

theorem hex_digit_round_trip (b : Byte) :
    fromHexChar (hextable.getD (b.val / 16) 0) = some (b.val / 16) ∧
      fromHexChar (hextable.getD (b.val % 16) 0) = some (b.val % 16) ∧
      (Fin.ofNat (b.val / 16 * 16 + b.val % 16) : Byte) = b := by
  revert b
  decide!

/-- Hex transport is the identity: decoding an encoded byte string gives it
back, without error. -/
theorem hexDecodeString_hexEncodeToString (b : Bytes) :
    hexDecodeString (hexEncodeToString b) = (b, false) := by
  induction b with
  | nil => rfl
  | cons x xs ih =>
    obtain ⟨h1, h2, h3⟩ := hex_digit_round_trip x
    simp only [hexEncodeToString, hexDecodeString, h1, h2, ih, h3]

theorem received_hexEncodeToString (b : Bytes) : received (hexEncodeToString b) = b := by
  simp [received, hexDecodeString_hexEncodeToString]

theorem copy32_copy32 (x : Bytes) : copy32 (copy32 x) = copy32 x :=
  copy32_of_length (copyN_length 32 x)

theorem toElement_copy32 (E : Edwards25519) (x : Bytes) :
    CurvePoint.toElement E (copy32 x) = CurvePoint.toElement E x := by
  simp only [CurvePoint.toElement, copy32_copy32]

theorem curvePoint_add_copy32 (E : Edwards25519) (x y : Bytes) :
    CurvePoint.Add E (copy32 x) y = CurvePoint.Add E x y ∧
      CurvePoint.Add E x (copy32 y) = CurvePoint.Add E x y := by
  simp only [CurvePoint.Add, toElement_copy32, and_self]

theorem scalar_add_copy32 (x y : Bytes) :
    Scalar.Add (copy32 x) y = Scalar.Add x y ∧ Scalar.Add x (copy32 y) = Scalar.Add x y := by
  simp only [Scalar.Add, copy32_copy32, and_self]

theorem scalar_subtract_copy32 (x y : Bytes) :
    Scalar.Subtract (copy32 x) y = Scalar.Subtract x y ∧
      Scalar.Subtract x (copy32 y) = Scalar.Subtract x y := by
  simp only [Scalar.Subtract, copy32_copy32, and_self]

theorem GenerateCurvePoint_copy32 (E : Edwards25519) (x : Bytes) :
    GenerateCurvePoint E (copy32 x) = GenerateCurvePoint E x := by
  simp only [GenerateCurvePoint, copy32_copy32]

/-- Alice's key aggregation uses the received keys through `copy` into 32-byte buffers. -/
theorem alice_jointKeys_copy32 (E : Edwards25519) (A1 A2 Ra T B1 B2 Rb : Bytes) :
    jointKeys E A1 A2 Ra T (copy32 B1) (copy32 B2) (copy32 Rb) =
      jointKeys E A1 A2 Ra T B1 B2 Rb := by
  simp only [jointKeys, (curvePoint_add_copy32 E _ _).1, (curvePoint_add_copy32 E _ _).2]

theorem bob_jointKeys_copy32 (E : Edwards25519) (A1 A2 Ra T B1 B2 Rb : Bytes) :
    jointKeys E (copy32 A1) (copy32 A2) (copy32 Ra) (copy32 T) B1 B2 Rb =
      jointKeys E A1 A2 Ra T B1 B2 Rb := by
  simp only [jointKeys, (curvePoint_add_copy32 E _ _).1, (curvePoint_add_copy32 E _ _).2]

theorem bob_challenges_copy32 (Hash : HashFn) (k : party_bob.Keys) (j : JointKeys)
    (addressA addressB ptlc1Id ptlc2Id c1a1 c2a2 : Bytes) :
    party_bob.challenges Hash k j addressA addressB ptlc1Id ptlc2Id (copy32 c1a1) (copy32 c2a2) =
      party_bob.challenges Hash k j addressA addressB ptlc1Id ptlc2Id c1a1 c2a2 := by
  simp only [party_bob.challenges, (scalar_add_copy32 _ _).2]

theorem alice_adaptorSignature_copy32 (k : party_alice.Keys) (c2a2b2 : Bytes) :
    party_alice.adaptorSignature k (copy32 c2a2b2) = party_alice.adaptorSignature k c2a2b2 := by
  simp only [party_alice.adaptorSignature, (scalar_add_copy32 _ _).1]

theorem bob_adaptorSignature_copy32 (E : Edwards25519) (k : party_bob.Keys) (Ra : Bytes)
    (j : JointKeys) (c : party_bob.Challenges) (s_adapt_b : Bytes) :
    party_bob.adaptorSignature E k (copy32 Ra) j c (copy32 s_adapt_b) =
      party_bob.adaptorSignature E k Ra j c s_adapt_b := by
  simp only [party_bob.adaptorSignature, party_bob.checkAdaptor, (curvePoint_add_copy32 E _ _).2,
    GenerateCurvePoint_copy32]

theorem alice_signature_copy32 (E : Edwards25519) (k : party_alice.Keys) (j : JointKeys)
    (c : party_alice.Challenges) (s_adapt_a : Bytes) :
    party_alice.signature E k j c (copy32 s_adapt_a) = party_alice.signature E k j c s_adapt_a := by
  simp only [party_alice.signature, (scalar_add_copy32 _ _).1]

theorem bob_signature_copy32 (E : Edwards25519) (j : JointKeys) (c : party_bob.Challenges)
    (s_adapt_a s_adapt_b sa : Bytes) :
    party_bob.signature E j c s_adapt_a (copy32 s_adapt_b) (copy32 sa) =
      party_bob.signature E j c s_adapt_a s_adapt_b sa := by
  simp only [party_bob.signature, (scalar_add_copy32 _ _).1, (scalar_subtract_copy32 _ _).1]

/-! ## Lemmas on the run of the two parties -/

section Run

variable (E : Edwards25519)


theorem copy32_Add (a b : Scalar) : copy32 (Scalar.Add a b) = Scalar.Add a b :=
  copy32_of_length (Scalar.Add_length a b)

theorem copy32_Multiply (a b : Scalar) : copy32 (Scalar.Multiply a b) = Scalar.Multiply a b :=
  copy32_of_length (Scalar.Multiply_length a b)

theorem copy32_Subtract (a b : Scalar) : copy32 (Scalar.Subtract a b) = Scalar.Subtract a b :=
  copy32_of_length (Scalar.Subtract_length a b)

theorem cast_leNat_Add (a b : Scalar) :
    (leNat (Scalar.Add a b) : ZMod L) = (leNat (copy32 a) : ZMod L) + (leNat (copy32 b) : ZMod L) := by
  rw [leNat_Scalar_Add, ZMod.natCast_mod, Nat.cast_add]

theorem cast_leNat_Multiply (a b : Scalar) :
    (leNat (Scalar.Multiply a b) : ZMod L) =
      (leNat (copy32 a) : ZMod L) * (leNat (copy32 b) : ZMod L) := by
  rw [leNat_Scalar_Multiply, ZMod.natCast_mod, Nat.cast_mul]

theorem cast_leNat_Subtract (a b : Scalar) :
    (leNat (Scalar.Subtract a b) : ZMod L) =
      (leNat (copy32 a) : ZMod L) - (leNat (copy32 b) : ZMod L) := by
  have h := congrArg (fun z : Int => (z : ZMod L)) (leNat_Scalar_Subtract a b)
  simp only [Int.cast_natCast, ZMod.intCast_mod, Int.cast_sub] at h
  exact h

/-- The scalar of a combined share, as a multiple of the base point. -/
theorem share_smul (c x y r : Bytes) :
    leNat (Scalar.Add (Scalar.Add (Scalar.Multiply c y) (Scalar.Multiply c x)) r) • E.basePoint =
      leNat (copy32 c) • (leNat (copy32 x) • E.basePoint + leNat (copy32 y) • E.basePoint) +
        leNat (copy32 r) • E.basePoint := by
  have h : leNat (copy32 c) • (leNat (copy32 x) • E.basePoint + leNat (copy32 y) • E.basePoint) +
        leNat (copy32 r) • E.basePoint =
      (leNat (copy32 c) * leNat (copy32 x) + leNat (copy32 c) * leNat (copy32 y) +
        leNat (copy32 r)) • E.basePoint := by
    simp only [smul_add, add_smul, mul_smul]
  rw [h]
  apply smul_basePoint_congr
  rw [cast_leNat_Add, copy32_Add, cast_leNat_Add, copy32_Multiply, copy32_Multiply,
    cast_leNat_Multiply, cast_leNat_Multiply]
  push_cast
  ring

theorem leNat_Add_lt (a b : Scalar) : leNat (Scalar.Add a b) < L := by
  rw [leNat_Scalar_Add]
  exact Nat.mod_lt _ L_pos

theorem L_lt_253 : L < 2 ^ 253 := by decide

theorem take_32_append (R s : Bytes) (hR : R.length = 32) : (R ++ s).take 32 = R := by
  rw [← hR, List.take_left']
  rfl

theorem drop_32_append (R s : Bytes) (hR : R.length = 32) : (R ++ s).drop 32 = s := by
  rw [← hR, List.drop_left']
  rfl

/-- The function `Verify` accepts `R || s` when `s` is a 32-byte scalar below `2^253` with
`s·B = R + c·A` for the challenge `c` of the key, the nonce point and the
message. -/
theorem Verify_of_eq (m s : Bytes) (P Q : E.Point) (hs : s.length = 32)
    (hlt : leNat s < 2 ^ 253)
    (heq : leNat s • E.basePoint =
      Q + leNat (Challenge (E.ToBytes P) (E.ToBytes Q) m) • P) :
    Verify E (E.ToBytes P) m (E.ToBytes Q ++ s) = some true := by
  have hQ := E.ToBytes_length Q
  have hlen : (E.ToBytes Q ++ s).length = 64 := by simp [hQ, hs]
  have hbits : ((E.ToBytes Q ++ s).getD 63 0).val &&& 224 = 0 := by
    rw [getD_63_append _ _ hQ, top_bits_iff s hs]
    exact hlt
  rw [Verify_eq E _ m _ (E.ToBytes_length P) hlen, if_neg (not_not.2 hbits),
    E.FromBytes_ToBytes, take_32_append _ _ hQ, drop_32_append _ _ hQ, ← Challenge_eq, heq]
  have hpt : leNat (Challenge (E.ToBytes P) (E.ToBytes Q) m) • (-P) +
      (Q + leNat (Challenge (E.ToBytes P) (E.ToBytes Q) m) • P) = Q := by
    rw [smul_neg]
    abel
  simp only [hpt, bytesEqual, decide_True]

/-- The initiator leg on arbitrary 32-byte secrets. -/
theorem initiator_leg (a1 b1 rb t msgA : Bytes) (ha : a1.length = 32) (hb : b1.length = 32)
    (hr : rb.length = 32) (ht : t.length = 32) (c1 : Scalar) (P Q : E.Point)
    (hP : P = leNat a1 • E.basePoint + leNat b1 • E.basePoint)
    (hQ : Q = leNat rb • E.basePoint + leNat t • E.basePoint)
    (hc : c1 = Challenge (E.ToBytes P) (E.ToBytes Q) msgA) :
    party_alice.checkSignature E c1 (E.ToBytes P) (E.ToBytes Q)
        (Scalar.Add (Scalar.Add (Scalar.Add (Scalar.Multiply c1 b1) (Scalar.Multiply c1 a1)) rb)
          t) = some true ∧
      Verify E (E.ToBytes P) msgA (E.ToBytes Q ++
        Scalar.Add (Scalar.Add (Scalar.Add (Scalar.Multiply c1 b1) (Scalar.Multiply c1 a1)) rb)
          t) = some true := by
  have hc32 : copy32 c1 = c1 := by
    rw [hc]
    exact copy32_of_length (Challenge_length _ _ _)
  have key : leNat (Scalar.Add (Scalar.Add (Scalar.Add (Scalar.Multiply c1 b1)
      (Scalar.Multiply c1 a1)) rb) t) • E.basePoint = leNat c1 • P + Q := by
    have h1 := share_smul E c1 a1 b1 rb
    rw [copy32_of_length ha, copy32_of_length hb, copy32_of_length hr, hc32] at h1
    have h2 : leNat (Scalar.Add (Scalar.Add (Scalar.Add (Scalar.Multiply c1 b1)
        (Scalar.Multiply c1 a1)) rb) t) • E.basePoint =
        leNat (Scalar.Add (Scalar.Add (Scalar.Multiply c1 b1) (Scalar.Multiply c1 a1)) rb) •
          E.basePoint + leNat t • E.basePoint := by
      rw [← add_smul]
      apply smul_basePoint_congr
      rw [cast_leNat_Add, copy32_Add, copy32_of_length ht]
      push_cast
      rfl
    rw [h2, h1, hP, hQ]
    abel
  constructor
  · rw [alice_checkSignature_ToBytes, copy32_Add, hc32, key]
    simp [bytesEqual]
  · apply Verify_of_eq E msgA _ P Q (Scalar.Add_length _ _)
      (lt_trans (leNat_Add_lt _ _) L_lt_253)
    rw [key, ← hc]
    abel

/-- The scalar Bob extracts has the same multiple of the base point as `t`. -/
theorem cast_extract (s t : Bytes) :
    (leNat (Scalar.Subtract (Scalar.Add s t) s) : ZMod L) = (leNat (copy32 t) : ZMod L) := by
  rw [cast_leNat_Subtract, copy32_Add, cast_leNat_Add]
  ring

/-- The responder leg on arbitrary 32-byte secrets: `s_adapt_a` is any scalar
Bob sent, `sa` Alice's completion of it. -/
theorem responder_leg (a2 b2 ra t msgB s_adapt_a : Bytes) (ha : a2.length = 32)
    (hb : b2.length = 32) (hr : ra.length = 32) (ht : t.length = 32) (c2 : Scalar)
    (P Q : E.Point)
    (hP : P = leNat a2 • E.basePoint + leNat b2 • E.basePoint)
    (hQ : Q = leNat ra • E.basePoint + leNat t • E.basePoint)
    (hc : c2 = Challenge (E.ToBytes P) (E.ToBytes Q) msgB) :
    party_bob.checkAdaptor E c2 (E.ToBytes P) (E.ToBytes (leNat ra • E.basePoint))
        (Scalar.Add (Scalar.Add (Scalar.Multiply c2 b2) (Scalar.Multiply c2 a2)) ra) =
        some true ∧
      party_bob.checkSignature E c2 (E.ToBytes P) (E.ToBytes Q)
        (Scalar.Add (Scalar.Add (Scalar.Add (Scalar.Multiply c2 b2) (Scalar.Multiply c2 a2)) ra)
          (Scalar.Subtract (Scalar.Add s_adapt_a t) s_adapt_a)) = some true ∧
      Verify E (E.ToBytes P) msgB (E.ToBytes Q ++
        Scalar.Add (Scalar.Add (Scalar.Add (Scalar.Multiply c2 b2) (Scalar.Multiply c2 a2)) ra)
          (Scalar.Subtract (Scalar.Add s_adapt_a t) s_adapt_a)) = some true := by
  have hc32 : copy32 c2 = c2 := by
    rw [hc]
    exact copy32_of_length (Challenge_length _ _ _)
  have h1 := share_smul E c2 a2 b2 ra
  rw [copy32_of_length ha, copy32_of_length hb, copy32_of_length hr, hc32, ← hP] at h1
  have key : leNat (Scalar.Add (Scalar.Add (Scalar.Add (Scalar.Multiply c2 b2)
      (Scalar.Multiply c2 a2)) ra) (Scalar.Subtract (Scalar.Add s_adapt_a t) s_adapt_a)) •
        E.basePoint = leNat c2 • P + Q := by
    have h2 : leNat (Scalar.Add (Scalar.Add (Scalar.Add (Scalar.Multiply c2 b2)
        (Scalar.Multiply c2 a2)) ra) (Scalar.Subtract (Scalar.Add s_adapt_a t) s_adapt_a)) •
          E.basePoint =
        leNat (Scalar.Add (Scalar.Add (Scalar.Multiply c2 b2) (Scalar.Multiply c2 a2)) ra) •
          E.basePoint + leNat t • E.basePoint := by
      rw [← add_smul]
      apply smul_basePoint_congr
      rw [cast_leNat_Add, copy32_Add, copy32_Subtract, cast_extract, copy32_of_length ht]
      push_cast
      rfl
    rw [h2, h1, hQ]
    abel
  refine ⟨?_, ?_, ?_⟩
  · rw [bob_checkAdaptor_ToBytes, copy32_Add, hc32, h1]
    simp [bytesEqual]
  · rw [bob_checkSignature_ToBytes, copy32_Add, hc32, key]
    simp [bytesEqual]
  · apply Verify_of_eq E msgB _ P Q (Scalar.Add_length _ _)
      (lt_trans (leNat_Add_lt _ _) L_lt_253)
    rw [key, ← hc]
    abel

theorem jointKeys_ToBytes (PA1 PA2 PRa PT PB1 PB2 PRb : E.Point) :
    jointKeys E (E.ToBytes PA1) (E.ToBytes PA2) (E.ToBytes PRa) (E.ToBytes PT) (E.ToBytes PB1)
        (E.ToBytes PB2) (E.ToBytes PRb) =
      some { AB1 := E.ToBytes (PA1 + PB1), AB2 := E.ToBytes (PA2 + PB2),
             RaT := E.ToBytes (PRa + PT), RbT := E.ToBytes (PRb + PT) } := by
  simp [jointKeys, CurvePoint.Add_ToBytes]

theorem alice_challenges_eq (Hash : HashFn) (k : party_alice.Keys) (j : JointKeys)
    (addressA addressB ptlc1Id ptlc2Id : Bytes) (h1 : k.a1.length = 32)
    (h2 : k.a2.length = 32) :
    party_alice.challenges Hash k j addressA addressB ptlc1Id ptlc2Id =
      some { msgA := Hash (ptlc2Id ++ addressA), msgB := Hash (ptlc1Id ++ addressB),
             c1 := Challenge j.AB1 j.RbT (Hash (ptlc2Id ++ addressA)),
             c2 := Challenge j.AB2 j.RaT (Hash (ptlc1Id ++ addressB)),
             c1a1 := Scalar.Multiply (Challenge j.AB1 j.RbT (Hash (ptlc2Id ++ addressA))) k.a1,
             c2a2 := Scalar.Multiply (Challenge j.AB2 j.RaT (Hash (ptlc1Id ++ addressB))) k.a2 } := by
  simp [party_alice.challenges, slice32_of_length h1, slice32_of_length h2]

theorem bob_challenges_eq (Hash : HashFn) (k : party_bob.Keys) (j : JointKeys)
    (addressA addressB ptlc1Id ptlc2Id c1a1 c2a2 : Bytes) (h1 : k.b1.length = 32)
    (h2 : k.b2.length = 32) :
    party_bob.challenges Hash k j addressA addressB ptlc1Id ptlc2Id c1a1 c2a2 =
      some { msgA := Hash (ptlc2Id ++ addressA), msgB := Hash (ptlc1Id ++ addressB),
             c1 := Challenge j.AB1 j.RbT (Hash (ptlc2Id ++ addressA)),
             c2 := Challenge j.AB2 j.RaT (Hash (ptlc1Id ++ addressB)),
             c1a1b1 := Scalar.Add
               (Scalar.Multiply (Challenge j.AB1 j.RbT (Hash (ptlc2Id ++ addressA))) k.b1) c1a1,
             c2a2b2 := Scalar.Add
               (Scalar.Multiply (Challenge j.AB2 j.RaT (Hash (ptlc1Id ++ addressB))) k.b2)
               c2a2 } := by
  simp [party_bob.challenges, slice32_of_length h1, slice32_of_length h2]

theorem alice_adaptorSignature_eq (k : party_alice.Keys) (c2a2b2 : Scalar)
    (h : k.ra.length = 32) :
    party_alice.adaptorSignature k c2a2b2 = some (Scalar.Add c2a2b2 k.ra) := by
  simp [party_alice.adaptorSignature, slice32_of_length h]

theorem bob_adaptorSignature_eq (k : party_bob.Keys) (Ra : PublicKey) (j : JointKeys)
    (c : party_bob.Challenges) (s_adapt_b : Scalar)
    (h : party_bob.checkAdaptor E c.c2 j.AB2 Ra s_adapt_b = some true) :
    party_bob.adaptorSignature E k Ra j c s_adapt_b = some (Scalar.Add c.c1a1b1 k.rb) := by
  simp [party_bob.adaptorSignature, h]

theorem signature64_eq (R s : Bytes) (hR : R.length = 32) (hs : s.length = 32) :
    party_alice.signature64 R s = some (R ++ s) := by
  simp [party_alice.signature64, slice32_of_length hR, slice32_of_length hs,
    copyN_of_length hR, copyN_of_length hs]

theorem alice_signature_eq (k : party_alice.Keys) (j : JointKeys)
    (c : party_alice.Challenges) (s_adapt_a : Scalar) (hR : j.RbT.length = 32)
    (h1 : party_alice.checkSignature E c.c1 j.AB1 j.RbT (Scalar.Add s_adapt_a k.t) = some true)
    (h2 : Verify E j.AB1 c.msgA (j.RbT ++ Scalar.Add s_adapt_a k.t) = some true) :
    party_alice.signature E k j c s_adapt_a =
      some { sa := Scalar.Add s_adapt_a k.t, sa64 := j.RbT ++ Scalar.Add s_adapt_a k.t } := by
  simp [party_alice.signature, h1, signature64_eq _ _ hR (Scalar.Add_length _ _), h2]

theorem bob_signature_eq (j : JointKeys) (c : party_bob.Challenges)
    (s_adapt_a s_adapt_b sa : Scalar) (hR : j.RaT.length = 32)
    (h1 : party_bob.checkSignature E c.c2 j.AB2 j.RaT
      (Scalar.Add s_adapt_b (Scalar.Subtract sa s_adapt_a)) = some true)
    (h2 : Verify E j.AB2 c.msgB
      (j.RaT ++ Scalar.Add s_adapt_b (Scalar.Subtract sa s_adapt_a)) = some true) :
    party_bob.signature E j c s_adapt_a s_adapt_b sa =
      some { t := Scalar.Subtract sa s_adapt_a,
             sb := Scalar.Add s_adapt_b (Scalar.Subtract sa s_adapt_a),
             sb64 := j.RaT ++ Scalar.Add s_adapt_b (Scalar.Subtract sa s_adapt_a) } := by
  simp [party_bob.signature, h1, signature64_eq _ _ hR (Scalar.Add_length _ _), h2]


theorem alice_generateKeys_spec (r1 r2 r3 r4 : Bytes) (h1 : 32 ≤ r1.length)
    (h2 : 32 ≤ r2.length) (h3 : 32 ≤ r3.length) (h4 : 32 ≤ r4.length) :
    (party_alice.generateKeys E r1 r2 r3 r4).a1.length = 32 ∧
    (party_alice.generateKeys E r1 r2 r3 r4).a2.length = 32 ∧
    (party_alice.generateKeys E r1 r2 r3 r4).ra.length = 32 ∧
    (party_alice.generateKeys E r1 r2 r3 r4).t.length = 32 ∧
    (party_alice.generateKeys E r1 r2 r3 r4).A1 =
      E.ToBytes (leNat (party_alice.generateKeys E r1 r2 r3 r4).a1 • E.basePoint) ∧
    (party_alice.generateKeys E r1 r2 r3 r4).A2 =
      E.ToBytes (leNat (party_alice.generateKeys E r1 r2 r3 r4).a2 • E.basePoint) ∧
    (party_alice.generateKeys E r1 r2 r3 r4).Ra =
      E.ToBytes (leNat (party_alice.generateKeys E r1 r2 r3 r4).ra • E.basePoint) ∧
    (party_alice.generateKeys E r1 r2 r3 r4).T =
      E.ToBytes (leNat (party_alice.generateKeys E r1 r2 r3 r4).t • E.basePoint) :=
  ⟨(keyAndPublic_spec E r1 h1).1, (keyAndPublic_spec E r2 h2).1, (keyAndPublic_spec E r3 h3).1,
    (keyAndPublic_spec E r4 h4).1, (keyAndPublic_spec E r1 h1).2, (keyAndPublic_spec E r2 h2).2,
    (keyAndPublic_spec E r3 h3).2, (keyAndPublic_spec E r4 h4).2⟩

theorem bob_generateKeys_spec (r1 r2 r3 : Bytes) (h1 : 32 ≤ r1.length)
    (h2 : 32 ≤ r2.length) (h3 : 32 ≤ r3.length) :
    (party_bob.generateKeys E r1 r2 r3).b1.length = 32 ∧
    (party_bob.generateKeys E r1 r2 r3).b2.length = 32 ∧
    (party_bob.generateKeys E r1 r2 r3).rb.length = 32 ∧
    (party_bob.generateKeys E r1 r2 r3).B1 =
      E.ToBytes (leNat (party_bob.generateKeys E r1 r2 r3).b1 • E.basePoint) ∧
    (party_bob.generateKeys E r1 r2 r3).B2 =
      E.ToBytes (leNat (party_bob.generateKeys E r1 r2 r3).b2 • E.basePoint) ∧
    (party_bob.generateKeys E r1 r2 r3).Rb =
      E.ToBytes (leNat (party_bob.generateKeys E r1 r2 r3).rb • E.basePoint) :=
  ⟨(keyAndPublic_spec E r1 h1).1, (keyAndPublic_spec E r2 h2).1, (keyAndPublic_spec E r3 h3).1,
    (keyAndPublic_spec E r1 h1).2, (keyAndPublic_spec E r2 h2).2, (keyAndPublic_spec E r3 h3).2⟩

/-- The run of two parties whose keys are 32-byte scalars with their public
points: every phase returns, and with these values. -/
theorem honestRun_of_keys (Hash : HashFn) (ka : party_alice.Keys) (kb : party_bob.Keys)
    (addressA addressB ptlc1Id ptlc2Id : Bytes)
    (la1 : ka.a1.length = 32) (la2 : ka.a2.length = 32) (lra : ka.ra.length = 32)
    (lt : ka.t.length = 32) (lb1 : kb.b1.length = 32) (lb2 : kb.b2.length = 32)
    (lrb : kb.rb.length = 32)
    (pa1 : ka.A1 = E.ToBytes (leNat ka.a1 • E.basePoint))
    (pa2 : ka.A2 = E.ToBytes (leNat ka.a2 • E.basePoint))
    (pra : ka.Ra = E.ToBytes (leNat ka.ra • E.basePoint))
    (pt : ka.T = E.ToBytes (leNat ka.t • E.basePoint))
    (pb1 : kb.B1 = E.ToBytes (leNat kb.b1 • E.basePoint))
    (pb2 : kb.B2 = E.ToBytes (leNat kb.b2 • E.basePoint))
    (prb : kb.Rb = E.ToBytes (leNat kb.rb • E.basePoint)) :
    ∃ j ca cb s_adapt_b s_adapt_a sigA sigB,
      (jointKeys E ka.A1 ka.A2 ka.Ra ka.T kb.B1 kb.B2 kb.Rb = some j ∧
      party_alice.challenges Hash ka j addressA addressB ptlc1Id ptlc2Id = some ca ∧
      party_bob.challenges Hash kb j addressA addressB ptlc1Id ptlc2Id ca.c1a1 ca.c2a2 =
        some cb ∧
      party_alice.adaptorSignature ka cb.c2a2b2 = some s_adapt_b ∧
      party_bob.adaptorSignature E kb ka.Ra j cb s_adapt_b = some s_adapt_a ∧
      party_alice.signature E ka j ca s_adapt_a = some sigA ∧
      party_bob.signature E j cb s_adapt_a s_adapt_b sigA.sa = some sigB) ∧
      (j.AB1 = E.ToBytes (leNat ka.a1 • E.basePoint + leNat kb.b1 • E.basePoint) ∧
      j.AB2 = E.ToBytes (leNat ka.a2 • E.basePoint + leNat kb.b2 • E.basePoint) ∧
      j.RaT = E.ToBytes (leNat ka.ra • E.basePoint + leNat ka.t • E.basePoint) ∧
      j.RbT = E.ToBytes (leNat kb.rb • E.basePoint + leNat ka.t • E.basePoint)) ∧
      (ca.msgA = Hash (ptlc2Id ++ addressA) ∧ ca.msgB = Hash (ptlc1Id ++ addressB) ∧
      ca.c1 = Challenge j.AB1 j.RbT ca.msgA ∧ ca.c2 = Challenge j.AB2 j.RaT ca.msgB ∧
      ca.c1a1 = Scalar.Multiply ca.c1 ka.a1 ∧ ca.c2a2 = Scalar.Multiply ca.c2 ka.a2) ∧
      (cb.msgA = ca.msgA ∧ cb.msgB = ca.msgB ∧ cb.c1 = ca.c1 ∧ cb.c2 = ca.c2 ∧
      cb.c1a1b1 = Scalar.Add (Scalar.Multiply cb.c1 kb.b1) ca.c1a1 ∧
      cb.c2a2b2 = Scalar.Add (Scalar.Multiply cb.c2 kb.b2) ca.c2a2) ∧
      (s_adapt_b = Scalar.Add cb.c2a2b2 ka.ra ∧ s_adapt_a = Scalar.Add cb.c1a1b1 kb.rb) ∧
      (sigA.sa = Scalar.Add s_adapt_a ka.t ∧ sigA.sa64 = j.RbT ++ sigA.sa ∧
      sigB.t = Scalar.Subtract sigA.sa s_adapt_a ∧ sigB.sb = Scalar.Add s_adapt_b sigB.t ∧
      sigB.sb64 = j.RaT ++ sigB.sb) ∧
      (party_bob.checkAdaptor E cb.c2 j.AB2 ka.Ra s_adapt_b = some true ∧
      party_alice.checkSignature E ca.c1 j.AB1 j.RbT sigA.sa = some true ∧
      Verify E j.AB1 ca.msgA sigA.sa64 = some true ∧
      party_bob.checkSignature E cb.c2 j.AB2 j.RaT sigB.sb = some true ∧
      Verify E j.AB2 cb.msgB sigB.sb64 = some true) := by
  have hj := jointKeys_ToBytes E (leNat ka.a1 • E.basePoint) (leNat ka.a2 • E.basePoint)
    (leNat ka.ra • E.basePoint) (leNat ka.t • E.basePoint) (leNat kb.b1 • E.basePoint)
    (leNat kb.b2 • E.basePoint) (leNat kb.rb • E.basePoint)
  rw [← pa1, ← pa2, ← pra, ← pt, ← pb1, ← pb2, ← prb] at hj
  have hca := fun j =>
    alice_challenges_eq Hash ka j addressA addressB ptlc1Id ptlc2Id la1 la2
  have hcb := fun j x y =>
    bob_challenges_eq Hash kb j addressA addressB ptlc1Id ptlc2Id x y lb1 lb2
  have hI := initiator_leg E ka.a1 kb.b1 kb.rb ka.t (Hash (ptlc2Id ++ addressA)) la1 lb1 lrb lt
    _ _ _ rfl rfl rfl
  have hR := fun s => responder_leg E ka.a2 kb.b2 ka.ra ka.t (Hash (ptlc1Id ++ addressB)) s
    la2 lb2 lra lt _ _ _ rfl rfl rfl
  have hRa := (hR []).1
  rw [← pra] at hRa
  exact ⟨_, _, _, _, _, _, _, ⟨hj, hca _, hcb _ _ _,
    alice_adaptorSignature_eq _ _ lra,
    bob_adaptorSignature_eq E _ _ _ _ _ hRa,
    alice_signature_eq E _ _ _ _ (E.ToBytes_length _) hI.1 hI.2,
    bob_signature_eq E _ _ _ _ _ (E.ToBytes_length _) (hR _).2.1 (hR _).2.2⟩,
    ⟨rfl, rfl, rfl, rfl⟩, ⟨rfl, rfl, rfl, rfl, rfl, rfl⟩, ⟨rfl, rfl, rfl, rfl, rfl, rfl⟩,
    ⟨rfl, rfl⟩, ⟨rfl, rfl, rfl, rfl, rfl⟩, ⟨hRa, hI.1, hI.2, (hR _).2.1, (hR _).2.2⟩⟩

/-- The phases of a run that reached the end. -/
theorem honestRun_inv (Hash : HashFn) (i : SwapInputs) (r : Swap)
    (h : honestRun E Hash i = some r) :
    r.aliceKeys = party_alice.generateKeys E i.rand_a1 i.rand_a2 i.rand_ra i.rand_t ∧
    r.bobKeys = party_bob.generateKeys E i.rand_b1 i.rand_b2 i.rand_rb ∧
    jointKeys E r.aliceKeys.A1 r.aliceKeys.A2 r.aliceKeys.Ra r.aliceKeys.T r.bobKeys.B1
      r.bobKeys.B2 r.bobKeys.Rb = some r.aliceJoint ∧
    r.bobJoint = r.aliceJoint ∧
    r.expiration1 = toInt64 (expirationTime i.timeA) ∧
    r.expiration2 = toInt64 (expirationTime i.timeB) ∧
    party_alice.challenges Hash r.aliceKeys r.aliceJoint i.addressA i.addressB i.ptlc1Id
      i.ptlc2Id = some r.aliceChallenges ∧
    party_bob.challenges Hash r.bobKeys r.bobJoint i.addressA i.addressB i.ptlc1Id i.ptlc2Id
      r.aliceChallenges.c1a1 r.aliceChallenges.c2a2 = some r.bobChallenges ∧
    party_alice.adaptorSignature r.aliceKeys r.bobChallenges.c2a2b2 = some r.s_adapt_b ∧
    party_bob.adaptorSignature E r.bobKeys r.aliceKeys.Ra r.bobJoint r.bobChallenges
      r.s_adapt_b = some r.s_adapt_a ∧
    party_alice.signature E r.aliceKeys r.aliceJoint r.aliceChallenges r.s_adapt_a =
      some r.aliceSignature ∧
    party_bob.signature E r.bobJoint r.bobChallenges r.s_adapt_a r.s_adapt_b
      r.aliceSignature.sa = some r.bobSignature := by
  simp only [honestRun, Option.bind_eq_bind, Option.bind_eq_some, Option.pure_def,
    Option.some.injEq] at h
  obtain ⟨ja, hja, jb, hjb, ca, hca, cb, hcb, sb, hsb, sa, hsa, sigA, hsigA, sigB, hsigB, hr⟩ := h
  subst hr
  have hjj : jb = ja := by
    rw [hja] at hjb
    exact (Option.some.inj hjb).symm
  subst hjj
  refine ⟨?_, ?_, hja, ?_, ?_, ?_, hca, hcb, hsb, hsa, hsigA, hsigB⟩
  all_goals simp only

end Run

/-- The run of the two parties, every key pair drawn from at least 32 bytes of
randomness, reaches the end, with these values. -/
theorem honestRun_spec (E : Edwards25519) (Hash : HashFn) (i : SwapInputs)
    (h_a1 : 32 ≤ i.rand_a1.length) (h_a2 : 32 ≤ i.rand_a2.length)
    (h_ra : 32 ≤ i.rand_ra.length) (h_t : 32 ≤ i.rand_t.length)
    (h_b1 : 32 ≤ i.rand_b1.length) (h_b2 : 32 ≤ i.rand_b2.length)
    (h_rb : 32 ≤ i.rand_rb.length) :
    ∃ r, honestRun E Hash i = some r ∧
      (r.aliceKeys = party_alice.generateKeys E i.rand_a1 i.rand_a2 i.rand_ra i.rand_t ∧
      r.bobKeys = party_bob.generateKeys E i.rand_b1 i.rand_b2 i.rand_rb ∧
      r.bobJoint = r.aliceJoint) ∧
      (r.aliceKeys.a1.length = 32 ∧ r.aliceKeys.a2.length = 32 ∧ r.aliceKeys.ra.length = 32 ∧
      r.aliceKeys.t.length = 32 ∧ r.bobKeys.b1.length = 32 ∧ r.bobKeys.b2.length = 32 ∧
      r.bobKeys.rb.length = 32) ∧
      (r.aliceKeys.A1 = E.ToBytes (leNat r.aliceKeys.a1 • E.basePoint) ∧
      r.aliceKeys.A2 = E.ToBytes (leNat r.aliceKeys.a2 • E.basePoint) ∧
      r.aliceKeys.Ra = E.ToBytes (leNat r.aliceKeys.ra • E.basePoint) ∧
      r.aliceKeys.T = E.ToBytes (leNat r.aliceKeys.t • E.basePoint) ∧
      r.bobKeys.B1 = E.ToBytes (leNat r.bobKeys.b1 • E.basePoint) ∧
      r.bobKeys.B2 = E.ToBytes (leNat r.bobKeys.b2 • E.basePoint) ∧
      r.bobKeys.Rb = E.ToBytes (leNat r.bobKeys.rb • E.basePoint)) ∧
      (r.aliceJoint.AB1 = E.ToBytes
        (leNat r.aliceKeys.a1 • E.basePoint + leNat r.bobKeys.b1 • E.basePoint) ∧
      r.aliceJoint.AB2 = E.ToBytes
        (leNat r.aliceKeys.a2 • E.basePoint + leNat r.bobKeys.b2 • E.basePoint) ∧
      r.aliceJoint.RaT = E.ToBytes
        (leNat r.aliceKeys.ra • E.basePoint + leNat r.aliceKeys.t • E.basePoint) ∧
      r.aliceJoint.RbT = E.ToBytes
        (leNat r.bobKeys.rb • E.basePoint + leNat r.aliceKeys.t • E.basePoint)) ∧
      (r.aliceChallenges.msgA = Hash (i.ptlc2Id ++ i.addressA) ∧
      r.aliceChallenges.msgB = Hash (i.ptlc1Id ++ i.addressB) ∧
      r.aliceChallenges.c1 = Challenge r.aliceJoint.AB1 r.aliceJoint.RbT r.aliceChallenges.msgA ∧
      r.aliceChallenges.c2 = Challenge r.aliceJoint.AB2 r.aliceJoint.RaT r.aliceChallenges.msgB ∧
      r.aliceChallenges.c1a1 = Scalar.Multiply r.aliceChallenges.c1 r.aliceKeys.a1 ∧
      r.aliceChallenges.c2a2 = Scalar.Multiply r.aliceChallenges.c2 r.aliceKeys.a2) ∧
      (r.bobChallenges.msgA = r.aliceChallenges.msgA ∧
      r.bobChallenges.msgB = r.aliceChallenges.msgB ∧
      r.bobChallenges.c1 = r.aliceChallenges.c1 ∧ r.bobChallenges.c2 = r.aliceChallenges.c2 ∧
      r.bobChallenges.c1a1b1 =
        Scalar.Add (Scalar.Multiply r.bobChallenges.c1 r.bobKeys.b1) r.aliceChallenges.c1a1 ∧
      r.bobChallenges.c2a2b2 =
        Scalar.Add (Scalar.Multiply r.bobChallenges.c2 r.bobKeys.b2) r.aliceChallenges.c2a2) ∧
      (r.s_adapt_b = Scalar.Add r.bobChallenges.c2a2b2 r.aliceKeys.ra ∧
      r.s_adapt_a = Scalar.Add r.bobChallenges.c1a1b1 r.bobKeys.rb) ∧
      (r.aliceSignature.sa = Scalar.Add r.s_adapt_a r.aliceKeys.t ∧
      r.aliceSignature.sa64 = r.aliceJoint.RbT ++ r.aliceSignature.sa ∧
      r.bobSignature.t = Scalar.Subtract r.aliceSignature.sa r.s_adapt_a ∧
      r.bobSignature.sb = Scalar.Add r.s_adapt_b r.bobSignature.t ∧
      r.bobSignature.sb64 = r.aliceJoint.RaT ++ r.bobSignature.sb) ∧
      (party_bob.checkAdaptor E r.bobChallenges.c2 r.aliceJoint.AB2 r.aliceKeys.Ra r.s_adapt_b =
        some true ∧
      party_alice.checkSignature E r.aliceChallenges.c1 r.aliceJoint.AB1 r.aliceJoint.RbT
        r.aliceSignature.sa = some true ∧
      Verify E r.aliceJoint.AB1 r.aliceChallenges.msgA r.aliceSignature.sa64 = some true ∧
      party_bob.checkSignature E r.bobChallenges.c2 r.aliceJoint.AB2 r.aliceJoint.RaT
        r.bobSignature.sb = some true ∧
      Verify E r.aliceJoint.AB2 r.bobChallenges.msgB r.bobSignature.sb64 = some true) := by
  obtain ⟨la1, la2, lra, lt, pa1, pa2, pra, pt⟩ :=
    alice_generateKeys_spec E _ _ _ _ h_a1 h_a2 h_ra h_t
  obtain ⟨lb1, lb2, lrb, pb1, pb2, prb⟩ := bob_generateKeys_spec E _ _ _ h_b1 h_b2 h_rb
  obtain ⟨j, ca, cb, sb, sa, sigA, sigB, ⟨hj, hca, hcb, hsb, hsa, hsigA, hsigB⟩, f1, f2, f3, f4,
      f5, f6⟩ :=
    honestRun_of_keys E Hash _ _ i.addressA i.addressB i.ptlc1Id i.ptlc2Id la1 la2 lra lt lb1
      lb2 lrb pa1 pa2 pra pt pb1 pb2 prb
  simp only [honestRun, Option.bind_eq_bind, Option.pure_def, hj, Option.some_bind, hca, hcb, hsb,
    hsa, hsigA, hsigB]
  exact ⟨_, rfl, ⟨rfl, rfl, rfl⟩, ⟨la1, la2, lra, lt, lb1, lb2, lrb⟩,
    ⟨pa1, pa2, pra, pt, pb1, pb2, prb⟩, f1, f2, f3, f4, f5, f6⟩

/-- The scalars exchanged in a run, as numbers modulo `L`. -/
theorem honestRun_scalars (E : Edwards25519) (Hash : HashFn) (i : SwapInputs)
    (h_a1 : 32 ≤ i.rand_a1.length) (h_a2 : 32 ≤ i.rand_a2.length)
    (h_ra : 32 ≤ i.rand_ra.length) (h_t : 32 ≤ i.rand_t.length)
    (h_b1 : 32 ≤ i.rand_b1.length) (h_b2 : 32 ≤ i.rand_b2.length)
    (h_rb : 32 ≤ i.rand_rb.length) :
    ∃ r, honestRun E Hash i = some r ∧
      (r.bobChallenges.c1 = r.aliceChallenges.c1 ∧ r.bobChallenges.c2 = r.aliceChallenges.c2 ∧
        leNat r.aliceChallenges.c1 < L ∧ leNat r.aliceChallenges.c2 < L) ∧
      leNat r.aliceChallenges.c1a1 =
        (leNat r.aliceChallenges.c1 * leNat r.aliceKeys.a1) % L ∧
      leNat r.aliceChallenges.c2a2 =
        (leNat r.aliceChallenges.c2 * leNat r.aliceKeys.a2) % L ∧
      leNat r.bobChallenges.c2a2b2 =
        (leNat r.bobChallenges.c2 * leNat r.bobKeys.b2 +
          leNat r.aliceChallenges.c2 * leNat r.aliceKeys.a2) % L ∧
      leNat r.s_adapt_b =
        (leNat r.bobChallenges.c2 * leNat r.bobKeys.b2 +
          leNat r.aliceChallenges.c2 * leNat r.aliceKeys.a2 + leNat r.aliceKeys.ra) % L ∧
      leNat r.s_adapt_a =
        (leNat r.bobChallenges.c1 * leNat r.bobKeys.b1 +
          leNat r.aliceChallenges.c1 * leNat r.aliceKeys.a1 + leNat r.bobKeys.rb) % L := by
  obtain ⟨r, hr, _, ⟨la1, la2, lra, _, lb1, lb2, lrb⟩, _, _, ⟨_, _, hc1, hc2, hc1a1, hc2a2⟩,
    ⟨_, _, hbc1, hbc2, hc1a1b1, hc2a2b2⟩, ⟨hsb, hsa⟩, _⟩ :=
    honestRun_spec E Hash i h_a1 h_a2 h_ra h_t h_b1 h_b2 h_rb
  have lc1 : r.aliceChallenges.c1.length = 32 := by
    rw [hc1]
    exact Challenge_length _ _ _
  have lc2 : r.aliceChallenges.c2.length = 32 := by
    rw [hc2]
    exact Challenge_length _ _ _
  have rc1 : leNat r.aliceChallenges.c1 < L := by
    rw [hc1, Challenge_eq, leNat_ScReduce]
    exact Nat.mod_lt _ L_pos
  have rc2 : leNat r.aliceChallenges.c2 < L := by
    rw [hc2, Challenge_eq, leNat_ScReduce]
    exact Nat.mod_lt _ L_pos
  have e1 : leNat r.aliceChallenges.c1a1 =
      (leNat r.aliceChallenges.c1 * leNat r.aliceKeys.a1) % L := by
    rw [hc1a1, leNat_Scalar_Multiply, copy32_of_length lc1, copy32_of_length la1]
  have e2 : leNat r.aliceChallenges.c2a2 =
      (leNat r.aliceChallenges.c2 * leNat r.aliceKeys.a2) % L := by
    rw [hc2a2, leNat_Scalar_Multiply, copy32_of_length lc2, copy32_of_length la2]
  have e3 : leNat r.bobChallenges.c2a2b2 =
      (leNat r.bobChallenges.c2 * leNat r.bobKeys.b2 +
        leNat r.aliceChallenges.c2 * leNat r.aliceKeys.a2) % L := by
    rw [hc2a2b2, leNat_Scalar_Add, copy32_Multiply, leNat_Scalar_Multiply, hbc2,
      copy32_of_length lc2, copy32_of_length lb2, hc2a2, copy32_Multiply,
      leNat_Scalar_Multiply, copy32_of_length lc2, copy32_of_length la2, ← Nat.add_mod]
  have e4 : leNat r.bobChallenges.c1a1b1 =
      (leNat r.bobChallenges.c1 * leNat r.bobKeys.b1 +
        leNat r.aliceChallenges.c1 * leNat r.aliceKeys.a1) % L := by
    rw [hc1a1b1, leNat_Scalar_Add, copy32_Multiply, leNat_Scalar_Multiply, hbc1,
      copy32_of_length lc1, copy32_of_length lb1, hc1a1, copy32_Multiply,
      leNat_Scalar_Multiply, copy32_of_length lc1, copy32_of_length la1, ← Nat.add_mod]
  refine ⟨r, hr, ⟨hbc1, hbc2, rc1, rc2⟩, e1, e2, e3, ?_, ?_⟩
  · rw [hsb, leNat_Scalar_Add, hc2a2b2, copy32_Add, ← hc2a2b2, e3, copy32_of_length lra,
      Nat.mod_add_mod]
  · rw [hsa, leNat_Scalar_Add, hc1a1b1, copy32_Add, ← hc1a1b1, e4, copy32_of_length lrb,
      Nat.mod_add_mod]

/-- In a run each party's view determines the other party's signing secret
modulo `L`. -/
theorem honestRun_recover (E : Edwards25519) (Hash : HashFn) (i : SwapInputs)
    (h_a1 : 32 ≤ i.rand_a1.length) (h_a2 : 32 ≤ i.rand_a2.length)
    (h_ra : 32 ≤ i.rand_ra.length) (h_t : 32 ≤ i.rand_t.length)
    (h_b1 : 32 ≤ i.rand_b1.length) (h_b2 : 32 ≤ i.rand_b2.length)
    (h_rb : 32 ≤ i.rand_rb.length) :
    ∃ r, honestRun E Hash i = some r ∧
      (leNat r.bobChallenges.c1 ≠ 0 →
        recoverFromBobView r.bobKeys.b1 r.bobChallenges.c1 r.aliceChallenges.c1a1 =
          leNat r.aliceKeys.a1 % L) ∧
      (leNat r.aliceChallenges.c2 ≠ 0 →
        recoverFromAliceView r.aliceKeys.a2 r.aliceChallenges.c2 r.bobChallenges.c2a2b2 =
          leNat r.bobKeys.b2 % L) := by
  obtain ⟨r, hr, ⟨hbc1, hbc2, rc1, rc2⟩, e1, _, e3, _⟩ :=
    honestRun_scalars E Hash i h_a1 h_a2 h_ra h_t h_b1 h_b2 h_rb
  refine ⟨r, hr, ?_, ?_⟩
  · intro hne
    rw [hbc1] at hne ⊢
    unfold recoverFromBobView
    rw [e1]
    exact mul_powMod_inverse _ _ (by rw [Nat.mod_eq_of_lt rc1]; exact hne)
  · intro hne
    unfold recoverFromAliceView
    rw [e3, hbc2]
    have hX : ((leNat r.aliceChallenges.c2 * leNat r.bobKeys.b2 +
        leNat r.aliceChallenges.c2 * leNat r.aliceKeys.a2) % L +
        (L - leNat r.aliceChallenges.c2 * leNat r.aliceKeys.a2 % L)) % L =
        leNat r.aliceChallenges.c2 * leNat r.bobKeys.b2 % L := by
      rw [L_eq]
      omega
    rw [← Nat.mod_mul_mod, hX]
    exact mul_powMod_inverse _ _ (by rw [Nat.mod_eq_of_lt rc2]; exact hne)

theorem alice_challenges_inv (Hash : HashFn) (k : party_alice.Keys) (j : JointKeys)
    (addressA addressB ptlc1Id ptlc2Id : Bytes) (c : party_alice.Challenges)
    (h : party_alice.challenges Hash k j addressA addressB ptlc1Id ptlc2Id = some c) :
    c.msgA = Hash (ptlc2Id ++ addressA) ∧ c.msgB = Hash (ptlc1Id ++ addressB) ∧
      c.c1 = Challenge j.AB1 j.RbT c.msgA ∧ c.c2 = Challenge j.AB2 j.RaT c.msgB := by
  simp only [party_alice.challenges, Option.bind_eq_bind, Option.bind_eq_some, Option.pure_def,
    Option.some.injEq] at h
  obtain ⟨x, _, y, _, hc⟩ := h
  subst hc
  exact ⟨rfl, rfl, rfl, rfl⟩

theorem bob_challenges_inv (Hash : HashFn) (k : party_bob.Keys) (j : JointKeys)
    (addressA addressB ptlc1Id ptlc2Id c1a1 c2a2 : Bytes) (c : party_bob.Challenges)
    (h : party_bob.challenges Hash k j addressA addressB ptlc1Id ptlc2Id c1a1 c2a2 = some c) :
    c.msgA = Hash (ptlc2Id ++ addressA) ∧ c.msgB = Hash (ptlc1Id ++ addressB) ∧
      c.c1 = Challenge j.AB1 j.RbT c.msgA ∧ c.c2 = Challenge j.AB2 j.RaT c.msgB := by
  simp only [party_bob.challenges, Option.bind_eq_bind, Option.bind_eq_some, Option.pure_def,
    Option.some.injEq] at h
  obtain ⟨x, _, y, _, hc⟩ := h
  subst hc
  exact ⟨rfl, rfl, rfl, rfl⟩


/-- A comparison of a multiple of the base point with a point that is itself
`n·B` succeeds exactly for the scalars congruent to `n` modulo `L`. -/
theorem bytesEqual_smul_basePoint (E : Edwards25519) (m n : Nat) (X : E.Point)
    (hX : n • E.basePoint = X) :
    bytesEqual (E.ToBytes (m • E.basePoint)) (E.ToBytes X) = decide (m % L = n % L) := by
  rw [← hX]
  by_cases h : m % L = n % L
  · rw [decide_eq_true h]
    exact (bytesEqual_ToBytes E _ _).2 ((smul_basePoint_eq_iff E m n).2 h)
  · rw [decide_eq_false h]
    cases hb : bytesEqual (E.ToBytes (m • E.basePoint)) (E.ToBytes (n • E.basePoint)) with
    | false => rfl
    | true => exact absurd ((smul_basePoint_eq_iff E m n).1 ((bytesEqual_ToBytes E _ _).1 hb)) h

/-! ## Lemmas on the processes and on challenges -/

theorem bob_adaptorSignature_inv (E : Edwards25519) (k : party_bob.Keys) (Ra : PublicKey)
    (j : JointKeys) (c : party_bob.Challenges) (s_adapt_b s : Scalar)
    (h : party_bob.adaptorSignature E k Ra j c s_adapt_b = some s) :
    party_bob.checkAdaptor E c.c2 j.AB2 Ra s_adapt_b = some true ∧
      s = Scalar.Add c.c1a1b1 k.rb := by
  unfold party_bob.adaptorSignature at h
  cases hc : party_bob.checkAdaptor E c.c2 j.AB2 Ra s_adapt_b with
  | none => simp [hc] at h
  | some ok =>
    cases ok with
    | false => simp [hc] at h
    | true =>
      simp [hc] at h
      exact ⟨rfl, h.symm⟩

theorem alice_signature_inv (E : Edwards25519) (k : party_alice.Keys) (j : JointKeys)
    (c : party_alice.Challenges) (s_adapt_a : Scalar) (sig : party_alice.Signature)
    (h : party_alice.signature E k j c s_adapt_a = some sig) :
    sig.sa = Scalar.Add s_adapt_a k.t ∧
      party_alice.checkSignature E c.c1 j.AB1 j.RbT sig.sa = some true ∧
      party_alice.signature64 j.RbT sig.sa = some sig.sa64 ∧
      Verify E j.AB1 c.msgA sig.sa64 = some true := by
  unfold party_alice.signature at h
  cases hc : party_alice.checkSignature E c.c1 j.AB1 j.RbT (Scalar.Add s_adapt_a k.t) with
  | none => simp [hc] at h
  | some ok =>
    cases ok with
    | false => simp [hc] at h
    | true =>
      cases h64 : party_alice.signature64 j.RbT (Scalar.Add s_adapt_a k.t) with
      | none => simp [hc, h64] at h
      | some sa64 =>
        cases hv : Verify E j.AB1 c.msgA sa64 with
        | none => simp [hc, h64, hv] at h
        | some valid =>
          cases valid with
          | false => simp [hc, h64, hv] at h
          | true =>
            simp [hc, h64, hv] at h
            subst h
            exact ⟨rfl, hc, h64, hv⟩

theorem received_asUsed (m : Message) : received (asUsed m) = copy32 (received m) :=
  received_hexEncodeToString _

theorem bob_run_asUsed (E : Edwards25519) (Z : Zenon) (i : SwapInputs) (inbox : List Message) :
    (party_bob.proc E Z i).run (asUsedAt party_bob.hexInputs inbox) =
      (party_bob.proc E Z i).run inbox := by
  rcases inbox with _ | ⟨m0, _ | ⟨m1, inbox⟩⟩
  · rfl
  · rfl
  cases hA : Z.ParseAddressPanic m1 with
  | none => simp only [asUsedAt, party_bob.hexInputs, party_bob.proc, Proc.run, hA]
  | some addressA =>
  rcases inbox with _ | ⟨m2, _ | ⟨m3, _ | ⟨m4, _ | ⟨m5, inbox⟩⟩⟩⟩
  · simp only [asUsedAt, party_bob.hexInputs, party_bob.proc, Proc.run, hA]
  · simp only [asUsedAt, party_bob.hexInputs, party_bob.proc, Proc.run, hA]
  · simp only [asUsedAt, party_bob.hexInputs, party_bob.proc, Proc.run, hA]
  · simp only [asUsedAt, party_bob.hexInputs, party_bob.proc, Proc.run, hA]
  cases hJ : jointKeys E (received m2) (received m3) (received m4) (received m5)
        (party_bob.generateKeys E i.rand_b1 i.rand_b2 i.rand_rb).B1
        (party_bob.generateKeys E i.rand_b1 i.rand_b2 i.rand_rb).B2
        (party_bob.generateKeys E i.rand_b1 i.rand_b2 i.rand_rb).Rb with
  | none =>
    simp only [asUsedAt, party_bob.hexInputs, party_bob.proc, Proc.run, hA, received_asUsed,
      bob_jointKeys_copy32, hJ]
  | some j =>
  rcases inbox with _ | ⟨m6, inbox⟩
  · simp only [asUsedAt, party_bob.hexInputs, party_bob.proc, Proc.run, hA, received_asUsed,
      bob_jointKeys_copy32, hJ]
  cases hI : Z.HexToHashPanic m6 with
  | none =>
    simp only [asUsedAt, party_bob.hexInputs, party_bob.proc, Proc.run, hA, received_asUsed,
      bob_jointKeys_copy32, hJ, hI]
  | some ptlc1Id =>
  rcases inbox with _ | ⟨m7, _ | ⟨m8, inbox⟩⟩
  · simp only [asUsedAt, party_bob.hexInputs, party_bob.proc, Proc.run, hA, received_asUsed,
      bob_jointKeys_copy32, hJ, hI]
  · simp only [asUsedAt, party_bob.hexInputs, party_bob.proc, Proc.run, hA, received_asUsed,
      bob_jointKeys_copy32, hJ, hI]
  cases hC : party_bob.challenges Z.Hash (party_bob.generateKeys E i.rand_b1 i.rand_b2 i.rand_rb)
      j addressA i.addressB ptlc1Id i.ptlc2Id (received m7) (received m8) with
  | none =>
    simp only [asUsedAt, party_bob.hexInputs, party_bob.proc, Proc.run, hA, received_asUsed,
      bob_jointKeys_copy32, hJ, hI, bob_challenges_copy32, hC]
  | some c =>
  rcases inbox with _ | ⟨m9, inbox⟩
  · simp only [asUsedAt, party_bob.hexInputs, party_bob.proc, Proc.run, hA, received_asUsed,
      bob_jointKeys_copy32, hJ, hI, bob_challenges_copy32, hC]
  cases hS : party_bob.adaptorSignature E (party_bob.generateKeys E i.rand_b1 i.rand_b2 i.rand_rb)
      (received m4) j c (received m9) with
  | none =>
    simp only [asUsedAt, party_bob.hexInputs, party_bob.proc, Proc.run, hA, received_asUsed,
      bob_jointKeys_copy32, hJ, hI, bob_challenges_copy32, hC, bob_adaptorSignature_copy32, hS]
  | some s_adapt_a =>
  rcases inbox with _ | ⟨m10, inbox⟩
  · simp only [asUsedAt, party_bob.hexInputs, party_bob.proc, Proc.run, hA, received_asUsed,
      bob_jointKeys_copy32, hJ, hI, bob_challenges_copy32, hC, bob_adaptorSignature_copy32, hS]
  · simp only [asUsedAt, party_bob.hexInputs, party_bob.proc, Proc.run, hA, received_asUsed,
      bob_jointKeys_copy32, hJ, hI, bob_challenges_copy32, hC, bob_adaptorSignature_copy32, hS,
      bob_signature_copy32]

theorem alice_run_asUsed (E : Edwards25519) (Z : Zenon) (i : SwapInputs) (inbox : List Message) :
    (party_alice.proc E Z i).run (asUsedAt party_alice.hexInputs inbox) =
      (party_alice.proc E Z i).run inbox := by
  rcases inbox with _ | ⟨m0, _ | ⟨m1, inbox⟩⟩
  · rfl
  · rfl
  cases hA : Z.ParseAddressPanic m1 with
  | none => simp only [asUsedAt, party_alice.hexInputs, party_alice.proc, Proc.run, hA]
  | some addressB =>
  rcases inbox with _ | ⟨m2, _ | ⟨m3, _ | ⟨m4, inbox⟩⟩⟩
  · simp only [asUsedAt, party_alice.hexInputs, party_alice.proc, Proc.run, hA]
  · simp only [asUsedAt, party_alice.hexInputs, party_alice.proc, Proc.run, hA]
  · simp only [asUsedAt, party_alice.hexInputs, party_alice.proc, Proc.run, hA]
  cases hJ : jointKeys E
        (party_alice.generateKeys E i.rand_a1 i.rand_a2 i.rand_ra i.rand_t).A1
        (party_alice.generateKeys E i.rand_a1 i.rand_a2 i.rand_ra i.rand_t).A2
        (party_alice.generateKeys E i.rand_a1 i.rand_a2 i.rand_ra i.rand_t).Ra
        (party_alice.generateKeys E i.rand_a1 i.rand_a2 i.rand_ra i.rand_t).T
        (received m2) (received m3) (received m4) with
  | none =>
    simp only [asUsedAt, party_alice.hexInputs, party_alice.proc, Proc.run, hA, received_asUsed,
      alice_jointKeys_copy32, hJ]
  | some j =>
  rcases inbox with _ | ⟨m5, inbox⟩
  · simp only [asUsedAt, party_alice.hexInputs, party_alice.proc, Proc.run, hA, received_asUsed,
      alice_jointKeys_copy32, hJ]
  cases hI : Z.HexToHashPanic m5 with
  | none =>
    simp only [asUsedAt, party_alice.hexInputs, party_alice.proc, Proc.run, hA, received_asUsed,
      alice_jointKeys_copy32, hJ, hI]
  | some ptlc2Id =>
  cases hC : party_alice.challenges Z.Hash
      (party_alice.generateKeys E i.rand_a1 i.rand_a2 i.rand_ra i.rand_t) j i.addressA addressB
      i.ptlc1Id ptlc2Id with
  | none =>
    simp only [asUsedAt, party_alice.hexInputs, party_alice.proc, Proc.run, hA, received_asUsed,
      alice_jointKeys_copy32, hJ, hI, hC]
  | some c =>
  rcases inbox with _ | ⟨m6, inbox⟩
  · simp only [asUsedAt, party_alice.hexInputs, party_alice.proc, Proc.run, hA, received_asUsed,
      alice_jointKeys_copy32, hJ, hI, hC]
  cases hS : party_alice.adaptorSignature
      (party_alice.generateKeys E i.rand_a1 i.rand_a2 i.rand_ra i.rand_t) (received m6) with
  | none =>
    simp only [asUsedAt, party_alice.hexInputs, party_alice.proc, Proc.run, hA, received_asUsed,
      alice_jointKeys_copy32, hJ, hI, hC, alice_adaptorSignature_copy32, hS]
  | some s_adapt_b =>
  rcases inbox with _ | ⟨m7, inbox⟩
  · simp only [asUsedAt, party_alice.hexInputs, party_alice.proc, Proc.run, hA, received_asUsed,
      alice_jointKeys_copy32, hJ, hI, hC, alice_adaptorSignature_copy32, hS]
  · simp only [asUsedAt, party_alice.hexInputs, party_alice.proc, Proc.run, hA, received_asUsed,
      alice_jointKeys_copy32, hJ, hI, hC, alice_adaptorSignature_copy32, hS,
      alice_signature_copy32]

/-- The run `honestRun` is the run of the two processes against each other:
on the messages the other party sends, each party does these actions and
returns. -/
theorem honestRun_processes (E : Edwards25519) (Z : Zenon) (i : SwapInputs) (r : Swap)
    (h : honestRun E Z.Hash i = some r)
    (hA : Z.ParseAddressPanic (Z.addressString i.addressA) = some i.addressA)
    (hB : Z.ParseAddressPanic (Z.addressString i.addressB) = some i.addressB)
    (h1 : Z.HexToHashPanic (hexEncodeToString i.ptlc1Id) = some i.ptlc1Id)
    (h2 : Z.HexToHashPanic (hexEncodeToString i.ptlc2Id) = some i.ptlc2Id) :
    (party_alice.proc E Z i).run (sent (party_bob.actions Z i r)) =
        (party_alice.actions Z i r, Outcome.finished) ∧
      (party_bob.proc E Z i).run (sent (party_alice.actions Z i r)) =
        (party_bob.actions Z i r, Outcome.finished) := by
  obtain ⟨hka, hkb, hj, hjj, he1, he2, hca, hcb, hsb, hsa, hsigA, hsigB⟩ :=
    honestRun_inv E Z.Hash i r h
  rw [hjj] at hcb hsa hsigB
  constructor
  · simp only [party_alice.proc, party_bob.actions, party_alice.actions, sent, Proc.run,
      received_hexEncodeToString, hB, h2, ← hka, hj, hca, hsb, hsigA, he1]
  · simp only [party_bob.proc, party_bob.actions, party_alice.actions, sent, Proc.run,
      received_hexEncodeToString, hA, h1, ← hkb, hj, hjj, hcb, hsa, hsigB, he2]

/-- Two distinct 32-byte escrow ids give the same challenge, whatever the hash:
there are more ids than scalars below `L`. -/
theorem challenge_collision (Hash : HashFn) (AB R addr : Bytes) :
    ∃ id id' : Bytes, id.length = 32 ∧ id'.length = 32 ∧ id ≠ id' ∧
      Challenge AB R (Hash (id ++ addr)) = Challenge AB R (Hash (id' ++ addr)) := by
  have hlt : ∀ n : Nat, leNat (Challenge AB R (Hash (leBytes 32 n ++ addr))) < L := by
    intro n
    rw [Challenge_eq, leNat_ScReduce]
    exact Nat.mod_lt _ L_pos
  have hcard : (Finset.range L).card < (Finset.range (L + 1)).card := by
    rw [Finset.card_range, Finset.card_range]
    exact Nat.lt_succ_self L
  have hback : ∀ n : Nat, n ∈ Finset.range (L + 1) → leNat (leBytes 32 n) = n := by
    intro n hn
    rw [leNat_leBytes]
    exact Nat.mod_eq_of_lt (lt_of_le_of_lt (Nat.le_of_lt_succ (Finset.mem_range.1 hn)) L_lt)
  obtain ⟨n, hn, n', hn', hne, heq⟩ := Finset.exists_ne_map_eq_of_card_lt_of_maps_to hcard
    (fun n _ => Finset.mem_range.2 (hlt n))
  refine ⟨leBytes 32 n, leBytes 32 n', leBytes_length _ _, leBytes_length _ _, ?_, ?_⟩
  · intro h
    have h2 := congrArg leNat h
    rw [hback n hn, hback n' hn'] at h2
    exact hne h2
  · apply eq_of_leNat_eq
    · rw [Challenge_length, Challenge_length]
    · exact heq

/-! ## The two legs of the swap -/

/-- C1.  The initiator leg completes to a valid signature: for secrets `a1`,
`b1`, `rb`, `t` that `GenerateKey2` produces (from readers supplying 32 bytes)
and every message `msgA`, with `AB1 = A1.Add(B1)`, `RbT = Rb.Add(T)`,
`c1 = Challenge(AB1, RbT, msgA)`,
`s_adapt_a = c1.Multiply(b1).Add(c1.Multiply(a1)).Add(rb)` and
`sa = s_adapt_a.Add(t)`, the two point additions return, Alice's comparison
`GenerateCurvePoint(sa) == GeScalarMult(c1, AB1).Add(RbT)` succeeds and
`Verify(AB1, msgA, RbT || sa)` is true. -/
theorem initiator_leg_completes (E : Edwards25519) (rand_a1 rand_b1 rand_rb rand_t msgA : Bytes)
    (h_a1 : 32 ≤ rand_a1.length) (h_b1 : 32 ≤ rand_b1.length) (h_rb : 32 ≤ rand_rb.length)
    (h_t : 32 ≤ rand_t.length) :
    ∃ a1 b1 rb t, GenerateKey2 E rand_a1 = some a1 ∧ GenerateKey2 E rand_b1 = some b1 ∧
      GenerateKey2 E rand_rb = some rb ∧ GenerateKey2 E rand_t = some t ∧
      ∃ AB1 RbT, CurvePoint.Add E a1.publicKey b1.publicKey = some AB1 ∧
        CurvePoint.Add E rb.publicKey t.publicKey = some RbT ∧
        ∃ c1 s_adapt_a sa, c1 = Challenge AB1 RbT msgA ∧
          s_adapt_a = Scalar.Add
            (Scalar.Add (Scalar.Multiply c1 b1.key) (Scalar.Multiply c1 a1.key)) rb.key ∧
          sa = Scalar.Add s_adapt_a t.key ∧
          party_alice.checkSignature E c1 AB1 RbT sa = some true ∧
          Verify E AB1 msgA (RbT ++ sa) = some true := by
  obtain ⟨a1, ha1, la1, pa1, _⟩ := GenerateKey2_spec E rand_a1 h_a1
  obtain ⟨b1, hb1, lb1, pb1, _⟩ := GenerateKey2_spec E rand_b1 h_b1
  obtain ⟨rb, hrb, lrb, prb, _⟩ := GenerateKey2_spec E rand_rb h_rb
  obtain ⟨t, ht, lt, pt, _⟩ := GenerateKey2_spec E rand_t h_t
  have hI := initiator_leg E a1.key b1.key rb.key t.key msgA la1 lb1 lrb lt _ _ _ rfl rfl rfl
  refine ⟨a1, b1, rb, t, ha1, hb1, hrb, ht, _, _, ?_, ?_, _, _, _, rfl, rfl, rfl, hI.1, hI.2⟩
  · rw [pa1, pb1, CurvePoint.Add_ToBytes]
  · rw [prb, pt, CurvePoint.Add_ToBytes]

/-- Witness of C1: four readers that supply 32 bytes each. -/
theorem initiator_leg_completes_witness :
    ∃ a1 b1 rb t, GenerateKey2 logModel (List.replicate 32 1) = some a1 ∧
      GenerateKey2 logModel (List.replicate 32 5) = some b1 ∧
      GenerateKey2 logModel (List.replicate 32 7) = some rb ∧
      GenerateKey2 logModel (List.replicate 32 4) = some t ∧
      ∃ AB1 RbT, CurvePoint.Add logModel a1.publicKey b1.publicKey = some AB1 ∧
        CurvePoint.Add logModel rb.publicKey t.publicKey = some RbT ∧
        ∃ c1 s_adapt_a sa, c1 = Challenge AB1 RbT [1, 2, 3] ∧
          s_adapt_a = Scalar.Add
            (Scalar.Add (Scalar.Multiply c1 b1.key) (Scalar.Multiply c1 a1.key)) rb.key ∧
          sa = Scalar.Add s_adapt_a t.key ∧
          party_alice.checkSignature logModel c1 AB1 RbT sa = some true ∧
          Verify logModel AB1 [1, 2, 3] (RbT ++ sa) = some true :=
  initiator_leg_completes logModel (List.replicate 32 1) (List.replicate 32 5)
    (List.replicate 32 7) (List.replicate 32 4) [1, 2, 3] (by decide) (by decide) (by decide)
    (by decide)

/-- C2.  The responder leg completes through extraction: in the run of the two
parties (each key pair drawn from 32 bytes of randomness), with
`c2 = Challenge(AB2, RaT, msgB)`,
`s_adapt_b = c2.Multiply(b2).Add(c2.Multiply(a2)).Add(ra)` and `sa`, `s_adapt_a`
as produced on the initiator leg, Bob's `t = sa.Subtract(s_adapt_a)` and
`sb = s_adapt_b.Add(t)` pass his comparison
`GenerateCurvePoint(sb) == GeScalarMult(c2, AB2).Add(RaT)` and
`Verify(AB2, msgB, RaT || sb)` is true; what Bob computes them from is what he
holds and has received, which does not include Alice's `t`. -/
theorem responder_leg_completes (E : Edwards25519) (Hash : HashFn) (i : SwapInputs)
    (h_a1 : 32 ≤ i.rand_a1.length) (h_a2 : 32 ≤ i.rand_a2.length)
    (h_ra : 32 ≤ i.rand_ra.length) (h_t : 32 ≤ i.rand_t.length)
    (h_b1 : 32 ≤ i.rand_b1.length) (h_b2 : 32 ≤ i.rand_b2.length)
    (h_rb : 32 ≤ i.rand_rb.length) :
    ∃ r, honestRun E Hash i = some r ∧
      r.bobChallenges.c2 = Challenge r.bobJoint.AB2 r.bobJoint.RaT r.bobChallenges.msgB ∧
      r.s_adapt_b = Scalar.Add (Scalar.Add (Scalar.Multiply r.bobChallenges.c2 r.bobKeys.b2)
        (Scalar.Multiply r.bobChallenges.c2 r.aliceKeys.a2)) r.aliceKeys.ra ∧
      r.bobSignature.t = Scalar.Subtract r.aliceSignature.sa r.s_adapt_a ∧
      r.bobSignature.sb = Scalar.Add r.s_adapt_b r.bobSignature.t ∧
      party_bob.signature E r.bobJoint r.bobChallenges r.s_adapt_a r.s_adapt_b
        r.aliceSignature.sa = some r.bobSignature ∧
      party_bob.checkSignature E r.bobChallenges.c2 r.bobJoint.AB2 r.bobJoint.RaT
        r.bobSignature.sb = some true ∧
      Verify E r.bobJoint.AB2 r.bobChallenges.msgB (r.bobJoint.RaT ++ r.bobSignature.sb) =
        some true := by
  obtain ⟨r, hr, ⟨_, _, hjj⟩, _, _, _, ⟨_, _, _, hc2A, _, hc2a2⟩, ⟨_, hmB, _, hc2, _, hc2a2b2⟩,
    ⟨hsb, _⟩, ⟨_, _, ht, hsb', hsb64⟩, ⟨_, _, _, hchk, hver⟩⟩ :=
    honestRun_spec E Hash i h_a1 h_a2 h_ra h_t h_b1 h_b2 h_rb
  have hinv := (honestRun_inv E Hash i r hr).2.2.2.2.2.2.2.2.2.2.2
  refine ⟨r, hr, ?_, ?_, ht, hsb', hinv, ?_, ?_⟩
  · rw [hjj, hc2, hmB]
    exact hc2A
  · rw [hsb, hc2a2b2, hc2a2, hc2]
  · rw [hjj]
    exact hchk
  · rw [hjj, ← hsb64]
    exact hver

/-- Witness of C2: the sample swap. -/
theorem responder_leg_completes_witness :
    ∃ r, honestRun logModel (fun b => b) sampleSwap = some r ∧
      Verify logModel r.bobJoint.AB2 r.bobChallenges.msgB
        (r.bobJoint.RaT ++ r.bobSignature.sb) = some true := by
  obtain ⟨r, hr, _, _, _, _, _, _, hv⟩ := responder_leg_completes logModel (fun b => b)
    sampleSwap (by decide) (by decide) (by decide) (by decide) (by decide) (by decide)
    (by decide)
  exact ⟨r, hr, hv⟩

/-! ## The adaptor round trip and `Verify` -/

/-- C3.  Adaptor round trip: for 32-byte scalars `t` and `preSig`, both already
reduced modulo `L`, `preSig.Add(t).Subtract(preSig)` is exactly `t` (that
`preSig` is reduced is not needed). -/
theorem adaptor_round_trip (t preSig : Scalar) (ht : t.length = 32) (hp : preSig.length = 32)
    (htL : leNat t < L) :
    Scalar.Subtract (Scalar.Add preSig t) preSig = t := by
  apply eq_of_leNat_eq (by rw [Scalar.Subtract_length, ht])
  have h1 := leNat_Scalar_Subtract (Scalar.Add preSig t) preSig
  rw [copy32_of_length (Scalar.Add_length _ _), copy32_of_length hp, leNat_Scalar_Add,
    copy32_of_length hp, copy32_of_length ht] at h1
  rw [L_eq] at h1 htL
  omega

/-- Witness of C3 at `preSig = 7`, `t = 5`. -/
theorem adaptor_round_trip_witness :
    Scalar.Subtract (Scalar.Add (leBytes 32 7) (leBytes 32 5)) (leBytes 32 7) = leBytes 32 5 :=
  adaptor_round_trip (leBytes 32 5) (leBytes 32 7) (by decide) (by decide) (by decide)

/-- C4.  `Verify` decides the Schnorr equation: on a 32-byte key `A` and a
64-byte signature `R || s` it returns true exactly when `A` decodes to a point,
`sig[63] & 224` is zero and `s·B = R + c·A` for the point whose encoding the
first half of the signature is, with `c = reduce(SHA-512(R || A || m))`;
otherwise it returns false, as it does on a signature of any other length. -/
theorem Verify_iff (E : Edwards25519) (A m sig : Bytes) (hA : A.length = 32) :
    (sig.length = 64 →
      (Verify E A m sig = some true ↔
        ∃ P R, E.FromBytes A = some P ∧ (sig.getD 63 0).val &&& 224 = 0 ∧
          E.ToBytes R = sig.take 32 ∧
          leNat (sig.drop 32) • E.basePoint =
            R + leNat (ScReduce (sha512 (sig.take 32 ++ A ++ m))) • P) ∧
      (Verify E A m sig = some true ∨ Verify E A m sig = some false)) ∧
    (sig.length ≠ 64 → Verify E A m sig = some false) := by
  refine ⟨fun hsig => ?_, Verify_bad_length E A m sig hA⟩
  rw [Verify_eq E A m sig hA hsig]
  generalize leNat (ScReduce (sha512 (sig.take 32 ++ A ++ m))) = c
  generalize leNat (sig.drop 32) = s
  generalize sig.take 32 = R32
  generalize (sig.getD 63 0).val &&& 224 = bits
  by_cases hbits : bits = 0
  · rw [if_neg (not_not.2 hbits)]
    cases hdec : E.FromBytes A with
    | none =>
      refine ⟨⟨fun h => ?_, ?_⟩, Or.inr rfl⟩
      · cases h
      · rintro ⟨P, R, hP, _⟩
        cases hP
    | some P =>
      have hpt : ∀ R : E.Point,
          s • E.basePoint = R + c • P ↔ R = c • (-P) + s • E.basePoint := by
        intro R
        constructor
        · intro h
          rw [h, smul_neg]
          abel
        · intro h
          rw [h, smul_neg]
          abel
      by_cases h : R32 = E.ToBytes (c • (-P) + s • E.basePoint)
      · have hv : some (bytesEqual R32 (E.ToBytes (c • (-P) + s • E.basePoint))) = some true := by
          rw [bytesEqual, decide_eq_true h]
        exact ⟨⟨fun _ => ⟨P, _, rfl, hbits, h.symm, (hpt _).2 rfl⟩, fun _ => hv⟩, Or.inl hv⟩
      · have hv : some (bytesEqual R32 (E.ToBytes (c • (-P) + s • E.basePoint))) = some false := by
          rw [bytesEqual, decide_eq_false h]
        refine ⟨⟨fun hv' => ?_, ?_⟩, Or.inr hv⟩
        · have hv2 : some (bytesEqual R32 (E.ToBytes (c • (-P) + s • E.basePoint))) = some true :=
            hv'
          rw [hv] at hv2
          cases hv2
        · rintro ⟨P', R, hP', _, hR, heq⟩
          cases hP'
          exact absurd (by rw [← hR, (hpt R).1 heq]) h
  · rw [if_pos hbits]
    refine ⟨⟨fun h => ?_, ?_⟩, Or.inr rfl⟩
    · cases h
    · rintro ⟨P, R, _, hb, _⟩
      exact absurd hb hbits

/-- Witness of C4: the key and the signature whose two halves are zero, in
the concrete provider. -/
theorem Verify_iff_witness :
    (List.replicate 32 (0 : Byte)).length = 32 ∧
      (Verify logModel (List.replicate 32 0) [] (List.replicate 64 0) = some true ↔
        ∃ P R, logModel.FromBytes (List.replicate 32 0) = some P ∧
          ((List.replicate 64 (0 : Byte)).getD 63 0).val &&& 224 = 0 ∧
          logModel.ToBytes R = (List.replicate 64 (0 : Byte)).take 32 ∧
          leNat ((List.replicate 64 (0 : Byte)).drop 32) • logModel.basePoint =
            R + leNat (ScReduce (sha512 ((List.replicate 64 (0 : Byte)).take 32 ++
              List.replicate 32 0 ++ []))) • P) :=
  ⟨by decide, ((Verify_iff logModel (List.replicate 32 0) [] (List.replicate 64 0)
    (by decide)).1 (by decide)).1⟩

/-- Adding `L` to the scalar half of an accepted signature gives another
accepted signature, as long as the sum stays below `2^253`: `Verify` looks at
the top three bits of `s` only. -/
theorem Verify_add_L (E : Edwards25519) (A m R s : Bytes) (hA : A.length = 32)
    (hR : R.length = 32) (hs : s.length = 32) (hlt : leNat s + L < 2 ^ 253)
    (hv : Verify E A m (R ++ s) = some true) :
    Verify E A m (R ++ leBytes 32 (leNat s + L)) = some true := by
  have hlen : ∀ x : Bytes, x.length = 32 → (R ++ x).length = 64 := by
    intro x hx
    simp [hR, hx]
  have h256 : (2 : Nat) ^ 253 < 256 ^ 32 := by norm_num
  have hval : leNat (leBytes 32 (leNat s + L)) = leNat s + L := by
    rw [leNat_leBytes]
    exact Nat.mod_eq_of_lt (lt_trans hlt h256)
  have htake : ∀ x : Bytes, (R ++ x).take 32 = R := by
    intro x
    rw [← hR, List.take_left']
    rfl
  have hdrop : ∀ x : Bytes, (R ++ x).drop 32 = x := by
    intro x
    rw [← hR, List.drop_left']
    rfl
  rw [Verify_eq E A m _ hA (hlen s hs)] at hv
  rw [Verify_eq E A m _ hA (hlen _ (leBytes_length _ _))]
  rw [getD_63_append R _ hR] at hv ⊢
  have hb : (List.getD (leBytes 32 (leNat s + L)) 31 0).val &&& 224 = 0 := by
    rw [top_bits_iff _ (leBytes_length _ _), hval]
    exact hlt
  rw [if_neg (not_not.2 hb)]
  by_cases hb' : (s.getD 31 0).val &&& 224 = 0
  · rw [if_neg (not_not.2 hb')] at hv
    rw [htake, hdrop] at hv ⊢
    rw [hval, add_smul, (E.order_basePoint L).2 (dvd_refl L), add_zero]
    exact hv
  · rw [if_pos hb'] at hv
    cases hv

/-- Counterexample to C5: the scalar `s = L` is not below `L`, and `Verify`
accepts the signature `R || s` whose `R` encodes the neutral element, for the
key that encodes the neutral element and the empty message. -/
theorem Verify_accepts_unreduced_scalar :
    (logModel.ToBytes 0 ++ leBytes 32 L).length = 64 ∧
      L ≤ leNat ((logModel.ToBytes 0 ++ leBytes 32 L).drop 32) ∧
      Verify logModel (logModel.ToBytes 0) [] (logModel.ToBytes 0 ++ leBytes 32 L) = some true := by
  decide!

/-- C5, amended.  Malleability check: `Verify` returns false on every 64-byte
signature `R || s` whose scalar `s` has one of its top three bits set, that is
`s ≥ 2^253`. -/
theorem Verify_rejects_top_bits (E : Edwards25519) (A m sig : Bytes) (hA : A.length = 32)
    (hsig : sig.length = 64) (hs : 2 ^ 253 ≤ leNat (sig.drop 32)) :
    Verify E A m sig = some false := by
  rw [Verify_eq E A m sig hA hsig, getD_63_eq sig hsig]
  have hb : ¬ ((sig.drop 32).getD 31 0).val &&& 224 = 0 := by
    rw [top_bits_iff _ (by simp [hsig])]
    omega
  rw [if_pos hb]

/-- Witness of the amended C5 at `s = 2^253`. -/
theorem Verify_rejects_top_bits_witness :
    2 ^ 253 ≤ leNat ((List.replicate 32 (0 : Byte) ++ leBytes 32 (2 ^ 253)).drop 32) ∧
      Verify logModel (List.replicate 32 0) []
        (List.replicate 32 0 ++ leBytes 32 (2 ^ 253)) = some false :=
  ⟨by decide!, Verify_rejects_top_bits logModel (List.replicate 32 0) []
    (List.replicate 32 0 ++ leBytes 32 (2 ^ 253)) (by decide) (by decide!) (by decide!)⟩

/-! ## Challenges, shares, abort and expirations -/
/-- Counterexample to C6: in the sample swap Alice's `c1` is not the reduced
SHA-512 digest of `AB1 || RbT || msgA`, the aggregated key first. -/
theorem challenge_key_first_fails :
    (honestRun logModel (fun b => b) sampleSwap).map (fun r =>
      bytesEqual r.aliceChallenges.c1
        (ScReduce (sha512 (r.aliceJoint.AB1 ++ r.aliceJoint.RbT ++ r.aliceChallenges.msgA)))) =
      some false := by
  decide!

/-- C6, amended.  Challenge concatenation order: in a run of the two parties
the challenge each of them computes for a leg is
`reduce(SHA-512(nonceAggregate || keyAggregate || message))`, the aggregated
nonce point first: `c1 = reduce(SHA-512(RbT || AB1 || msgA))` and
`c2 = reduce(SHA-512(RaT || AB2 || msgB))`. -/
theorem challenge_nonce_first (E : Edwards25519) (Hash : HashFn) (i : SwapInputs) (r : Swap)
    (h : honestRun E Hash i = some r) :
    r.aliceChallenges.c1 =
        ScReduce (sha512 (r.aliceJoint.RbT ++ r.aliceJoint.AB1 ++ r.aliceChallenges.msgA)) ∧
      r.aliceChallenges.c2 =
        ScReduce (sha512 (r.aliceJoint.RaT ++ r.aliceJoint.AB2 ++ r.aliceChallenges.msgB)) ∧
      r.bobChallenges.c1 =
        ScReduce (sha512 (r.bobJoint.RbT ++ r.bobJoint.AB1 ++ r.bobChallenges.msgA)) ∧
      r.bobChallenges.c2 =
        ScReduce (sha512 (r.bobJoint.RaT ++ r.bobJoint.AB2 ++ r.bobChallenges.msgB)) := by
  obtain ⟨_, _, _, _, _, _, hca, hcb, _⟩ := honestRun_inv E Hash i r h
  obtain ⟨_, _, ha1, ha2⟩ := alice_challenges_inv _ _ _ _ _ _ _ _ hca
  obtain ⟨_, _, hb1, hb2⟩ := bob_challenges_inv _ _ _ _ _ _ _ _ _ _ hcb
  rw [← Challenge_eq, ← Challenge_eq, ← Challenge_eq, ← Challenge_eq]
  exact ⟨ha1, ha2, hb1, hb2⟩

/-- Witness of the amended C6: the sample swap. -/
theorem challenge_nonce_first_witness :
    ∃ r, honestRun logModel (fun b => b) sampleSwap = some r ∧
      r.aliceChallenges.c1 =
        ScReduce (sha512 (r.aliceJoint.RbT ++ r.aliceJoint.AB1 ++ r.aliceChallenges.msgA)) := by
  obtain ⟨r, hr, _⟩ := honestRun_spec logModel (fun b => b) sampleSwap (by decide) (by decide)
    (by decide) (by decide) (by decide) (by decide) (by decide)
  exact ⟨r, hr, (challenge_nonce_first logModel (fun b => b) sampleSwap r hr).1⟩


/-- In the sample swap both recoveries return the other party's signing
secret. -/
theorem signing_secret_recovered_in_sample :
    (honestRun logModel (fun b => b) sampleSwap).map (fun r =>
      (decide (recoverFromBobView r.bobKeys.b1 r.bobChallenges.c1 r.aliceChallenges.c1a1 =
          leNat r.aliceKeys.a1 % L),
        decide (recoverFromAliceView r.aliceKeys.a2 r.aliceChallenges.c2
          r.bobChallenges.c2a2b2 = leNat r.bobKeys.b2 % L))) = some (true, true) := by
  decide!

/-- Counterexample to C7: there is a function of Bob's view `(b1, c1, c1a1)`
that equals `a1 mod L` in every run with `c1 ≠ 0`, and a function of Alice's
view `(a2, c2, c2a2b2)` that equals `b2 mod L` in every run with `c2 ≠ 0`. -/
theorem signing_secret_not_hidden :
    (∃ f : Bytes → Bytes → Bytes → Nat, ∀ (E : Edwards25519) (Hash : HashFn) (i : SwapInputs),
      32 ≤ i.rand_a1.length → 32 ≤ i.rand_a2.length → 32 ≤ i.rand_ra.length →
      32 ≤ i.rand_t.length → 32 ≤ i.rand_b1.length → 32 ≤ i.rand_b2.length →
      32 ≤ i.rand_rb.length →
      ∃ r, honestRun E Hash i = some r ∧ (leNat r.bobChallenges.c1 ≠ 0 →
        f r.bobKeys.b1 r.bobChallenges.c1 r.aliceChallenges.c1a1 = leNat r.aliceKeys.a1 % L)) ∧
    (∃ g : Bytes → Bytes → Bytes → Nat, ∀ (E : Edwards25519) (Hash : HashFn) (i : SwapInputs),
      32 ≤ i.rand_a1.length → 32 ≤ i.rand_a2.length → 32 ≤ i.rand_ra.length →
      32 ≤ i.rand_t.length → 32 ≤ i.rand_b1.length → 32 ≤ i.rand_b2.length →
      32 ≤ i.rand_rb.length →
      ∃ r, honestRun E Hash i = some r ∧ (leNat r.aliceChallenges.c2 ≠ 0 →
        g r.aliceKeys.a2 r.aliceChallenges.c2 r.bobChallenges.c2a2b2 =
          leNat r.bobKeys.b2 % L)) := by
  refine ⟨⟨recoverFromBobView, ?_⟩, ⟨recoverFromAliceView, ?_⟩⟩
  · intro E Hash i h1 h2 h3 h4 h5 h6 h7
    obtain ⟨r, hr, hB, _⟩ := honestRun_recover E Hash i h1 h2 h3 h4 h5 h6 h7
    exact ⟨r, hr, hB⟩
  · intro E Hash i h1 h2 h3 h4 h5 h6 h7
    obtain ⟨r, hr, _, hA⟩ := honestRun_recover E Hash i h1 h2 h3 h4 h5 h6 h7
    exact ⟨r, hr, hA⟩

/-- C7, amended.  The joint key's secret is not hidden from the parties: the
private scalar of the aggregated key `AB1` is `a1 + b1` modulo `L`
(`AB1 = GenerateCurvePoint(a1.Add(b1))`), and in every run with `c1 ≠ 0` Bob
computes `a1 mod L` from the `c1` and `c1a1` of his view as `c1a1 · c1⁻¹`,
while in every run with `c2 ≠ 0` Alice computes `b2 mod L` from the `a2`,
`c2` and `c2a2b2` of her view as `(c2a2b2 - c2·a2) · c2⁻¹`. -/
theorem signing_secret_recovery (E : Edwards25519) (Hash : HashFn) (i : SwapInputs)
    (h_a1 : 32 ≤ i.rand_a1.length) (h_a2 : 32 ≤ i.rand_a2.length)
    (h_ra : 32 ≤ i.rand_ra.length) (h_t : 32 ≤ i.rand_t.length)
    (h_b1 : 32 ≤ i.rand_b1.length) (h_b2 : 32 ≤ i.rand_b2.length)
    (h_rb : 32 ≤ i.rand_rb.length) :
    ∃ r, honestRun E Hash i = some r ∧
      r.aliceJoint.AB1 = GenerateCurvePoint E (Scalar.Add r.aliceKeys.a1 r.bobKeys.b1) ∧
      (leNat r.bobChallenges.c1 ≠ 0 →
        recoverFromBobView r.bobKeys.b1 r.bobChallenges.c1 r.aliceChallenges.c1a1 =
          leNat r.aliceKeys.a1 % L) ∧
      (leNat r.aliceChallenges.c2 ≠ 0 →
        recoverFromAliceView r.aliceKeys.a2 r.aliceChallenges.c2 r.bobChallenges.c2a2b2 =
          leNat r.bobKeys.b2 % L) := by
  obtain ⟨r, hr, hB, hA⟩ := honestRun_recover E Hash i h_a1 h_a2 h_ra h_t h_b1 h_b2 h_rb
  obtain ⟨r', hr', _, ⟨la1, _, _, _, lb1, _, _⟩, _, ⟨hAB1, _⟩, _⟩ :=
    honestRun_spec E Hash i h_a1 h_a2 h_ra h_t h_b1 h_b2 h_rb
  rw [hr] at hr'
  cases hr'
  refine ⟨r, hr, ?_, hB, hA⟩
  rw [hAB1, GenerateCurvePoint_eq, copy32_Add, leNat_Scalar_Add, copy32_of_length la1,
    copy32_of_length lb1, smul_basePoint_mod, add_smul]

/-- Witness of the amended C7: the sample swap. -/
theorem signing_secret_recovery_witness :
    ∃ r, honestRun logModel (fun b => b) sampleSwap = some r ∧
      (leNat r.bobChallenges.c1 ≠ 0 →
        recoverFromBobView r.bobKeys.b1 r.bobChallenges.c1 r.aliceChallenges.c1a1 =
          leNat r.aliceKeys.a1 % L) := by
  obtain ⟨r, hr, _, hB, _⟩ := signing_secret_recovery logModel (fun b => b) sampleSwap
    (by decide) (by decide) (by decide) (by decide) (by decide) (by decide) (by decide)
  exact ⟨r, hr, hB⟩

/-- Counterexample to C8: in the sample swap neither value Alice sends after
deriving the challenges is the `ra`-masked share `ra + c·a (mod L)`. -/
theorem contribution_not_masked :
    (honestRun logModel (fun b => b) sampleSwap).map (fun r =>
      bytesEqual r.aliceChallenges.c1a1
          (Scalar.Add r.aliceKeys.ra (Scalar.Multiply r.aliceChallenges.c1 r.aliceKeys.a1)) ||
        bytesEqual r.aliceChallenges.c2a2
          (Scalar.Add r.aliceKeys.ra (Scalar.Multiply r.aliceChallenges.c2 r.aliceKeys.a2))) =
      some false := by
  decide!

/-- C8, amended.  Shape of what is sent: the two values Alice sends after
deriving the challenges are the products `c1·a1` and `c2·a2` modulo `L`, with
no nonce added; Bob's answer is `c2·b2 + c2·a2`; a nonce enters only the
pre-signatures, `s_adapt_b = c2·b2 + c2·a2 + ra` and
`s_adapt_a = c1·b1 + c1·a1 + rb` modulo `L`. -/
theorem contributions_shape (E : Edwards25519) (Hash : HashFn) (i : SwapInputs)
    (h_a1 : 32 ≤ i.rand_a1.length) (h_a2 : 32 ≤ i.rand_a2.length)
    (h_ra : 32 ≤ i.rand_ra.length) (h_t : 32 ≤ i.rand_t.length)
    (h_b1 : 32 ≤ i.rand_b1.length) (h_b2 : 32 ≤ i.rand_b2.length)
    (h_rb : 32 ≤ i.rand_rb.length) :
    ∃ r, honestRun E Hash i = some r ∧
      leNat r.aliceChallenges.c1a1 =
        (leNat r.aliceChallenges.c1 * leNat r.aliceKeys.a1) % L ∧
      leNat r.aliceChallenges.c2a2 =
        (leNat r.aliceChallenges.c2 * leNat r.aliceKeys.a2) % L ∧
      leNat r.bobChallenges.c2a2b2 =
        (leNat r.bobChallenges.c2 * leNat r.bobKeys.b2 +
          leNat r.aliceChallenges.c2 * leNat r.aliceKeys.a2) % L ∧
      leNat r.s_adapt_b =
        (leNat r.bobChallenges.c2 * leNat r.bobKeys.b2 +
          leNat r.aliceChallenges.c2 * leNat r.aliceKeys.a2 + leNat r.aliceKeys.ra) % L ∧
      leNat r.s_adapt_a =
        (leNat r.bobChallenges.c1 * leNat r.bobKeys.b1 +
          leNat r.aliceChallenges.c1 * leNat r.aliceKeys.a1 + leNat r.bobKeys.rb) % L := by
  obtain ⟨r, hr, _, e1, e2, e3, e4, e5⟩ :=
    honestRun_scalars E Hash i h_a1 h_a2 h_ra h_t h_b1 h_b2 h_rb
  exact ⟨r, hr, e1, e2, e3, e4, e5⟩

/-- Witness of the amended C8: the sample swap. -/
theorem contributions_shape_witness :
    ∃ r, honestRun logModel (fun b => b) sampleSwap = some r ∧
      leNat r.aliceChallenges.c1a1 =
        (leNat r.aliceChallenges.c1 * leNat r.aliceKeys.a1) % L := by
  obtain ⟨r, hr, h1, _⟩ := contributions_shape logModel (fun b => b) sampleSwap (by decide)
    (by decide) (by decide) (by decide) (by decide) (by decide) (by decide)
  exact ⟨r, hr, h1⟩

/-- Counterexample to C9: in the sample swap the 32-byte value
`s_adapt_b + L` differs from the honest `s_adapt_b` and passes Bob's check, and
`s_adapt_a + L` differs from the honest `s_adapt_a` and passes Alice's. -/
theorem corrupted_presignature_accepted :
    (honestRun logModel (fun b => b) sampleSwap).map (fun r =>
      (bytesEqual (leBytes 32 (leNat r.s_adapt_b + L)) r.s_adapt_b,
        party_bob.checkAdaptor logModel r.bobChallenges.c2 r.bobJoint.AB2 r.aliceKeys.Ra
          (leBytes 32 (leNat r.s_adapt_b + L)),
        bytesEqual (leBytes 32 (leNat r.s_adapt_a + L)) r.s_adapt_a,
        party_alice.checkSignature logModel r.aliceChallenges.c1 r.aliceJoint.AB1
          r.aliceJoint.RbT (Scalar.Add (leBytes 32 (leNat r.s_adapt_a + L)) r.aliceKeys.t))) =
      some (false, some true, false, some true) := by
  decide!

/-- C9, amended.  Abort safety modulo `L`: in a run of the two parties, Bob's
check fails on every received 32-byte value `s'` with `s'[31] <= 127` that is
not congruent modulo `L` to the honest pre-signature `s_adapt_b`, and Alice's
check of `s'.Add(t)` fails on every 32-byte `s'` that is not congruent to the
honest `s_adapt_a`; the party then panics before sending anything further.
The bound `s'[31] <= 127` is the range of scalars on which the base-point
multiplication of the ref10 implementation, of which `ed25519.go` says it is a
port, is specified; Bob passes the received bytes to it as they are, while
Alice passes the reduced sum `s'.Add(t)`. -/
theorem corrupted_presignature_rejected (E : Edwards25519) (Hash : HashFn) (i : SwapInputs)
    (h_a1 : 32 ≤ i.rand_a1.length) (h_a2 : 32 ≤ i.rand_a2.length)
    (h_ra : 32 ≤ i.rand_ra.length) (h_t : 32 ≤ i.rand_t.length)
    (h_b1 : 32 ≤ i.rand_b1.length) (h_b2 : 32 ≤ i.rand_b2.length)
    (h_rb : 32 ≤ i.rand_rb.length) :
    ∃ r, honestRun E Hash i = some r ∧
      (∀ s' : Bytes, s'.length = 32 → (s'.getD 31 0).val ≤ 127 →
        leNat s' % L ≠ leNat r.s_adapt_b % L →
        party_bob.checkAdaptor E r.bobChallenges.c2 r.bobJoint.AB2 r.aliceKeys.Ra s' =
            some false ∧
          party_bob.adaptorSignature E r.bobKeys r.aliceKeys.Ra r.bobJoint r.bobChallenges s' =
            none) ∧
      (∀ s' : Bytes, s'.length = 32 → leNat s' % L ≠ leNat r.s_adapt_a % L →
        party_alice.checkSignature E r.aliceChallenges.c1 r.aliceJoint.AB1 r.aliceJoint.RbT
            (Scalar.Add s' r.aliceKeys.t) = some false ∧
          party_alice.signature E r.aliceKeys r.aliceJoint r.aliceChallenges s' = none) := by
  obtain ⟨r, hr, ⟨_, _, hjj⟩, ⟨_, _, _, lt, _, _, _⟩, ⟨_, _, pra, _, _, _, _⟩,
    ⟨hAB1, hAB2, _, hRbT⟩, _, ⟨_, _, _, hbc2, _, _⟩, ⟨hsb, hsa⟩, ⟨hsA, _⟩,
    ⟨hchkB, hchkA, _⟩⟩ := honestRun_spec E Hash i h_a1 h_a2 h_ra h_t h_b1 h_b2 h_rb
  have lsb : r.s_adapt_b.length = 32 := by
    rw [hsb]
    exact Scalar.Add_length _ _
  have lsa : r.s_adapt_a.length = 32 := by
    rw [hsa]
    exact Scalar.Add_length _ _
  -- Bob's check, as a comparison of points
  have hB : ∀ s' : Bytes, s'.length = 32 →
      party_bob.checkAdaptor E r.bobChallenges.c2 r.bobJoint.AB2 r.aliceKeys.Ra s' =
        some (decide (leNat s' % L = leNat r.s_adapt_b % L)) := by
    intro s' hs'
    rw [hjj, hAB2, pra, bob_checkAdaptor_ToBytes, copy32_of_length hs']
    rw [hAB2, pra, bob_checkAdaptor_ToBytes, copy32_of_length lsb, hbc2] at hchkB
    have hpt := (bytesEqual_ToBytes E _ _).1 (Option.some.inj hchkB)
    rw [hbc2, bytesEqual_smul_basePoint E _ _ _ hpt]
  -- Alice's check, as a comparison of points
  have hA : ∀ s' : Bytes, s'.length = 32 →
      party_alice.checkSignature E r.aliceChallenges.c1 r.aliceJoint.AB1 r.aliceJoint.RbT
        (Scalar.Add s' r.aliceKeys.t) =
        some (decide (leNat s' % L = leNat r.s_adapt_a % L)) := by
    intro s' hs'
    rw [hAB1, hRbT, alice_checkSignature_ToBytes, copy32_Add]
    rw [hsA, hAB1, hRbT, alice_checkSignature_ToBytes, copy32_Add] at hchkA
    have hpt := (bytesEqual_ToBytes E _ _).1 (Option.some.inj hchkA)
    have key : leNat (Scalar.Add s' r.aliceKeys.t) % L =
        leNat (Scalar.Add r.s_adapt_a r.aliceKeys.t) % L ↔
        leNat s' % L = leNat r.s_adapt_a % L := by
      rw [leNat_Scalar_Add, leNat_Scalar_Add, copy32_of_length hs', copy32_of_length lsa,
        copy32_of_length lt, L_eq]
      omega
    rw [bytesEqual_smul_basePoint E _ _ _ hpt, decide_eq_decide.2 key]
  refine ⟨r, hr, ?_, ?_⟩
  · intro s' hs' _ hne
    have hc := hB s' hs'
    rw [decide_eq_false hne] at hc
    exact ⟨hc, by simp [party_bob.adaptorSignature, hc]⟩
  · intro s' hs' hne
    have hc := hA s' hs'
    rw [decide_eq_false hne] at hc
    exact ⟨hc, by simp [party_alice.signature, hc]⟩

/-- Witness of the amended C9: the sample swap and the honest pre-signature
plus one, which has its top bit clear and is not congruent to the honest
one. -/
theorem corrupted_presignature_rejected_witness :
    ∃ r s', honestRun logModel (fun b => b) sampleSwap = some r ∧
      s' = leBytes 32 (leNat r.s_adapt_b + 1) ∧ (s'.getD 31 0).val ≤ 127 ∧
      leNat s' % L ≠ leNat r.s_adapt_b % L ∧
      party_bob.checkAdaptor logModel r.bobChallenges.c2 r.bobJoint.AB2 r.aliceKeys.Ra s' =
        some false ∧
      party_bob.adaptorSignature logModel r.bobKeys r.aliceKeys.Ra r.bobJoint r.bobChallenges
        s' = none := by
  obtain ⟨r, hr, hB, _⟩ := corrupted_presignature_rejected logModel (fun b => b) sampleSwap
    (by decide) (by decide) (by decide) (by decide) (by decide) (by decide) (by decide)
  obtain ⟨r2, hr2, _, _, _, _, _, _, ⟨hsb, _⟩, _⟩ := honestRun_spec logModel (fun b => b)
    sampleSwap (by decide) (by decide) (by decide) (by decide) (by decide) (by decide)
    (by decide)
  have er : r2 = r := Option.some.inj (hr2.symm.trans hr)
  subst er
  have hlt : leNat r2.s_adapt_b < L := by
    rw [hsb]
    exact leNat_Add_lt _ _
  have hlen : (leBytes 32 (leNat r2.s_adapt_b + 1)).length = 32 := leBytes_length _ _
  have hval : leNat (leBytes 32 (leNat r2.s_adapt_b + 1)) = leNat r2.s_adapt_b + 1 := by
    rw [leNat_leBytes]
    exact Nat.mod_eq_of_lt (lt_of_le_of_lt (Nat.succ_le_of_lt hlt) L_lt)
  have htop : ((leBytes 32 (leNat r2.s_adapt_b + 1)).getD 31 0).val ≤ 127 := by
    obtain ⟨hsplit, _⟩ := leNat_split_top _ hlen
    rw [hval] at hsplit
    have h253 := L_lt_253
    have e253 : (2 : Nat) ^ 253 = 2 ^ 248 * 32 := by norm_num
    by_contra hgt
    have h128 : 128 ≤ ((leBytes 32 (leNat r2.s_adapt_b + 1)).getD 31 0).val :=
      Nat.lt_of_not_le hgt
    have := Nat.mul_le_mul_left (2 ^ 248) h128
    omega
  have hne : leNat (leBytes 32 (leNat r2.s_adapt_b + 1)) % L ≠ leNat r2.s_adapt_b % L := by
    rw [hval]
    have hL := L_eq
    rw [L_eq] at hlt ⊢
    omega
  obtain ⟨h1, h2⟩ := hB _ hlen htop hne
  exact ⟨r2, _, hr, rfl, htop, hne, h1, h2⟩


/-- Counterexample to C10: in the sample swap Bob reads the ledger time ten
seconds after Alice, and the expiration Alice sets on PTLC1 is not greater
than the one Bob sets on PTLC2. -/
theorem expiration_not_ordered :
    (honestRun logModel (fun b => b) sampleSwap).map (fun r =>
      decide (r.expiration2 < r.expiration1)) = some false := by
  decide!

theorem toInt64_expirationTime (t : Nat) (h : t < 2 ^ 63 - 36000) :
    toInt64 (expirationTime t) = (t : Int) + 36000 := by
  unfold toInt64 expirationTime
  have h1 : (t + 10 * 60 * 60) % 2 ^ 64 = t + 36000 := by omega
  rw [Nat.mod_mod, h1, if_pos (by omega)]
  push_cast
  rfl

/-- C10, amended.  Expirations: both parties add the same window of 36000
seconds to the ledger time each of them reads, so (for ledger times below
`2^63 - 36000`) the expiration Alice sets on PTLC1 exceeds the one Bob sets on
PTLC2 by exactly the difference of the two ledger times, and is strictly
greater exactly when Alice read a strictly later time. -/
theorem expiration_difference (E : Edwards25519) (Hash : HashFn) (i : SwapInputs) (r : Swap)
    (h : honestRun E Hash i = some r) (hA : i.timeA < 2 ^ 63 - 36000)
    (hB : i.timeB < 2 ^ 63 - 36000) :
    r.expiration1 = (i.timeA : Int) + 36000 ∧ r.expiration2 = (i.timeB : Int) + 36000 ∧
      r.expiration1 - r.expiration2 = (i.timeA : Int) - (i.timeB : Int) ∧
      (r.expiration2 < r.expiration1 ↔ i.timeB < i.timeA) := by
  obtain ⟨_, _, _, _, h1, h2, _⟩ := honestRun_inv E Hash i r h
  rw [h1, h2, toInt64_expirationTime _ hA, toInt64_expirationTime _ hB]
  refine ⟨rfl, rfl, by ring, ?_⟩
  constructor
  · intro hlt
    omega
  · intro hlt
    omega

/-- Witness of the amended C10: the sample swap. -/
theorem expiration_difference_witness :
    ∃ r, honestRun logModel (fun b => b) sampleSwap = some r ∧
      r.expiration1 - r.expiration2 = ((1700000000 : Nat) : Int) - ((1700000010 : Nat) : Int) := by
  obtain ⟨r, hr, _⟩ := honestRun_spec logModel (fun b => b) sampleSwap (by decide) (by decide)
    (by decide) (by decide) (by decide) (by decide) (by decide)
  exact ⟨r, hr, (expiration_difference logModel (fun b => b) sampleSwap r hr (by decide)
    (by decide)).2.2.1⟩

/-! ## Key aggregation, key generation and bit flips -/

/-- C11.  Key aggregation is commutative and matches the secret sum: for all
byte strings `A`, `B`, `CurvePoint(A).Add(B)` and `CurvePoint(B).Add(A)` agree
(both panic when one of them is not the encoding of a point, and both are the
encoding of the sum of the two points otherwise); and for all scalars `skA`,
`skB`, `GenerateCurvePoint(skA).Add(GenerateCurvePoint(skB))` is
`GenerateCurvePoint(Scalar(skA).Add(skB))`. -/
theorem key_aggregation (E : Edwards25519) (A B skA skB : Bytes) :
    CurvePoint.Add E A B = CurvePoint.Add E B A ∧
      (∀ P Q, E.FromBytes (copy32 A) = some P → E.FromBytes (copy32 B) = some Q →
        CurvePoint.Add E A B = some (E.ToBytes (P + Q))) ∧
      CurvePoint.Add E (GenerateCurvePoint E skA) (GenerateCurvePoint E skB) =
        some (GenerateCurvePoint E (Scalar.Add skA skB)) := by
  refine ⟨?_, ?_, ?_⟩
  · unfold CurvePoint.Add CurvePoint.toElement
    cases hA : E.FromBytes (copy32 A) <;> cases hB : E.FromBytes (copy32 B) <;>
      simp [Edwards25519.GeAdd, add_comm]
  · intro P Q hP hQ
    simp [CurvePoint.Add, CurvePoint.toElement, hP, hQ, Edwards25519.GeAdd, copyN_ToBytes]
  · rw [GenerateCurvePoint_eq, GenerateCurvePoint_eq, GenerateCurvePoint_eq,
      CurvePoint.Add_ToBytes, copy32_Add, leNat_Scalar_Add, smul_basePoint_mod, add_smul]

/-- C12.  Key generation clamps and derives: for a reader that supplies at
least 32 bytes, `GenerateKey2` returns a 32-byte key with `key[0] & 7 == 0`,
`key[31] & 128 == 0` and `key[31] & 64 == 64`, a public key equal to
`GenerateCurvePoint(key)`, and a 64-byte private key that is the 32 bytes read
followed by the public key; for a reader that supplies fewer than 32 bytes it
returns the error and nil slices. -/
theorem GenerateKey2_clamps_and_derives (E : Edwards25519) (rand : Bytes) :
    (32 ≤ rand.length →
      ∃ k, GenerateKey2 E rand = some k ∧ k.key.length = 32 ∧
        (k.key.getD 0 0).val &&& 7 = 0 ∧ (k.key.getD 31 0).val &&& 128 = 0 ∧
        (k.key.getD 31 0).val &&& 64 = 64 ∧
        k.publicKey = GenerateCurvePoint E k.key ∧
        k.privateKey.length = 64 ∧ k.privateKey = rand.take 32 ++ k.publicKey) ∧
      (rand.length < 32 → GenerateKey2 E rand = none) := by
  refine ⟨fun h => ?_, fun h => by simp [GenerateKey2, h]⟩
  obtain ⟨k, hk, _⟩ := GenerateKey2_spec E rand h
  obtain ⟨_, hlen, h0, h31, _, hpub, hpriv⟩ := GenerateKey2_key E rand k hk
  obtain ⟨c1, c2, _, _⟩ := byte_clamp_high ((sha512 (rand.take 32)).getD 31 0)
  refine ⟨k, hk, hlen, ?_, ?_, ?_, hpub, ?_, hpriv⟩
  · rw [h0]
    exact byte_clamp_low _
  · rw [h31]
    exact c1
  · rw [h31]
    exact c2
  · rw [hpriv, hpub, GenerateCurvePoint_eq, List.length_append, E.ToBytes_length,
      List.length_take, Nat.min_eq_left h]

/-- C13.  A single bit flip in `s` is always rejected: for every public key
`A`, message `m` and signature `sig` with `Verify(A, m, sig) == true`, and
every bit position in bytes 32..63 of `sig`, `Verify` returns false on the
signature with that one bit flipped. -/
theorem Verify_rejects_bit_flip (E : Edwards25519) (A m sig : Bytes) (i : Nat)
    (hV : Verify E A m sig = some true) (hlo : 256 ≤ i) (hhi : i < 512) :
    Verify E A m (flipBit sig i) = some false := by
  have hA : A.length = 32 := by
    by_contra h
    simp [Verify, h] at hV
  have hsig : sig.length = 64 := by
    by_contra h
    rw [Verify_bad_length E A m sig hA h] at hV
    cases hV
  obtain ⟨hlen, htake, hdrop⟩ := flipBit_signature sig i hlo
  rw [Verify_eq E A m sig hA hsig] at hV
  rw [Verify_eq E A m _ hA (hlen.trans hsig), htake, hdrop]
  by_cases htop : ((flipBit sig i).getD 63 0).val &&& 224 ≠ 0
  · rw [if_pos htop]
  · rw [if_neg htop]
    by_cases htop0 : (sig.getD 63 0).val &&& 224 ≠ 0
    · rw [if_pos htop0] at hV
      cases hV
    · rw [if_neg htop0] at hV
      cases hP : E.FromBytes A with
      | none => rfl
      | some P =>
        rw [hP] at hV
        simp only [Option.some.injEq, bytesEqual, decide_eq_true_eq, decide_eq_false_iff_not]
          at hV ⊢
        intro hV2
        have hpt := ToBytes_injective E (hV.symm.trans hV2)
        have hs := (smul_basePoint_eq_iff E _ _).1 (add_left_cancel hpt)
        have hd : i - 256 < 256 := by omega
        have hlen32 : (sig.drop 32).length = 32 := by simp [hsig]
        rcases leNat_flipBit (sig.drop 32) (i - 256) (by rw [hlen32]; omega) with hf | hf
        · rw [hf] at hs
          have hdvd : L ∣ 2 ^ (i - 256) := by
            have := (Nat.modEq_iff_dvd' (Nat.le_add_right _ _)).1 hs
            simpa using this
          exact L_not_dvd_two_pow _ hdvd
        · rw [hf] at hs
          have hdvd : L ∣ 2 ^ (i - 256) := by
            have := (Nat.modEq_iff_dvd' (Nat.le_add_right _ _)).1 hs.symm
            simpa using this
          exact L_not_dvd_two_pow _ hdvd

/-- Witness of C13: the all-zero signature under the all-zero key, and its bit
256. -/
theorem Verify_rejects_bit_flip_witness :
    Verify logModel (List.replicate 32 0) [] (List.replicate 64 0) = some true ∧
      Verify logModel (List.replicate 32 0) [] (flipBit (List.replicate 64 0) 256) =
        some false :=
  ⟨by decide!, Verify_rejects_bit_flip logModel (List.replicate 32 0) [] (List.replicate 64 0)
    256 (by decide!) (by decide) (by decide)⟩

/-! ## Decoding failures and malformed input -/

/-- An operand that does not decode makes `CurvePoint.Add` panic. -/
theorem CurvePoint.Add_undecodable (E : Edwards25519) (b x : Bytes)
    (h : E.FromBytes (copy32 b) = none) :
    CurvePoint.Add E b x = none ∧ CurvePoint.Add E x b = none := by
  constructor
  · simp [CurvePoint.Add, CurvePoint.toElement, h]
  · cases hx : E.FromBytes (copy32 x) <;> simp [CurvePoint.Add, CurvePoint.toElement, h, hx]

/-- A public key that does not decode is never accepted by `Verify`. -/
theorem Verify_undecodable (E : Edwards25519) (b m sig : Bytes)
    (h : E.FromBytes (copy32 b) = none) : Verify E b m sig ≠ some true := by
  unfold Verify
  split
  · simp
  · split
    · simp
    · simp [h]

/-- On a point argument that does not decode, `GeScalarMult` goes on and
returns 32 bytes. -/
theorem GeScalarMult_undecodable (E : Edwards25519) (a b : Bytes)
    (h : E.FromBytes (copy32 b) = none) :
    GeScalarMult E a b = copyN 32 (E.scalarMultUndecoded (copy32 a) (copy32 b)) ∧
      (GeScalarMult E a b).length = 32 := by
  simp [GeScalarMult, h, copyN_length]

/-- C14.  The failing input: on the 32 bytes `fe ff ... ff`, which do not
decode to a point, `CurvePoint.Add` panics on either operand and `Verify`
returns false, but `GeScalarMult(a, b)` does not fail: it returns 32 bytes
computed from what `FromBytes` left behind. -/
theorem GeScalarMult_undecoded_point :
    logModel.FromBytes (copy32 undecodablePoint) = none ∧
      CurvePoint.Add logModel undecodablePoint (List.replicate 32 0) = none ∧
      CurvePoint.Add logModel (List.replicate 32 0) undecodablePoint = none ∧
      Verify logModel undecodablePoint [] (List.replicate 64 0) = some false ∧
      GeScalarMult logModel (leBytes 32 1) undecodablePoint =
        copyN 32 (logModel.scalarMultUndecoded (leBytes 32 1) undecodablePoint) ∧
      (GeScalarMult logModel (leBytes 32 1) undecodablePoint).length = 32 := by
  have h0 : logModel.FromBytes (copy32 undecodablePoint) = none :=
    Option.isNone_iff_eq_none.1 (by decide!)
  exact ⟨h0, by decide!⟩

/-- Counterexample to C15: Bob receives `"zz"`, which is not valid hex, in
place of `c1a1`, and the hex of 33 bytes in place of `c2a2`; he does not stop
but sends `c2a2b2` (line 320). -/
theorem malformed_contribution_not_rejected :
    hexDecodeString [122, 122] = ([], true) ∧
      (received (hexEncodeToString (List.replicate 33 1))).length = 33 ∧
      ((party_bob.proc logModel sampleZenon sampleSwap).run malformedBobInbox).1.map
        Action.line = [212, 221, 256, 257, 258, 278, 293, 320] := by
  decide!

/-- C15, amended.  Malformed input is not rejected: when a message a party
receives in place of a public key, a scalar contribution or a pre-signature is
not valid hex, or does not decode to exactly 32 bytes, the party goes on with
the bytes decoded before the first error, truncated or zero-padded to 32
bytes: it sends the same later protocol messages, submits the same ledger
actions and ends in the same way as on the hex encoding of those 32 bytes. -/
theorem malformed_input_used_padded (E : Edwards25519) (Z : Zenon) (i : SwapInputs)
    (inbox : List Message) :
    (party_alice.proc E Z i).run inbox =
        (party_alice.proc E Z i).run (asUsedAt party_alice.hexInputs inbox) ∧
      (party_bob.proc E Z i).run inbox =
        (party_bob.proc E Z i).run (asUsedAt party_bob.hexInputs inbox) :=
  ⟨(alice_run_asUsed E Z i inbox).symm, (bob_run_asUsed E Z i inbox).symm⟩

/-! ## The order of checks and messages -/

/-- C17.  Verify before reveal: on every sequence of incoming messages, Bob
sends his pre-signature `s_adapt_a` (line 339) only if his check of the
received `s_adapt_b` succeeded, and Alice submits the unlock of PTLC2
(line 181) or sends `sa` (line 195) only if both her point-equation check and
`Verify(AB1, msgA, sa64)` succeeded on the value built from the received
`s_adapt_a`. -/
theorem verify_before_reveal (E : Edwards25519) (Z : Zenon) (i : SwapInputs)
    (inbox : List Message) :
    (339 ∈ ((party_bob.proc E Z i).run inbox).1.map Action.line →
      ∃ hello mAddressA mA1 mA2 mRa mT mPtlc1Id m_c1a1 m_c2a2 m_s_adapt_b rest addressA ptlc1Id j c,
        inbox = hello :: mAddressA :: mA1 :: mA2 :: mRa :: mT :: mPtlc1Id :: m_c1a1 :: m_c2a2 ::
          m_s_adapt_b :: rest ∧
        Z.ParseAddressPanic mAddressA = some addressA ∧
        Z.HexToHashPanic mPtlc1Id = some ptlc1Id ∧
        jointKeys E (received mA1) (received mA2) (received mRa) (received mT)
          (party_bob.generateKeys E i.rand_b1 i.rand_b2 i.rand_rb).B1
          (party_bob.generateKeys E i.rand_b1 i.rand_b2 i.rand_rb).B2
          (party_bob.generateKeys E i.rand_b1 i.rand_b2 i.rand_rb).Rb = some j ∧
        party_bob.challenges Z.Hash (party_bob.generateKeys E i.rand_b1 i.rand_b2 i.rand_rb) j
          addressA i.addressB ptlc1Id i.ptlc2Id (received m_c1a1) (received m_c2a2) = some c ∧
        party_bob.checkAdaptor E c.c2 j.AB2 (received mRa) (received m_s_adapt_b) = some true) ∧
    (181 ∈ ((party_alice.proc E Z i).run inbox).1.map Action.line ∨
        195 ∈ ((party_alice.proc E Z i).run inbox).1.map Action.line →
      ∃ hello mAddressB mB1 mB2 mRb mPtlc2Id m_c2a2b2 m_s_adapt_a rest addressB j ptlc2Id c,
        ∃ sig : party_alice.Signature,
        inbox = hello :: mAddressB :: mB1 :: mB2 :: mRb :: mPtlc2Id :: m_c2a2b2 :: m_s_adapt_a ::
          rest ∧
        Z.ParseAddressPanic mAddressB = some addressB ∧
        jointKeys E (party_alice.generateKeys E i.rand_a1 i.rand_a2 i.rand_ra i.rand_t).A1
          (party_alice.generateKeys E i.rand_a1 i.rand_a2 i.rand_ra i.rand_t).A2
          (party_alice.generateKeys E i.rand_a1 i.rand_a2 i.rand_ra i.rand_t).Ra
          (party_alice.generateKeys E i.rand_a1 i.rand_a2 i.rand_ra i.rand_t).T
          (received mB1) (received mB2) (received mRb) = some j ∧
        Z.HexToHashPanic mPtlc2Id = some ptlc2Id ∧
        party_alice.challenges Z.Hash
          (party_alice.generateKeys E i.rand_a1 i.rand_a2 i.rand_ra i.rand_t) j i.addressA
          addressB i.ptlc1Id ptlc2Id = some c ∧
        sig.sa = Scalar.Add (received m_s_adapt_a)
          (party_alice.generateKeys E i.rand_a1 i.rand_a2 i.rand_ra i.rand_t).t ∧
        party_alice.checkSignature E c.c1 j.AB1 j.RbT sig.sa = some true ∧
        party_alice.signature64 j.RbT sig.sa = some sig.sa64 ∧
        Verify E j.AB1 c.msgA sig.sa64 = some true ∧
        Action.unlock 181 ptlc2Id sig.sa64 ∈ ((party_alice.proc E Z i).run inbox).1 ∧
        Action.send 195 (hexEncodeToString sig.sa) ∈ ((party_alice.proc E Z i).run inbox).1) := by
  constructor
  · intro h
    rcases inbox with _ | ⟨hello, _ | ⟨mAddressA, inbox⟩⟩
    · simp [party_bob.proc, Proc.run] at h
    · simp [party_bob.proc, Proc.run, Action.line] at h
    cases hA : Z.ParseAddressPanic mAddressA with
    | none => simp [party_bob.proc, Proc.run, Action.line, hA] at h
    | some addressA =>
    rcases inbox with _ | ⟨mA1, _ | ⟨mA2, _ | ⟨mRa, _ | ⟨mT, inbox⟩⟩⟩⟩
    · simp [party_bob.proc, Proc.run, Action.line, hA] at h
    · simp [party_bob.proc, Proc.run, Action.line, hA] at h
    · simp [party_bob.proc, Proc.run, Action.line, hA] at h
    · simp [party_bob.proc, Proc.run, Action.line, hA] at h
    cases hJ : jointKeys E (received mA1) (received mA2) (received mRa) (received mT)
          (party_bob.generateKeys E i.rand_b1 i.rand_b2 i.rand_rb).B1
          (party_bob.generateKeys E i.rand_b1 i.rand_b2 i.rand_rb).B2
          (party_bob.generateKeys E i.rand_b1 i.rand_b2 i.rand_rb).Rb with
    | none => simp [party_bob.proc, Proc.run, Action.line, hA, hJ] at h
    | some j =>
    rcases inbox with _ | ⟨mPtlc1Id, inbox⟩
    · simp [party_bob.proc, Proc.run, Action.line, hA, hJ] at h
    cases hI : Z.HexToHashPanic mPtlc1Id with
    | none => simp [party_bob.proc, Proc.run, Action.line, hA, hJ, hI] at h
    | some ptlc1Id =>
    rcases inbox with _ | ⟨m_c1a1, _ | ⟨m_c2a2, inbox⟩⟩
    · simp [party_bob.proc, Proc.run, Action.line, hA, hJ, hI] at h
    · simp [party_bob.proc, Proc.run, Action.line, hA, hJ, hI] at h
    cases hC : party_bob.challenges Z.Hash (party_bob.generateKeys E i.rand_b1 i.rand_b2 i.rand_rb)
        j addressA i.addressB ptlc1Id i.ptlc2Id (received m_c1a1) (received m_c2a2) with
    | none => simp [party_bob.proc, Proc.run, Action.line, hA, hJ, hI, hC] at h
    | some c =>
    rcases inbox with _ | ⟨m_s_adapt_b, inbox⟩
    · simp [party_bob.proc, Proc.run, Action.line, hA, hJ, hI, hC] at h
    cases hS : party_bob.adaptorSignature E (party_bob.generateKeys E i.rand_b1 i.rand_b2 i.rand_rb)
        (received mRa) j c (received m_s_adapt_b) with
    | none => simp [party_bob.proc, Proc.run, Action.line, hA, hJ, hI, hC, hS] at h
    | some s_adapt_a =>
    exact ⟨hello, mAddressA, mA1, mA2, mRa, mT, mPtlc1Id, m_c1a1, m_c2a2, m_s_adapt_b, inbox,
      addressA, ptlc1Id, j, c, rfl, hA, hI, hJ, hC, (bob_adaptorSignature_inv E _ _ _ _ _ _ hS).1⟩
  · intro h
    rcases inbox with _ | ⟨hello, _ | ⟨mAddressB, inbox⟩⟩
    · simp [party_alice.proc, Proc.run, Action.line] at h
    · simp [party_alice.proc, Proc.run, Action.line] at h
    cases hA : Z.ParseAddressPanic mAddressB with
    | none => simp [party_alice.proc, Proc.run, Action.line, hA] at h
    | some addressB =>
    rcases inbox with _ | ⟨mB1, _ | ⟨mB2, _ | ⟨mRb, inbox⟩⟩⟩
    · simp [party_alice.proc, Proc.run, Action.line, hA] at h
    · simp [party_alice.proc, Proc.run, Action.line, hA] at h
    · simp [party_alice.proc, Proc.run, Action.line, hA] at h
    cases hJ : jointKeys E (party_alice.generateKeys E i.rand_a1 i.rand_a2 i.rand_ra i.rand_t).A1
          (party_alice.generateKeys E i.rand_a1 i.rand_a2 i.rand_ra i.rand_t).A2
          (party_alice.generateKeys E i.rand_a1 i.rand_a2 i.rand_ra i.rand_t).Ra
          (party_alice.generateKeys E i.rand_a1 i.rand_a2 i.rand_ra i.rand_t).T
          (received mB1) (received mB2) (received mRb) with
    | none => simp [party_alice.proc, Proc.run, Action.line, hA, hJ] at h
    | some j =>
    rcases inbox with _ | ⟨mPtlc2Id, inbox⟩
    · simp [party_alice.proc, Proc.run, Action.line, hA, hJ] at h
    cases hI : Z.HexToHashPanic mPtlc2Id with
    | none => simp [party_alice.proc, Proc.run, Action.line, hA, hJ, hI] at h
    | some ptlc2Id =>
    cases hC : party_alice.challenges Z.Hash
        (party_alice.generateKeys E i.rand_a1 i.rand_a2 i.rand_ra i.rand_t) j i.addressA addressB
        i.ptlc1Id ptlc2Id with
    | none => simp [party_alice.proc, Proc.run, Action.line, hA, hJ, hI, hC] at h
    | some c =>
    rcases inbox with _ | ⟨m_c2a2b2, inbox⟩
    · simp [party_alice.proc, Proc.run, Action.line, hA, hJ, hI, hC] at h
    cases hS : party_alice.adaptorSignature
        (party_alice.generateKeys E i.rand_a1 i.rand_a2 i.rand_ra i.rand_t)
        (received m_c2a2b2) with
    | none => simp [party_alice.proc, Proc.run, Action.line, hA, hJ, hI, hC, hS] at h
    | some s_adapt_b =>
    rcases inbox with _ | ⟨m_s_adapt_a, inbox⟩
    · simp [party_alice.proc, Proc.run, Action.line, hA, hJ, hI, hC, hS] at h
    cases hG : party_alice.signature E
        (party_alice.generateKeys E i.rand_a1 i.rand_a2 i.rand_ra i.rand_t) j c
        (received m_s_adapt_a) with
    | none => simp [party_alice.proc, Proc.run, Action.line, hA, hJ, hI, hC, hS, hG] at h
    | some sig =>
    obtain ⟨e1, e2, e3, e4⟩ := alice_signature_inv E _ _ _ _ _ hG
    refine ⟨hello, mAddressB, mB1, mB2, mRb, mPtlc2Id, m_c2a2b2, m_s_adapt_a, inbox, addressB, j,
      ptlc2Id, c, sig, rfl, hA, hJ, hI, hC, e1, e2, e3, e4, ?_, ?_⟩
    · simp [party_alice.proc, Proc.run, hA, hJ, hI, hC, hS, hG]
    · simp [party_alice.proc, Proc.run, hA, hJ, hI, hC, hS, hG]

/-- Witness of C17: the sample swap, each party on the messages the other
sends. -/
theorem verify_before_reveal_witness :
    (∃ inbox,
        339 ∈ ((party_bob.proc logModel sampleZenon sampleSwap).run inbox).1.map Action.line ∧
        ∃ (j : JointKeys) (c : party_bob.Challenges) (mRa m : Message),
          party_bob.checkAdaptor logModel c.c2 j.AB2 (received mRa) (received m) = some true) ∧
      (∃ inbox,
        181 ∈ ((party_alice.proc logModel sampleZenon sampleSwap).run inbox).1.map Action.line ∧
        ∃ (j : JointKeys) (c : party_alice.Challenges) (sig : party_alice.Signature),
          Verify logModel j.AB1 c.msgA sig.sa64 = some true) := by
  obtain ⟨r, hr, _⟩ := honestRun_spec logModel sampleZenon.Hash sampleSwap (by decide)
    (by decide) (by decide) (by decide) (by decide) (by decide) (by decide)
  obtain ⟨hpa, hpb⟩ := honestRun_processes logModel sampleZenon sampleSwap r hr (by decide!)
    (by decide!) (by decide!) (by decide!)
  have hb : 339 ∈ ((party_bob.proc logModel sampleZenon sampleSwap).run
      (sent (party_alice.actions sampleZenon sampleSwap r))).1.map Action.line := by
    rw [hpb]
    simp [party_bob.actions, Action.line]
  have ha : 181 ∈ ((party_alice.proc logModel sampleZenon sampleSwap).run
      (sent (party_bob.actions sampleZenon sampleSwap r))).1.map Action.line := by
    rw [hpa]
    simp [party_alice.actions, Action.line]
  constructor
  · obtain ⟨_, _, _, _, mRa, _, _, _, _, m, _, _, _, j, c, _, _, _, _, _, hc⟩ :=
      (verify_before_reveal logModel sampleZenon sampleSwap _).1 hb
    exact ⟨_, hb, j, c, mRa, m, hc⟩
  · obtain ⟨_, _, _, _, _, _, _, _, _, _, j, _, c, sig, _, _, _, _, _, _, _, _, hv, _⟩ :=
      (verify_before_reveal logModel sampleZenon sampleSwap _).2 (Or.inl ha)
    exact ⟨_, ha, j, c, sig, hv⟩

/-- C18.  Both parties converge on the same messages and challenges: in the
run of the two processes against each other, each hex message delivered
unchanged, Alice and Bob compute the same `msgA = Hash(ptlc2Id || addressA)`,
`msgB = Hash(ptlc1Id || addressB)`, `c1` and `c2`; `msgA`, built from the id of
the escrow Bob creates and Alice's address, is the message of the signature
`sa64` with which Alice unlocks that escrow, and `msgB`, built from the id of
the escrow Alice creates and Bob's address, that of `sb64`. -/
theorem messages_and_challenges_converge (E : Edwards25519) (Z : Zenon) (i : SwapInputs)
    (h_a1 : 32 ≤ i.rand_a1.length) (h_a2 : 32 ≤ i.rand_a2.length)
    (h_ra : 32 ≤ i.rand_ra.length) (h_t : 32 ≤ i.rand_t.length)
    (h_b1 : 32 ≤ i.rand_b1.length) (h_b2 : 32 ≤ i.rand_b2.length)
    (h_rb : 32 ≤ i.rand_rb.length)
    (hA : Z.ParseAddressPanic (Z.addressString i.addressA) = some i.addressA)
    (hB : Z.ParseAddressPanic (Z.addressString i.addressB) = some i.addressB)
    (h1 : Z.HexToHashPanic (hexEncodeToString i.ptlc1Id) = some i.ptlc1Id)
    (h2 : Z.HexToHashPanic (hexEncodeToString i.ptlc2Id) = some i.ptlc2Id) :
    ∃ r, honestRun E Z.Hash i = some r ∧
      ((party_alice.proc E Z i).run (sent (party_bob.actions Z i r)) =
          (party_alice.actions Z i r, Outcome.finished) ∧
        (party_bob.proc E Z i).run (sent (party_alice.actions Z i r)) =
          (party_bob.actions Z i r, Outcome.finished)) ∧
      (r.aliceChallenges.msgA = Z.Hash (i.ptlc2Id ++ i.addressA) ∧
        r.bobChallenges.msgA = Z.Hash (i.ptlc2Id ++ i.addressA) ∧
        r.aliceChallenges.msgB = Z.Hash (i.ptlc1Id ++ i.addressB) ∧
        r.bobChallenges.msgB = Z.Hash (i.ptlc1Id ++ i.addressB)) ∧
      (r.bobChallenges.c1 = r.aliceChallenges.c1 ∧ r.bobChallenges.c2 = r.aliceChallenges.c2 ∧
        r.aliceChallenges.c1 =
          Challenge r.aliceJoint.AB1 r.aliceJoint.RbT r.aliceChallenges.msgA ∧
        r.aliceChallenges.c2 =
          Challenge r.aliceJoint.AB2 r.aliceJoint.RaT r.aliceChallenges.msgB) ∧
      (Action.create 278 r.expiration2 r.bobJoint.AB1 ∈ party_bob.actions Z i r ∧
        Action.send 293 (hexEncodeToString i.ptlc2Id) ∈ party_bob.actions Z i r ∧
        Action.unlock 181 i.ptlc2Id r.aliceSignature.sa64 ∈ party_alice.actions Z i r ∧
        Verify E r.aliceJoint.AB1 r.aliceChallenges.msgA r.aliceSignature.sa64 = some true) ∧
      (Action.create 96 r.expiration1 r.aliceJoint.AB2 ∈ party_alice.actions Z i r ∧
        Action.send 111 (hexEncodeToString i.ptlc1Id) ∈ party_alice.actions Z i r ∧
        Action.unlock 371 i.ptlc1Id r.bobSignature.sb64 ∈ party_bob.actions Z i r ∧
        Verify E r.aliceJoint.AB2 r.bobChallenges.msgB r.bobSignature.sb64 = some true) := by
  obtain ⟨r, hr, _, _, _, _, ⟨hmA, hmB, hc1, hc2, _, _⟩, ⟨hbmA, hbmB, hbc1, hbc2, _, _⟩, _, _,
    ⟨_, _, hvA, _, hvB⟩⟩ := honestRun_spec E Z.Hash i h_a1 h_a2 h_ra h_t h_b1 h_b2 h_rb
  refine ⟨r, hr, honestRun_processes E Z i r hr hA hB h1 h2, ⟨hmA, ?_, hmB, ?_⟩,
    ⟨hbc1, hbc2, hc1, hc2⟩, ⟨?_, ?_, ?_, hvA⟩, ⟨?_, ?_, ?_, hvB⟩⟩
  · rw [hbmA, hmA]
  · rw [hbmB, hmB]
  all_goals simp [party_alice.actions, party_bob.actions]

/-- Witness of C18: the sample swap. -/
theorem messages_and_challenges_converge_witness :
    ∃ r, honestRun logModel sampleZenon.Hash sampleSwap = some r ∧
      r.bobChallenges.msgA = r.aliceChallenges.msgA ∧
      r.bobChallenges.msgB = r.aliceChallenges.msgB ∧
      r.bobChallenges.c1 = r.aliceChallenges.c1 ∧ r.bobChallenges.c2 = r.aliceChallenges.c2 := by
  obtain ⟨r, hr, _, ⟨a1, a2, a3, a4⟩, ⟨c1, c2, _, _⟩, _⟩ :=
    messages_and_challenges_converge logModel sampleZenon sampleSwap (by decide) (by decide)
      (by decide) (by decide) (by decide) (by decide) (by decide) (by decide!) (by decide!)
      (by decide!) (by decide!)
  exact ⟨r, hr, a2.trans a1.symm, a4.trans a3.symm, c1, c2⟩

/-! ## The extracted secret -/

/-- C19.  The extracted secret opens the shared adaptor point: in the run of
the two parties, the scalar Bob extracts, `t' = sa.Subtract(s_adapt_a)`,
satisfies `GenerateCurvePoint(t') == T` for the public key `T` that Alice
generated together with her adaptor secret `t`, and `t'` is congruent to `t`
modulo `L`. -/
theorem extracted_secret_opens_adaptor (E : Edwards25519) (Hash : HashFn) (i : SwapInputs)
    (h_a1 : 32 ≤ i.rand_a1.length) (h_a2 : 32 ≤ i.rand_a2.length)
    (h_ra : 32 ≤ i.rand_ra.length) (h_t : 32 ≤ i.rand_t.length)
    (h_b1 : 32 ≤ i.rand_b1.length) (h_b2 : 32 ≤ i.rand_b2.length)
    (h_rb : 32 ≤ i.rand_rb.length) :
    ∃ r, honestRun E Hash i = some r ∧
      (r.aliceKeys.t, r.aliceKeys.T) = keyAndPublic E i.rand_t ∧
      r.bobSignature.t = Scalar.Subtract r.aliceSignature.sa r.s_adapt_a ∧
      GenerateCurvePoint E r.bobSignature.t = r.aliceKeys.T ∧
      leNat r.bobSignature.t % L = leNat r.aliceKeys.t % L := by
  obtain ⟨r, hr, ⟨hka, _, _⟩, ⟨_, _, _, lt, _, _, _⟩, ⟨_, _, _, pT, _, _, _⟩, _, _, _, _,
    ⟨hsa, _, ht, _, _⟩, _⟩ := honestRun_spec E Hash i h_a1 h_a2 h_ra h_t h_b1 h_b2 h_rb
  have hcast : (leNat r.bobSignature.t : ZMod L) = (leNat r.aliceKeys.t : ZMod L) := by
    rw [ht, hsa, cast_extract, copy32_of_length lt]
  refine ⟨r, hr, ?_, ht, ?_, ?_⟩
  · rw [hka]
    rfl
  · rw [GenerateCurvePoint_eq, pT, ht, copy32_Subtract, ← ht]
    exact congrArg E.ToBytes (smul_basePoint_congr E hcast)
  · exact (ZMod.natCast_eq_natCast_iff' _ _ _).1 hcast

/-- Witness of C19: the sample swap. -/
theorem extracted_secret_opens_adaptor_witness :
    ∃ r, honestRun logModel (fun b => b) sampleSwap = some r ∧
      GenerateCurvePoint logModel r.bobSignature.t = r.aliceKeys.T := by
  obtain ⟨r, hr, _, _, hT, _⟩ := extracted_secret_opens_adaptor logModel (fun b => b)
    sampleSwap (by decide) (by decide) (by decide) (by decide) (by decide) (by decide)
    (by decide)
  exact ⟨r, hr, hT⟩

/-- C20.  Secrets fed to scalar arithmetic are never reduced: for every
reader input of at least 32 bytes, the key returned by `GenerateKey2`, read as a
little-endian integer, lies in `[2^254, 2^255)` and is greater than the group
order `L`; hence in the run of the two parties every secret passed to
`Scalar.Multiply` and `Scalar.Add` (`a1`, `a2`, `b1`, `b2`, `ra`, `rb`, `t`) is
greater than `L`, and the adaptor secret Bob extracts is not byte-equal to the
`t` Alice generated. -/
theorem secrets_never_reduced (E : Edwards25519) (Hash : HashFn) (i : SwapInputs)
    (h_a1 : 32 ≤ i.rand_a1.length) (h_a2 : 32 ≤ i.rand_a2.length)
    (h_ra : 32 ≤ i.rand_ra.length) (h_t : 32 ≤ i.rand_t.length)
    (h_b1 : 32 ≤ i.rand_b1.length) (h_b2 : 32 ≤ i.rand_b2.length)
    (h_rb : 32 ≤ i.rand_rb.length) :
    (∀ rand : Bytes, 32 ≤ rand.length →
      ∃ k, GenerateKey2 E rand = some k ∧
        2 ^ 254 ≤ leNat k.key ∧ leNat k.key < 2 ^ 255 ∧ L < leNat k.key) ∧
      ∃ r, honestRun E Hash i = some r ∧
        (L < leNat r.aliceKeys.a1 ∧ L < leNat r.aliceKeys.a2 ∧ L < leNat r.bobKeys.b1 ∧
          L < leNat r.bobKeys.b2 ∧ L < leNat r.aliceKeys.ra ∧ L < leNat r.bobKeys.rb ∧
          L < leNat r.aliceKeys.t) ∧
        (r.aliceChallenges.c1a1 = Scalar.Multiply r.aliceChallenges.c1 r.aliceKeys.a1 ∧
          r.aliceChallenges.c2a2 = Scalar.Multiply r.aliceChallenges.c2 r.aliceKeys.a2 ∧
          r.bobChallenges.c1a1b1 =
            Scalar.Add (Scalar.Multiply r.bobChallenges.c1 r.bobKeys.b1) r.aliceChallenges.c1a1 ∧
          r.bobChallenges.c2a2b2 =
            Scalar.Add (Scalar.Multiply r.bobChallenges.c2 r.bobKeys.b2) r.aliceChallenges.c2a2 ∧
          r.s_adapt_b = Scalar.Add r.bobChallenges.c2a2b2 r.aliceKeys.ra ∧
          r.s_adapt_a = Scalar.Add r.bobChallenges.c1a1b1 r.bobKeys.rb ∧
          r.aliceSignature.sa = Scalar.Add r.s_adapt_a r.aliceKeys.t) ∧
        r.bobSignature.t = Scalar.Subtract r.aliceSignature.sa r.s_adapt_a ∧
        leNat r.bobSignature.t < L ∧ r.bobSignature.t ≠ r.aliceKeys.t := by
  constructor
  · intro rand h
    obtain ⟨k, hk, _⟩ := GenerateKey2_spec E rand h
    exact ⟨k, hk, GenerateKey2_key_range E rand k hk⟩
  · obtain ⟨r, hr, ⟨hka, hkb, _⟩, _, _, _, ⟨_, _, _, _, hc1a1, hc2a2⟩,
      ⟨_, _, _, _, hc1a1b1, hc2a2b2⟩, ⟨hsb, hsa⟩, ⟨hsig, _, ht, _, _⟩, _⟩ :=
      honestRun_spec E Hash i h_a1 h_a2 h_ra h_t h_b1 h_b2 h_rb
    have hlt : leNat r.bobSignature.t < L := by
      rw [ht]
      exact leNat_Subtract_lt _ _
    have ra1 := (keyAndPublic_range E _ h_a1).2.2
    have ra2 := (keyAndPublic_range E _ h_a2).2.2
    have rra := (keyAndPublic_range E _ h_ra).2.2
    have rt := (keyAndPublic_range E _ h_t).2.2
    have rb1 := (keyAndPublic_range E _ h_b1).2.2
    have rb2 := (keyAndPublic_range E _ h_b2).2.2
    have rrb := (keyAndPublic_range E _ h_rb).2.2
    have gt : L < leNat r.aliceKeys.t := by
      rw [hka]
      exact rt
    refine ⟨r, hr, ⟨?_, ?_, ?_, ?_, ?_, ?_, gt⟩, ⟨hc1a1, hc2a2, hc1a1b1, hc2a2b2, hsb, hsa, hsig⟩,
      ht, hlt, ?_⟩
    · rw [hka]
      exact ra1
    · rw [hka]
      exact ra2
    · rw [hkb]
      exact rb1
    · rw [hkb]
      exact rb2
    · rw [hka]
      exact rra
    · rw [hkb]
      exact rrb
    · intro h
      rw [h] at hlt
      omega

/-- Witness of C20: the sample swap. -/
theorem secrets_never_reduced_witness :
    ∃ r, honestRun logModel (fun b => b) sampleSwap = some r ∧
      r.bobSignature.t ≠ r.aliceKeys.t := by
  obtain ⟨r, hr, _, _, _, _, hne⟩ := (secrets_never_reduced logModel (fun b => b)
    sampleSwap (by decide) (by decide) (by decide) (by decide) (by decide) (by decide)
    (by decide)).2
  exact ⟨r, hr, hne⟩

end PTLC
